import Mathlib

/-!
# Pets and vehicles of the A1K runner (`a1k-enhanced-pets-vehicles.js`)

A shallow embedding of the companion subsystem of
`Runner 7/assets/js/a1k-enhanced-pets-vehicles.js`. The names under `Gameplay` embed
the vehicle and targeting code of `data 2/gameplay-pets-vehicles.js`, the names under
`Managers` the state selection of `Runner 7/managers/pet_vehicle.js`.

* JavaScript objects live in an object store: a player, pet, vehicle or enemy
  is referred to by a natural number (its identity, as compared by `===`,
  `indexOf` and `includes`), and the store maps references to the current
  field values.
* Numbers that carry quantities (hp, fuel, coordinates, elapsed time, levels)
  are rationals and the arithmetic on them is exact, with one exception: the
  subtraction `this.fuel - deltaTime` of `Vehicle.consumeFuel` is rounded to
  the nearest double (`toDouble`, 53 significant bits, ties to even; the
  exponent range of doubles is not modelled), because a time step far below
  the fuel is absorbed by the rounding. Clock readings (`Date.now()`) are
  integers. Each operation receives the clock reading and the `Math.random()`
  rolls it uses as explicit arguments.
* A lookup in a literal table sees the keys written in the table. The tables
  indexed by the type or the rank of a vehicle (`riderCounts`, `positions`,
  `CONFIG.VEHICLE.FUEL_UPGRADE_PER_10_LEVELS`) also answer to the names every
  object literal inherits from `Object.prototype` (`inheritedNames`): such a
  lookup yields the inherited member, which is truthy and is `NaN` as a
  number. The other tables (`CONFIG.PET.POWER_TIERS`, `positionTypes`,
  `VEH_TYPES`) are modelled with their own keys only: there a key named after
  a member of `Object.prototype` is read as any other missing key, and the
  theorems on pets that read `CONFIG.PET.POWER_TIERS` are stated for the ranks
  of that table.
* The DOM side of the methods (sprites, bars, buttons, `console.log`) is not
  part of the state. The idle-despawn `setTimeout` of `Vehicle.dismount` is
  kept as an entry of an explicit list of pending timers.
-/

namespace A1K

/-! ## Configuration (`CONFIG`) -/

/-- The entry of `CONFIG.PET.POWER_TIERS` for one rank. -/
structure Tier where
  minDamage : ℚ
  maxDamage : ℚ
  level30Bonus : Option ℚ
  cooldown : Option ℤ

def CONFIG.PET.MAX_PER_OWNER : ℕ := 1
def CONFIG.PET.MAX_TOTAL : ℕ := 3
def CONFIG.PET.LIFESPAN_MS : ℤ := 120000
def CONFIG.PET.MAX_HP : ℚ := 100
def CONFIG.PET.COOLDOWN_MS : ℤ := 60000

/-- The table `CONFIG.PET.POWER_TIERS`; a rank outside the table reads `undefined`. -/
def CONFIG.PET.POWER_TIERS : String → Option Tier
  | "C" => some ⟨1 / 10, 2 / 10, some (1 / 10), none⟩
  | "B" => some ⟨15 / 100, 3 / 10, some (15 / 100), none⟩
  | "A" => some ⟨4 / 10, 45 / 100, none, some 60000⟩
  | "S" => some ⟨45 / 100, 5 / 10, none, some 50000⟩
  | "SS" => some ⟨5 / 10, 55 / 100, none, some 40000⟩
  | _ => none

def CONFIG.VEHICLE.FUEL_BASELINE : ℚ := 30000
def CONFIG.VEHICLE.FUEL_MAX : ℚ := 50000

/-! ## JavaScript helpers -/

/-- The names of the members that every object literal inherits from
`Object.prototype`. -/
def inheritedNames : List String :=
  ["constructor", "hasOwnProperty", "isPrototypeOf", "propertyIsEnumerable",
    "toLocaleString", "toString", "valueOf", "__proto__", "__defineGetter__",
    "__defineSetter__", "__lookupGetter__", "__lookupSetter__"]

/-- The result of `table[key]` for an object literal `table`: an own property, a
member inherited from `Object.prototype` (a function, or the prototype object for
`__proto__`), or `undefined`. -/
inductive Lookup (α : Type) where
  | own (a : α)
  | inherited
  | undefined

/-- What a numeric property of a player holds: nothing (`undefined`), `NaN` or a
number. -/
inductive Value where
  | undefined
  | nan
  | num (q : ℚ)

/-- The expression `table[key] || d` for a table of numbers. The result `none` is the
inherited member of `Object.prototype`, which is truthy; it is `NaN` wherever a number
is computed from it or compared with it. -/
def Lookup.orElse {α : Type} [Zero α] [DecidableEq α] (a : Lookup α) (d : α) : Option α :=
  match a with
  | .own v => some (if v = 0 then d else v)
  | .inherited => none
  | .undefined => some d

/-- The comparison `n >= m` of a length with a property that holds a number or, for
`none`, a member of `Object.prototype` (`NaN` as a number, so the comparison is
false). -/
def geNumber (n : ℕ) (m : Option ℕ) : Bool :=
  match m with
  | some q => decide (q ≤ n)
  | none => false

/-- The comparison `a <= m` with a property that holds a number or, for `none`, the
value `NaN` (the comparison is then false). -/
def leNumber (a : ℚ) (m : Option ℚ) : Bool :=
  match m with
  | some q => decide (a ≤ q)
  | none => false

/-- Rounding to the nearest integer, a tie to the even one. -/
def roundHalfEven (q : ℚ) : ℤ :=
  if Int.fract q < 1 / 2 then ⌊q⌋
  else if 1 / 2 < Int.fract q then ⌊q⌋ + 1
  else if ⌊q⌋ % 2 = 0 then ⌊q⌋ else ⌊q⌋ + 1

/-- The double nearest to `q` (round to nearest, ties to even): `q` is rounded to
53 significant bits, that is to a whole multiple of `2 ^ (e - 52)` where
`2 ^ e ≤ |q| < 2 ^ (e + 1)`. The exponent range of doubles is not modelled; for the
difference of two doubles the result is the one of IEEE 754 unless that overflows,
since a difference below the normal range is exact. -/
def toDouble (q : ℚ) : ℚ :=
  if q = 0 then 0
  else roundHalfEven (q / 2 ^ (Int.log 2 |q| - 52)) * 2 ^ (Int.log 2 |q| - 52)

/-- The table `CONFIG.VEHICLE.FUEL_UPGRADE_PER_10_LEVELS`. -/
def CONFIG.VEHICLE.FUEL_UPGRADE_PER_10_LEVELS : String → Lookup ℚ
  | "C" => .own 5000
  | "B" => .own 7000
  | "A" => .own 10000
  | "S" => .own 12000
  | "SS" => .own 15000
  | key => if key ∈ inheritedNames then .inherited else .undefined

/-- The expression `a || d` for a numeric property that may be missing:
`undefined` and `0` are falsy. -/
def orElse (a : Option ℚ) (d : ℚ) : ℚ :=
  match a with
  | some v => if v = 0 then d else v
  | none => d

/-- The expression `a || d` for an integer property that may be missing. -/
def orElseInt (a : Option ℤ) (d : ℤ) : ℤ :=
  match a with
  | some v => if v = 0 then d else v
  | none => d

/-- The expression `arr[Math.floor(r * n)]` for an array literal `arr`;
`none` stands for `undefined`. -/
def pick {α : Type} (arr : List α) (r : ℚ) (n : ℚ) : Option α :=
  if ⌊r * n⌋ < 0 then none else arr.get? (⌊r * n⌋).toNat

/-! ## Objects -/

/-- A player (owner, rider). Only the properties this file reads or writes. -/
structure Player where
  x : Option ℚ := none
  y : Option ℚ := none
  groundY : Option ℚ := none
  isUsingSkill : Bool := false
  currentSkill : Option ℤ := none
  vehicle : Option ℕ := none
  mountedVehicle : Option String := none
  vehicleOffsetX : Value := .undefined
  vehicleOffsetY : Value := .undefined
  petCooldownUntil : Option ℤ := none

/-- An enemy, as read by `useSkill` and `findNearestEnemy`. -/
structure Enemy where
  x : Option ℚ := none
  y : Option ℚ := none
  hp : Option ℚ := none
  maxHp : Option ℚ := none

/-- The fields of a `Pet` object (sprite apart). -/
structure Pet where
  owner : Option ℕ
  species : String
  rank : String
  level : ℚ
  hp : ℚ
  maxHp : ℚ
  x : ℚ
  y : ℚ
  targetX : ℚ
  targetY : ℚ
  canFly : Bool
  spawnTime : ℤ
  lastSkillUse : ℤ
  isDespawning : Bool

/-- The fields of a `Vehicle` object (sprite apart). `maxRiders` holds a number, or
for `none` a member inherited from `Object.prototype`; `maxFuel` holds a number, or
for `none` the value `NaN`. -/
structure Vehicle where
  type : String
  level : ℚ
  rank : String
  riders : List ℕ
  maxRiders : Option ℕ
  fuel : ℚ
  maxFuel : Option ℚ
  fuelTankUpgrade : Bool
  x : ℚ
  y : ℚ

/-- The properties of the global `G = window.Game` used by this file. An
undefined roster behaves as the empty array at each of its uses
(`G.pets || []`, `if (G.pets)`), so rosters are plain lists. -/
structure Game where
  pets : List ℕ := []
  vehicles : List ℕ := []
  party : Option (List ℕ) := none
  player : Option ℕ := none
  enemies : List ℕ := []

/-- The expression `G.party || [G.player].filter(Boolean)`: the party, or the player alone
when no party is set. -/
def Game.players (G : Game) : List ℕ :=
  match G.party with
  | some party => party
  | none => G.player.toList

/-- A pending `setTimeout` armed by `Vehicle.dismount`: at `due` the callback
despawns `vehicle` with reason "empty" if it has no riders then. -/
structure Timer where
  due : ℤ
  vehicle : ℕ

/-- The program state: the global `G`, the object store and the pending
timers. `nextPet` and `nextVehicle` are the references the next `new Pet` and
`new Vehicle` receive. -/
structure World where
  G : Game
  playerObj : ℕ → Player
  enemyObj : ℕ → Enemy
  petObj : ℕ → Pet
  vehicleObj : ℕ → Vehicle
  nextPet : ℕ
  nextVehicle : ℕ
  timers : List Timer

namespace World

def setPlayer (w : World) (i : ℕ) (p : Player) : World :=
  { w with playerObj := Function.update w.playerObj i p }

def setEnemy (w : World) (i : ℕ) (e : Enemy) : World :=
  { w with enemyObj := Function.update w.enemyObj i e }

def setPet (w : World) (i : ℕ) (p : Pet) : World :=
  { w with petObj := Function.update w.petObj i p }

def setVehicle (w : World) (i : ℕ) (v : Vehicle) : World :=
  { w with vehicleObj := Function.update w.vehicleObj i v }

end World

/-! ## `class Pet` -/

/-- `Pet.isFlying`: whether the species, in lower case (ASCII letters), is in the list
of flying species. -/
def Pet.isFlying (species : String) : Bool :=
  ["bird", "dragon", "fairy", "phoenix", "plane", "jetpack"].contains species.toLower

/-- `Pet.calculateDamage(enemyMaxHp)`, with `roll` the value of `Math.random()`.
The `level30Bonus` property is read only for the ranks C and B, which have it. -/
def Pet.calculateDamage (pet : Pet) (enemyMaxHp : ℚ) (roll : ℚ) : ℚ :=
  match CONFIG.PET.POWER_TIERS pet.rank with
  | none => enemyMaxHp * (1 / 10)
  | some tier =>
    let baseDamage : ℚ :=
      if 30 ≤ pet.level ∧ (pet.rank = "C" ∨ pet.rank = "B") then
        tier.minDamage + tier.level30Bonus.getD 0 + roll * (tier.maxDamage - tier.minDamage)
      else
        tier.minDamage + roll * (tier.maxDamage - tier.minDamage)
    (⌊enemyMaxHp * baseDamage⌋ : ℤ)

/-- `Pet.despawn(reason)` on the pet `p`, the clock reading `now`. -/
def Pet.despawn (w : World) (p : ℕ) (now : ℤ) : World :=
  if (w.petObj p).isDespawning then w
  else
    let w1 := w.setPet p { w.petObj p with isDespawning := true }
    let w2 :=
      match (w.petObj p).owner with
      | some o =>
        w1.setPlayer o
          { w1.playerObj o with petCooldownUntil := some (now + CONFIG.PET.COOLDOWN_MS) }
      | none => w1
    { w2 with G := { w2.G with pets := w2.G.pets.erase p } }

/-- `Pet.takeDamage(amount)` on the pet `p`: the returned flag is "pet died". -/
def Pet.takeDamage (w : World) (p : ℕ) (amount : ℚ) (now : ℤ) : Bool × World :=
  let hp := max 0 ((w.petObj p).hp - amount)
  let w1 := w.setPet p { w.petObj p with hp := hp }
  if hp ≤ 0 then (true, Pet.despawn w1 p now) else (false, w1)

/-- `Pet.useSkill(target)` on the pet `p`; `target = none` is a null target.
The result is `none` when the call throws (a rank without a tier). -/
def Pet.useSkill (w : World) (p : ℕ) (target : Option ℕ) (now : ℤ) (roll : ℚ) :
    Option (Bool × World) :=
  match CONFIG.PET.POWER_TIERS (w.petObj p).rank with
  | none => none
  | some tier =>
    let cooldown := orElseInt tier.cooldown 10000
    if now - (w.petObj p).lastSkillUse < cooldown then some (false, w)
    else
      let w1 := w.setPet p { w.petObj p with lastSkillUse := now }
      match target with
      | none => some (false, w1)
      | some t =>
        let e := w1.enemyObj t
        let damage := Pet.calculateDamage (w1.petObj p) (orElse e.maxHp (orElse e.hp 100)) roll
        some (true, w1.setEnemy t { e with hp := some (max 0 (orElse e.hp 100 - damage)) })

/-- The `new Pet(owner, species, rank, level)` constructor at clock reading `now`: the new
object gets the reference `w.nextPet` and is pushed on `G.pets`. -/
def Pet.new (w : World) (owner : ℕ) (species : String) (rank : String) (level : ℚ)
    (now : ℤ) : ℕ × World :=
  let pet : Pet :=
    { owner := some owner
      species := species
      rank := rank
      level := level
      hp := CONFIG.PET.MAX_HP
      maxHp := CONFIG.PET.MAX_HP
      x := orElse (w.playerObj owner).x 0
      y := orElse (w.playerObj owner).y 0
      targetX := orElse (w.playerObj owner).x 0
      targetY := orElse (w.playerObj owner).y 0
      canFly := Pet.isFlying species
      spawnTime := now
      lastSkillUse := 0
      isDespawning := false }
  (w.nextPet,
    { w with
      petObj := Function.update w.petObj w.nextPet pet
      nextPet := w.nextPet + 1
      G := { w.G with pets := w.G.pets ++ [w.nextPet] } })

/-! ## `class Vehicle` -/

/-- The table `riderCounts` of `Vehicle.getMaxRiders`. -/
def Vehicle.riderCounts : String → Lookup ℕ
  | "bike" => .own 1
  | "motorcycle" => .own 2
  | "car" => .own 3
  | "hoverboard" => .own 1
  | "jetpack" => .own 1
  | key => if key ∈ inheritedNames then .inherited else .undefined

/-- `Vehicle.getMaxRiders`: `riderCounts[this.type] || 1`. The result `none` is the
member of `Object.prototype` that a type named after it reads. -/
def Vehicle.getMaxRiders (type : String) : Option ℕ :=
  (Vehicle.riderCounts type).orElse 1

/-- `Vehicle.calculateMaxFuel`, from the fields it reads. The result `none` is `NaN`:
for a rank that reads a member of `Object.prototype` the product
`Math.floor(level / 10) * baseUpgrade` is `NaN`, and so are the sum and `Math.min`. -/
def Vehicle.calculateMaxFuel (rank : String) (level : ℚ) (fuelTankUpgrade : Bool) :
    Option ℚ :=
  match (CONFIG.VEHICLE.FUEL_UPGRADE_PER_10_LEVELS rank).orElse 5000 with
  | none => none
  | some baseUpgrade =>
    let levelBonus := (⌊level / 10⌋ : ℤ) * baseUpgrade
    let totalFuel := CONFIG.VEHICLE.FUEL_BASELINE + levelBonus
    let totalFuel := if fuelTankUpgrade then totalFuel + 10000 else totalFuel
    some (min totalFuel CONFIG.VEHICLE.FUEL_MAX)

/-- The `new Vehicle(type, level, rank)` constructor: the new object gets the reference
`w.nextVehicle` and is pushed on `G.vehicles`. `calculateMaxFuel` runs before
`fuelTankUpgrade` is assigned, so it reads a falsy flag. -/
def Vehicle.new (w : World) (type : String) (level : ℚ) (rank : String) : ℕ × World :=
  let veh : Vehicle :=
    { type := type
      level := level
      rank := rank
      riders := []
      maxRiders := Vehicle.getMaxRiders type
      fuel := CONFIG.VEHICLE.FUEL_BASELINE
      maxFuel := Vehicle.calculateMaxFuel rank level false
      fuelTankUpgrade := false
      x := 0
      y := 0 }
  (w.nextVehicle,
    { w with
      vehicleObj := Function.update w.vehicleObj w.nextVehicle veh
      nextVehicle := w.nextVehicle + 1
      G := { w.G with vehicles := w.G.vehicles ++ [w.nextVehicle] } })

/-- The table `positions` of `Vehicle.positionRider`. -/
def Vehicle.positions : String → Lookup (ℚ × ℚ)
  | "bike" => .own (0, -10)
  | "motorcycle" => .own (0, -15)
  | "car" => .own (0, -20)
  | "hoverboard" => .own (0, -5)
  | "jetpack" => .own (0, 0)
  | key => if key ∈ inheritedNames then .inherited else .undefined

/-- `Vehicle.positionRider(player)` on the vehicle `v`, with
`pos = positions[this.type] || { x: 0, y: -10 }`. A member of `Object.prototype` is
truthy and has no `x` and no `y`: the offsets are then `NaN` and `undefined`. -/
def Vehicle.positionRider (w : World) (v : ℕ) (player : ℕ) : World :=
  let riderIndex : ℚ := ((w.vehicleObj v).riders.indexOf player : ℕ)
  match Vehicle.positions (w.vehicleObj v).type with
  | .own pos =>
    w.setPlayer player
      { w.playerObj player with
        vehicleOffsetX := .num (pos.1 + (riderIndex - 1) * 15)
        vehicleOffsetY := .num pos.2 }
  | .undefined =>
    w.setPlayer player
      { w.playerObj player with
        vehicleOffsetX := .num (0 + (riderIndex - 1) * 15)
        vehicleOffsetY := .num (-10) }
  | .inherited =>
    w.setPlayer player
      { w.playerObj player with
        vehicleOffsetX := .nan
        vehicleOffsetY := .undefined }

/-- `Vehicle.mount(player)` on the vehicle `v`. -/
def Vehicle.mount (w : World) (v : ℕ) (player : ℕ) : Bool × World :=
  if geNumber (w.vehicleObj v).riders.length (w.vehicleObj v).maxRiders = true then (false, w)
  else if player ∈ (w.vehicleObj v).riders then (false, w)
  else
    let w1 := w.setVehicle v { w.vehicleObj v with riders := (w.vehicleObj v).riders ++ [player] }
    let w2 := w1.setPlayer player
      { w1.playerObj player with
        vehicle := some v
        mountedVehicle := some (w1.vehicleObj v).type }
    (true, Vehicle.positionRider w2 v player)

/-- `Vehicle.dismount(player)` on the vehicle `v` at clock reading `now`: the idle-despawn
`setTimeout(..., 30000)` becomes a pending timer due at `now + 30000`. -/
def Vehicle.dismount (w : World) (v : ℕ) (player : ℕ) (now : ℤ) : Bool × World :=
  if player ∉ (w.vehicleObj v).riders then (false, w)
  else
    let w1 := w.setVehicle v { w.vehicleObj v with riders := (w.vehicleObj v).riders.erase player }
    let w2 := w1.setPlayer player
      { w1.playerObj player with vehicle := none, mountedVehicle := none }
    if (w2.vehicleObj v).riders.length = 0 then
      (true, { w2 with timers := w2.timers ++ [⟨now + 30000, v⟩] })
    else (true, w2)

/-- `Vehicle.ejectAllRiders`: `dismount` for each rider of a copy of `riders`. -/
def Vehicle.ejectAllRiders (w : World) (v : ℕ) (now : ℤ) : World :=
  (w.vehicleObj v).riders.foldl (fun acc rider => (Vehicle.dismount acc v rider now).2) w

/-- `Vehicle.despawn(reason)` on the vehicle `v`. -/
def Vehicle.despawn (w : World) (v : ℕ) (now : ℤ) : World :=
  let w1 := Vehicle.ejectAllRiders w v now
  { w1 with G := { w1.G with vehicles := w1.G.vehicles.erase v } }

/-- `Vehicle.consumeFuel(deltaTime)` on the vehicle `v`. -/
def Vehicle.consumeFuel (w : World) (v : ℕ) (deltaTime : ℚ) (now : ℤ) : Bool × World :=
  if (w.vehicleObj v).riders.length = 0 then (true, w)
  else
    let w1 := w.setVehicle v
      { w.vehicleObj v with fuel := max 0 (toDouble ((w.vehicleObj v).fuel - deltaTime)) }
    if (w1.vehicleObj v).fuel ≤ 0 then
      (false, Vehicle.despawn (Vehicle.ejectAllRiders w1 v now) v now)
    else (true, w1)

/-- One call on a vehicle, with the arguments and the clock reading of the call. -/
inductive VehicleCall where
  | mount (player : ℕ)
  | dismount (player : ℕ) (now : ℤ)
  | consumeFuel (deltaTime : ℚ) (now : ℤ)
  | despawn (now : ℤ)

/-- The state after one call on the vehicle `v`. -/
def VehicleCall.run (v : ℕ) (w : World) : VehicleCall → World
  | .mount player => (Vehicle.mount w v player).2
  | .dismount player now => (Vehicle.dismount w v player now).2
  | .consumeFuel deltaTime now => (Vehicle.consumeFuel w v deltaTime now).2
  | .despawn now => Vehicle.despawn w v now

/-- The state after a sequence of calls on the vehicle `v`. -/
def runCalls (v : ℕ) (w : World) (calls : List VehicleCall) : World :=
  calls.foldl (VehicleCall.run v) w

/-! ## Top level functions -/

/-- The function `spawnPet()` at clock reading `now`; the three rolls are the values of
`Math.random()` for species, rank and level. The result is `none` when the call throws
(an undefined species reaches `isFlying`); an undefined rank takes the constructor's
default "B". -/
def spawnPet (w : World) (now : ℤ) (rSpecies rRank rLevel : ℚ) : Option World :=
  let pets := w.G.pets
  let players := w.G.players
  if CONFIG.PET.MAX_TOTAL ≤ pets.length then some w
  else
    match players.find? (fun player => !pets.any (fun pet => (w.petObj pet).owner == some player)) with
    | none => some w
    | some availablePlayer =>
      if orElseInt (w.playerObj availablePlayer).petCooldownUntil 0 ≠ 0 ∧
          now < orElseInt (w.playerObj availablePlayer).petCooldownUntil 0 then some w
      else
        match pick ["wolf", "cat", "bird", "dragon", "fairy"] rSpecies 5 with
        | none => none
        | some species =>
          let rank := (pick ["C", "B", "A", "S", "SS"] rRank 5).getD "B"
          let level : ℚ := (⌊rLevel * 50⌋ : ℤ) + 1
          some (Pet.new w availablePlayer species rank level now).2

/-- The state set up by `init()`: empty rosters, and `G.party` defaulting to the
player alone when it is not set. -/
def init (w : World) : World :=
  { w with
    G := { w.G with
      pets := []
      vehicles := []
      party := some w.G.players } }

/-- A sequence of `useSkill` calls on the pet `p`, each with its target, clock reading
and roll; `none` when one of them throws. -/
def useSkills (p : ℕ) (w : World) : List (Option ℕ × ℤ × ℚ) → Option World
  | [] => some w
  | (target, now, roll) :: rest =>
    match Pet.useSkill w p target now roll with
    | none => none
    | some (_, w1) => useSkills p w1 rest

/-! ## Pet movement, targeting and the per-tick update -/

/-- Truthiness of a numeric property that may be missing: `undefined` and `0` are falsy. -/
def truthy (a : Option ℚ) : Bool :=
  match a with
  | some v => decide (v ≠ 0)
  | none => false

/-- `Pet.getPositionType`: `positionTypes[species.toLowerCase()] || "beside"`. -/
def Pet.getPositionType (species : String) : String :=
  match species.toLower with
  | "wolf" => "beside"
  | "cat" => "beside"
  | "dog" => "beside"
  | "bird" => "above"
  | "dragon" => "above"
  | "fairy" => "around"
  | "spirit" => "around"
  | _ => "beside"

/-- The offset chosen by the `switch (posType)` of `updatePosition`. For "around" the
arguments are the values of `Math.cos(angle)` and `Math.sin(angle)` at the orbit angle
`(Date.now() / 2000) % (2 * Math.PI)`. -/
def Pet.offset (posType : String) (cosAngle sinAngle : ℚ) : ℚ × ℚ :=
  match posType with
  | "beside" => (40, 0)
  | "above" => (0, -50)
  | "around" => (cosAngle * 60, sinAngle * 60)
  | _ => (0, 0)

/-- `Pet.updatePosition` on the pet `p`; `cosAngle` and `sinAngle` are the cosine and
sine of the orbit angle read by the "around" case. -/
def Pet.updatePosition (w : World) (p : ℕ) (cosAngle sinAngle : ℚ) : World :=
  match (w.petObj p).owner with
  | none => w
  | some o =>
    let offset := Pet.offset (Pet.getPositionType (w.petObj p).species) cosAngle sinAngle
    let targetX := orElse (w.playerObj o).x 0 + offset.1
    let targetY := orElse (w.playerObj o).y 0 + offset.2
    let targetY :=
      if (w.petObj p).canFly = false ∧ truthy (w.playerObj o).groundY = true then
        max targetY ((w.playerObj o).groundY.getD 0 - 20)
      else targetY
    let speed : ℚ := 15 / 100
    w.setPet p
      { w.petObj p with
        targetX := targetX
        targetY := targetY
        x := (w.petObj p).x + (targetX - (w.petObj p).x) * speed
        y := (w.petObj p).y + (targetY - (w.petObj p).y) * speed }

/-- The test `enemy.hp <= 0`, false when `hp` is missing. -/
def Enemy.hpLeZero (e : Enemy) : Bool :=
  match e.hp with
  | some hp => decide (hp ≤ 0)
  | none => false

/-- The test `dist < minDist` on squared distances; `none` is the initial `Infinity`. -/
def ltMinDist (dist2 : ℚ) (minDist2 : Option ℚ) : Bool :=
  match minDist2 with
  | some m => decide (dist2 < m)
  | none => true

/-- The squared distance `dx * dx + dy * dy` from the pet `pet` to the enemy `e`. -/
def Pet.dist2 (pet : Pet) (e : Enemy) : ℚ :=
  (e.x.getD 0 - pet.x) * (e.x.getD 0 - pet.x) + (e.y.getD 0 - pet.y) * (e.y.getD 0 - pet.y)

/-- One round of the `forEach` of `findNearestEnemy`: the pair is `(nearest, minDist)`,
with distances kept as their squares (`dist < minDist` and `dist < 300` compare the
same way on squares, the distances being non-negative). -/
def Pet.nearestStep (w : World) (p : ℕ) (acc : Option ℕ × Option ℚ) (enemy : ℕ) :
    Option ℕ × Option ℚ :=
  if truthy (w.enemyObj enemy).x = false ∨ truthy (w.enemyObj enemy).y = false ∨
      (w.enemyObj enemy).hpLeZero = true then acc
  else if ltMinDist (Pet.dist2 (w.petObj p) (w.enemyObj enemy)) acc.2 = true ∧
      Pet.dist2 (w.petObj p) (w.enemyObj enemy) < 300 * 300 then
    (some enemy, some (Pet.dist2 (w.petObj p) (w.enemyObj enemy)))
  else acc

/-- `Pet.findNearestEnemy(enemies)` on the pet `p`; `none` is `null`. -/
def Pet.findNearestEnemy (w : World) (p : ℕ) (enemies : List ℕ) : Option ℕ :=
  (enemies.foldl (Pet.nearestStep w p) (none, none)).1

/-- `Pet.checkAutoTrigger` on the pet `p`; `none` when `useSkill` throws. -/
def Pet.checkAutoTrigger (w : World) (p : ℕ) (now : ℤ) (roll : ℚ) : Option World :=
  match (w.petObj p).owner with
  | none => some w
  | some o =>
    if (w.playerObj o).isUsingSkill = false then some w
    else if (w.playerObj o).currentSkill ∈ [some 3, some 4, some 5] then
      match Pet.findNearestEnemy w p w.G.enemies with
      | none => some w
      | some nearestEnemy =>
        match Pet.useSkill w p (some nearestEnemy) now roll with
        | none => none
        | some (_, w1) => some w1
    else some w

/-- `Pet.update` on the pet `p` at clock reading `now`; `none` when `useSkill` throws. -/
def Pet.update (w : World) (p : ℕ) (now : ℤ) (cosAngle sinAngle roll : ℚ) : Option World :=
  if now - (w.petObj p).spawnTime > CONFIG.PET.LIFESPAN_MS then some (Pet.despawn w p now)
  else Pet.checkAutoTrigger (Pet.updatePosition w p cosAngle sinAngle) p now roll

/-! ## Pending timers -/

/-- The callback of the idle-despawn timer, run when the timer is due:
`if (this.riders.length === 0) this.despawn("empty")`. -/
def Timer.fire (w : World) (timer : Timer) : World :=
  if (w.vehicleObj timer.vehicle).riders.length = 0 then
    Vehicle.despawn w timer.vehicle timer.due
  else w

/-- The timers that are due at clock reading `now` are taken off the pending list and
their callbacks run in the order they were armed. -/
def runTimers (w : World) (now : ℤ) : World :=
  (w.timers.filter (fun timer => decide (timer.due ≤ now))).foldl Timer.fire
    { w with timers := w.timers.filter (fun timer => !decide (timer.due ≤ now)) }

/-! ## The update loop (`gameUpdate`) -/

/-- `Vehicle.update(deltaTime)` on the vehicle `v`. -/
def Vehicle.update (w : World) (v : ℕ) (deltaTime : ℚ) (now : ℤ) : World :=
  if (Vehicle.consumeFuel w v deltaTime now).1 = false then
    (Vehicle.consumeFuel w v deltaTime now).2
  else
    match ((Vehicle.consumeFuel w v deltaTime now).2.vehicleObj v).riders with
    | [] => (Vehicle.consumeFuel w v deltaTime now).2
    | primaryRider :: _ =>
      (Vehicle.consumeFuel w v deltaTime now).2.setVehicle v
        { (Vehicle.consumeFuel w v deltaTime now).2.vehicleObj v with
          x := orElse ((Vehicle.consumeFuel w v deltaTime now).2.playerObj primaryRider).x 0
          y := orElse ((Vehicle.consumeFuel w v deltaTime now).2.playerObj primaryRider).y 0
            + 20 }

/-- The rounds of `G.pets.forEach((pet) => pet.update())`. `Array.prototype.forEach`
visits the indices `0, 1, ...` below the length the array had when it started and
skips an index that is no longer in the array; the callback runs on the element that
is at the index at that moment. `rounds` counts the indices still to visit, `k` is the
next index and `called` lists the pets whose `update` has been invoked. The result is
`none` when an `update` throws. -/
def petsForEach (now : ℤ) (cosAngle sinAngle roll : ℚ) :
    ℕ → ℕ → World → List ℕ → Option (World × List ℕ)
  | 0, _, w, called => some (w, called)
  | rounds + 1, k, w, called =>
    match w.G.pets.get? k with
    | none => petsForEach now cosAngle sinAngle roll rounds (k + 1) w called
    | some pet =>
      match Pet.update w pet now cosAngle sinAngle roll with
      | none => none
      | some w1 => petsForEach now cosAngle sinAngle roll rounds (k + 1) w1 (called ++ [pet])

/-- The rounds of `G.vehicles.forEach((vehicle) => vehicle.update(deltaTime))`, as
`petsForEach`; `called` lists the vehicles whose `update` has been invoked. -/
def vehiclesForEach (deltaTime : ℚ) (now : ℤ) : ℕ → ℕ → World → List ℕ → World × List ℕ
  | 0, _, w, called => (w, called)
  | rounds + 1, k, w, called =>
    match w.G.vehicles.get? k with
    | none => vehiclesForEach deltaTime now rounds (k + 1) w called
    | some vehicle =>
      vehiclesForEach deltaTime now rounds (k + 1) (Vehicle.update w vehicle deltaTime now)
        (called ++ [vehicle])

/-- The function `gameUpdate(deltaTime)`: the new state, the pets whose `update` was
invoked and the vehicles whose `update` was invoked, in the order of the calls. All
calls of one tick read the same clock and the same rolls. -/
def gameUpdate (w : World) (deltaTime : ℚ) (now : ℤ) (cosAngle sinAngle roll : ℚ) :
    Option (World × List ℕ × List ℕ) :=
  match petsForEach now cosAngle sinAngle roll w.G.pets.length 0 w [] with
  | none => none
  | some (w1, pets) =>
    some ((vehiclesForEach deltaTime now w1.G.vehicles.length 0 w1 []).1, pets,
      (vehiclesForEach deltaTime now w1.G.vehicles.length 0 w1 []).2)

/-! ## Vehicles and targeting of `gameplay-pets-vehicles.js` -/

/-- An entry of the table `VEH_TYPES`; a missing `fusion` property is falsy. -/
structure Gameplay.VehDef where
  seats : ℤ
  speedMul : ℚ
  armor : ℚ
  fusion : Bool

/-- The table `VEH_TYPES`. -/
def Gameplay.VEH_TYPES : String → Option Gameplay.VehDef
  | "bike" => some ⟨1, 125 / 100, 9 / 10, false⟩
  | "motorcycle" => some ⟨2, 115 / 100, 1, false⟩
  | "car" => some ⟨3, 95 / 100, 125 / 100, false⟩
  | "fusion" => some ⟨3, 11 / 10, 14 / 10, true⟩
  | _ => none

/-- The expression `VEH_TYPES[type] || VEH_TYPES.car` of the constructor. -/
def Gameplay.vehDef (type : String) : Gameplay.VehDef :=
  (Gameplay.VEH_TYPES type).getD ⟨3, 95 / 100, 125 / 100, false⟩

/-- A hero, as read and written by `board` and `unboard`. -/
structure Gameplay.Hero where
  hidden : Bool := false
  x : Option ℚ := none
  y : Option ℚ := none
  vehicleX : Option ℚ := none
  vehicleY : Option ℚ := none

/-- The fields of a `Vehicle` object of `gameplay-pets-vehicles.js` (element apart);
`typeDef` is the field `def`. -/
structure Gameplay.Vehicle where
  typeDef : Gameplay.VehDef
  type : String
  x : ℚ
  y : ℚ
  occupants : List ℕ
  active : Bool

/-- The state `board` and `unboard` work on: the vehicle `this`, the heroes (by
reference) and the globals `G.speedMul`, `G.armorMul` and `G.heroes`. -/
structure Gameplay.State where
  vehicle : Gameplay.Vehicle
  heroObj : ℕ → Gameplay.Hero
  speedMul : Option ℚ
  armorMul : Option ℚ
  heroes : Option (List ℕ)

/-- The `new Vehicle({ type, x, y })` constructor, from the type, `x` and the value
of `groundYAt(x)`. -/
def Gameplay.Vehicle.new (type : String) (x groundY : ℚ) : Gameplay.Vehicle :=
  { typeDef := Gameplay.vehDef type, type := type, x := x, y := groundY, occupants := [],
    active := true }

/-- `Vehicle.seatsFree`. -/
def Gameplay.Vehicle.seatsFree (v : Gameplay.Vehicle) : ℤ :=
  v.typeDef.seats - v.occupants.length

/-- `Vehicle.board(hero)`. -/
def Gameplay.Vehicle.board (s : Gameplay.State) (hero : ℕ) : Bool × Gameplay.State :=
  if s.vehicle.active = false ∨ s.vehicle.seatsFree ≤ 0 then (false, s)
  else
    let s1 : Gameplay.State :=
      { s with
        vehicle := { s.vehicle with occupants := s.vehicle.occupants ++ [hero] }
        heroObj := Function.update s.heroObj hero
          { s.heroObj hero with
            hidden := true
            vehicleX := some s.vehicle.x
            vehicleY := some s.vehicle.y } }
    if s.vehicle.typeDef.fusion = true then
      (true, { s1 with
        speedMul := some s.vehicle.typeDef.speedMul
        armorMul := some s.vehicle.typeDef.armor })
    else (true, s1)

/-- `Vehicle.unboard(hero)`, with `roll` the value of `Math.random()`. -/
def Gameplay.Vehicle.unboard (s : Gameplay.State) (hero : ℕ) (roll : ℚ) :
    Bool × Gameplay.State :=
  if hero ∉ s.vehicle.occupants then (false, s)
  else
    let s1 : Gameplay.State :=
      { s with
        vehicle := { s.vehicle with occupants := s.vehicle.occupants.erase hero }
        heroObj := Function.update s.heroObj hero
          { s.heroObj hero with
            hidden := false
            x := some (s.vehicle.x + (roll - 1 / 2) * 40)
            y := some s.vehicle.y } }
    if s.vehicle.typeDef.fusion = true ∧ s1.vehicle.occupants.length = 0 then
      (true, { s1 with speedMul := some 1, armorMul := some 1 })
    else (true, s1)

/-- The function `G.boardVehicle()` on the vehicle of the state: the heroes that are
not hidden when the call starts are offered a seat in turn. -/
def Gameplay.boardVehicle (s : Gameplay.State) : Bool × Gameplay.State :=
  let heroes := (s.heroes.getD []).filter (fun h => !(s.heroObj h).hidden)
  let r := heroes.foldl (fun (acc : ℕ × Gameplay.State) h =>
      if 0 < acc.2.vehicle.seatsFree ∧ (Gameplay.Vehicle.board acc.2 h).1 = true then
        (acc.1 + 1, (Gameplay.Vehicle.board acc.2 h).2)
      else acc) (0, s)
  (decide (0 < r.1), r.2)

/-- One call on a vehicle of `gameplay-pets-vehicles.js`. -/
inductive Gameplay.Call where
  | board (hero : ℕ)
  | unboard (hero : ℕ) (roll : ℚ)

/-- The state after one call. -/
def Gameplay.Call.run (s : Gameplay.State) : Gameplay.Call → Gameplay.State
  | .board hero => (Gameplay.Vehicle.board s hero).2
  | .unboard hero roll => (Gameplay.Vehicle.unboard s hero roll).2

/-- An object of the lists searched by `findThreatOrEnemy`; a missing coordinate makes
the distance `NaN`. -/
structure Gameplay.Entity where
  dead : Bool := false
  hp : Option ℚ := none
  x : Option ℚ := none
  y : Option ℚ := none

/-- The lists searched by `findThreatOrEnemy` (`none` for an undefined list, a `none`
entry for a null entry) and the objects their entries refer to. -/
structure Gameplay.Scene where
  entity : ℕ → Gameplay.Entity
  enemyProjectiles : Option (List (Option ℕ))
  enemies : Option (List (Option ℕ))
  gameEnemies : Option (List (Option ℕ))

/-- The test `Math.hypot(e.x - x, e.y - y) <= range`, on squares: a distance is at
most `range` when `range` is not negative and the squared distance is at most
`range * range`; with a missing coordinate the test is false. -/
def Gameplay.within (e : Gameplay.Entity) (x y range : ℚ) : Bool :=
  match e.x, e.y with
  | some ex, some ey =>
    decide (0 ≤ range ∧ (ex - x) * (ex - x) + (ey - y) * (ey - y) ≤ range * range)
  | _, _ => false

/-- The test `e.hp <= 0`, false when `hp` is missing. -/
def Gameplay.Entity.hpLeZero (e : Gameplay.Entity) : Bool :=
  match e.hp with
  | some hp => decide (hp ≤ 0)
  | none => false

/-- The callback of `arr.find` in `findThreatOrEnemy`. -/
def Gameplay.qualifies (sc : Gameplay.Scene) (x y range : ℚ) (entry : Option ℕ) : Bool :=
  match entry with
  | none => false
  | some e =>
    if (sc.entity e).dead = true ∨ (sc.entity e).hpLeZero = true then false
    else Gameplay.within (sc.entity e) x y range

/-- The helper `pick(arr)`: `arr && arr.find(...)`; `none` for a falsy result. -/
def Gameplay.pick (sc : Gameplay.Scene) (x y range : ℚ) (arr : Option (List (Option ℕ))) :
    Option ℕ :=
  match arr with
  | none => none
  | some list => (list.find? (Gameplay.qualifies sc x y range)).join

/-- The function `findThreatOrEnemy(x, y, range)`:
`pick(G.enemyProjectiles) || pick(G.enemies) || pick(window.gameEnemies)`. -/
def Gameplay.findThreatOrEnemy (sc : Gameplay.Scene) (x y range : ℚ) : Option ℕ :=
  match Gameplay.pick sc x y range sc.enemyProjectiles with
  | some e => some e
  | none =>
    match Gameplay.pick sc x y range sc.enemies with
    | some e => some e
    | none => Gameplay.pick sc x y range sc.gameEnemies

/-! ## State selection of `managers/pet_vehicle.js` -/

/-- An object with a position, read as `a.x || a.pos?.x || 0` by the helper `d`. -/
structure Managers.Body where
  x : Option ℚ := none
  y : Option ℚ := none
  posX : Option ℚ := none
  posY : Option ℚ := none

/-- The square of `d(a, b) = Math.hypot(ax - bx, ay - by)` with
`ax = a.x || a.pos?.x || 0` and so on. -/
def Managers.d2 (a b : Managers.Body) : ℚ :=
  (orElse a.x (orElse a.posX 0) - orElse b.x (orElse b.posX 0)) *
      (orElse a.x (orElse a.posX 0) - orElse b.x (orElse b.posX 0)) +
    (orElse a.y (orElse a.posY 0) - orElse b.y (orElse b.posY 0)) *
      (orElse a.y (orElse a.posY 0) - orElse b.y (orElse b.posY 0))

/-- The `if ... else if` chain of `PetManager.update` that assigns `p.state`, for the
results `proj` and `mob` of the two world queries; `d(p, mob) < 200` is compared on
squares. -/
def Managers.PetManager.selectState (p : Managers.Body) (proj mob : Option Managers.Body) :
    String :=
  if proj.isSome then "intercept"
  else if mob.isSome ∧ (∀ m, mob = some m → Managers.d2 p m < 200 * 200) then "attack"
  else if mob.isSome ∧ (∀ m, mob = some m → Managers.d2 p m < 120 * 120) then "dash"
  else "follow"

/-- The state of the active pet after `PetManager.update`: without a leader the method
returns before the assignment; the code after the assignment moves the pet and does
not write `p.state`. -/
def Managers.PetManager.update (state : String) (p : Managers.Body)
    (lead proj mob : Option Managers.Body) : String :=
  match lead with
  | none => state
  | some _ => Managers.PetManager.selectState p proj mob

/-! ## Invariants -/

/-- The doubles, without their exponent range: the rationals `m * 2 ^ k` with an
integer `m` of at most 53 bits. -/
def IsDouble (q : ℚ) : Prop :=
  ∃ m k : ℤ, |m| < 2 ^ 53 ∧ q = m * (2 : ℚ) ^ k

/-- The seat invariant of a vehicle object: `maxRiders` is a number, there are no more
riders than seats, one to three seats, no player listed twice. -/
def Vehicle.SeatsOk (veh : Vehicle) : Prop :=
  ∃ seats : ℕ, veh.maxRiders = some seats ∧ veh.riders.length ≤ seats ∧ 1 ≤ seats ∧
    seats ≤ 3 ∧ veh.riders.Nodup

/-- The fuel invariant of a vehicle object: `fuel` is a double and
`0 ≤ fuel ≤ maxFuel`, the second comparison as JavaScript evaluates it. -/
def Vehicle.FuelOk (veh : Vehicle) : Prop :=
  IsDouble veh.fuel ∧ 0 ≤ veh.fuel ∧ leNumber veh.fuel veh.maxFuel = true

/-- The owners of the pets of the roster `G.pets`, in roster order. -/
def World.petOwners (w : World) : List (Option ℕ) :=
  w.G.pets.map (fun p => (w.petObj p).owner)

/-- The rosters of a state built by this file: every entry of `G.pets` and `G.vehicles`
is an allocated object and is listed once (a constructor pushes its new object once). -/
def World.RostersOk (w : World) : Prop :=
  (w.G.pets.Nodup ∧ ∀ p ∈ w.G.pets, p < w.nextPet) ∧
    (w.G.vehicles.Nodup ∧ ∀ v ∈ w.G.vehicles, v < w.nextVehicle)

/-- The enemy `e` passes the tests of a round of `findNearestEnemy` for the pet `p`:
truthy `x` and `y`, not `hp <= 0`, closer than 300. -/
def Pet.isCandidate (w : World) (p e : ℕ) : Prop :=
  truthy (w.enemyObj e).x = true ∧ truthy (w.enemyObj e).y = true ∧
    (w.enemyObj e).hpLeZero = false ∧ Pet.dist2 (w.petObj p) (w.enemyObj e) < 300 * 300

/-- The state of the search of `findNearestEnemy` after the rounds for the enemies
`done`: either nothing was found and no enemy of `done` is a candidate, or the enemy
found is a candidate of `done`, strictly closer than the candidates before it and at
least as close as the candidates after it. -/
def Pet.SearchOk (w : World) (p : ℕ) (acc : Option ℕ × Option ℚ) (done : List ℕ) : Prop :=
  (acc = (none, none) ∧ ∀ e ∈ done, ¬ Pet.isCandidate w p e) ∨
    ∃ e l1 l2, acc = (some e, some (Pet.dist2 (w.petObj p) (w.enemyObj e))) ∧
      done = l1 ++ e :: l2 ∧ Pet.isCandidate w p e ∧
      (∀ e1 ∈ l1, Pet.isCandidate w p e1 →
        Pet.dist2 (w.petObj p) (w.enemyObj e) < Pet.dist2 (w.petObj p) (w.enemyObj e1)) ∧
      (∀ e2 ∈ l2, Pet.isCandidate w p e2 →
        Pet.dist2 (w.petObj p) (w.enemyObj e) ≤ Pet.dist2 (w.petObj p) (w.enemyObj e2))

/-- Every pet of the roster is alive: `despawn` raises the flag and removes the pet in
one go, and the constructor pushes a pet with the flag down. -/
def World.LivePets (w : World) : Prop :=
  ∀ p ∈ w.G.pets, (w.petObj p).isDespawning = false

/-! ## Definitions that follow the specification -/

/-- The per-ten-levels fuel bonus as the specification words it: 5000, 7000, 10000,
12000 and 15000 for the ranks C, B, A, S and SS, and 5000 for any other rank. -/
def Spec.perTen (rank : String) : ℚ :=
  if rank = "C" then 5000
  else if rank = "B" then 7000
  else if rank = "A" then 10000
  else if rank = "S" then 12000
  else if rank = "SS" then 15000
  else 5000

/-! ## Test states -/

/-- A pet object with neutral field values, for stores of test states. -/
def blankPet : Pet :=
  { owner := none, species := "wolf", rank := "C", level := 1, hp := 100, maxHp := 100,
    x := 0, y := 0, targetX := 0, targetY := 0, canFly := false, spawnTime := 0,
    lastSkillUse := 0, isDespawning := false }

/-- A vehicle object with neutral field values, for stores of test states. -/
def blankVehicle : Vehicle :=
  { type := "bike", level := 1, rank := "C", riders := [], maxRiders := some 1, fuel := 30000,
    maxFuel := some 30000, fuelTankUpgrade := false, x := 0, y := 0 }

/-- The state before anything is created: empty rosters, no timers. -/
def World.blank : World :=
  { G := {}, playerObj := fun _ => {}, enemyObj := fun _ => {}, petObj := fun _ => blankPet,
    vehicleObj := fun _ => blankVehicle, nextPet := 0, nextVehicle := 0, timers := [] }

/-- A motorcycle (reference 0, two seats) carrying the players 1 and 2. -/
def World.motorcycle : World :=
  (Vehicle.mount (Vehicle.mount (Vehicle.new World.blank "motorcycle" 1 "C").2 0 1).2 0 2).2

/-- A bike (reference 0) in the roster carrying the player 1, with one unit of fuel left. -/
def World.lowFuel : World :=
  ((Vehicle.mount (Vehicle.new World.blank "bike" 1 "C").2 0 1).2).setVehicle 0
    { (Vehicle.mount (Vehicle.new World.blank "bike" 1 "C").2 0 1).2.vehicleObj 0 with fuel := 1 }

/-- The state after a rank C pet (reference 0) of `World.blank` used its skill on the
enemy 0 at clock reading 20000 with roll 1/2. -/
def World.afterSkill : World :=
  match Pet.useSkill World.blank 0 (some 0) 20000 (1 / 2) with
  | some (_, w) => w
  | none => World.blank

/-- A party of the single player 7 whose wolf (pet reference 0, spawned at clock reading
1000) is in the roster. -/
def World.onePet : World :=
  (Pet.new { World.blank with G := { party := some [7] } } 7 "wolf" "C" 1 1000).2

/-- A party of the players 7 and 8 in which only 7 has a pet (reference 0). -/
def World.duo : World :=
  (Pet.new { World.blank with G := { party := some [7, 8] } } 7 "wolf" "C" 1 1000).2

/-- A party of the players 7 and 8 without pets, in which player 7 is under the
re-summon cooldown until clock reading 60000 and player 8 is under none. -/
def World.cooling : World :=
  ({ World.blank with G := { party := some [7, 8] } }).setPlayer 7
    { petCooldownUntil := some 60000 }

/-- A bike (reference 0) that player 1 boards, leaves at clock reading 0, boards again
(before the 30 s are over) and leaves again at clock reading 2000. -/
def World.reboarded : World :=
  runCalls 0 (Vehicle.new World.blank "bike" 1 "C").2
    [.mount 1, .dismount 1 0, .mount 1, .dismount 1 2000]

/-- A wolf (pet 0, not flying) whose owner 7 is at `y = -100` with the ground reference
`groundY = 0`. -/
def World.groundZero : World :=
  (World.blank.setPet 0 { blankPet with owner := some 7 }).setPlayer 7
    { x := some 50, y := some (-100), groundY := some 0 }

/-- A wolf (pet 0, not flying, at the origin) whose owner 7 is at `(50, 300)` with the
ground reference `groundY = 400`. -/
def World.grounded : World :=
  (World.blank.setPet 0 { blankPet with owner := some 7 }).setPlayer 7
    { x := some 50, y := some 300, groundY := some 400 }

/-- The pet 0 at the origin and one enemy (reference 0) at `(0, 10)` with 50 hp. -/
def World.edgeEnemy : World :=
  World.blank.setEnemy 0 { x := some 0, y := some 10, hp := some 50 }

/-- The pet 0 at the origin and one enemy (reference 0) at `(5, 5)` without an `hp`
field. -/
def World.noHpEnemy : World :=
  World.blank.setEnemy 0 { x := some 5, y := some 5 }

/-- The pet 0 (rank C, level 1, never used its skill) and one enemy (reference 0) whose
`hp` is 0. -/
def World.deadEnemy : World :=
  World.blank.setEnemy 0 { x := some 5, y := some 5, hp := some 0 }

/-- Two pets in the roster: pet 0 of player 7, spawned at clock reading 0, and pet 1 of
player 8, spawned at clock reading 100000. -/
def World.twoPets : World :=
  (Pet.new (Pet.new { World.blank with G := { party := some [7, 8] } } 7 "wolf" "C" 1 0).2
    8 "cat" "C" 1 100000).2

/-- Two vehicles in the roster: the bike 0, ridden by player 1 with 10 units of fuel
left, and the empty car 1. -/
def World.twoVehicles : World :=
  ((Vehicle.mount (Vehicle.new (Vehicle.new World.blank "bike" 1 "C").2 "car" 1 "C").2
      0 1).2).setVehicle 0
    { (Vehicle.mount (Vehicle.new (Vehicle.new World.blank "bike" 1 "C").2 "car" 1 "C").2
        0 1).2.vehicleObj 0 with fuel := 10 }

/-- A scene without projectiles and with two live enemies in `G.enemies`: the enemy 0
at `(100, 0)` first, then the enemy 1 at `(10, 0)`. -/
def Gameplay.Scene.farFirst : Gameplay.Scene :=
  { entity := fun e =>
      if e = 0 then { hp := some 10, x := some 100, y := some 0 }
      else { hp := some 10, x := some 10, y := some 0 }
    enemyProjectiles := some []
    enemies := some [some 0, some 1]
    gameEnemies := none }

/-- A scene with the projectile 2 at `(200, 0)` in `G.enemyProjectiles` and the enemy 1
at `(10, 0)` in `G.enemies`. -/
def Gameplay.Scene.threat : Gameplay.Scene :=
  { entity := fun e =>
      if e = 2 then { x := some 200, y := some 0 }
      else { hp := some 10, x := some 10, y := some 0 }
    enemyProjectiles := some [none, some 2]
    enemies := some [some 1]
    gameEnemies := none }

/-- A car (three seats) at `x = 0` that carries the hero 5; the heroes are 5 and 6. -/
def Gameplay.State.carWithHero : Gameplay.State :=
  { vehicle := { Gameplay.Vehicle.new "car" 0 540 with occupants := [5] }
    heroObj := fun h => if h = 5 then { hidden := true } else {}
    speedMul := none
    armorMul := none
    heroes := some [5, 6] }

/-- A new fusion vehicle, nobody aboard, the multipliers not yet written. -/
def Gameplay.State.fusionEmpty : Gameplay.State :=
  { vehicle := Gameplay.Vehicle.new "fusion" 0 540
    heroObj := fun _ => {}
    speedMul := none
    armorMul := none
    heroes := some [1, 2] }

/-! ## Store lemmas -/

@[simp]
theorem World.setPet_petObj (w : World) (i : ℕ) (p : Pet) :
    (w.setPet i p).petObj = Function.update w.petObj i p := rfl

@[simp]
theorem World.setPet_playerObj (w : World) (i : ℕ) (p : Pet) :
    (w.setPet i p).playerObj = w.playerObj := rfl

@[simp]
theorem World.setPet_G (w : World) (i : ℕ) (p : Pet) : (w.setPet i p).G = w.G := rfl

@[simp]
theorem World.setPlayer_petObj (w : World) (i : ℕ) (p : Player) :
    (w.setPlayer i p).petObj = w.petObj := rfl

@[simp]
theorem World.setPlayer_playerObj (w : World) (i : ℕ) (p : Player) :
    (w.setPlayer i p).playerObj = Function.update w.playerObj i p := rfl

@[simp]
theorem World.setPlayer_G (w : World) (i : ℕ) (p : Player) :
    (w.setPlayer i p).G = w.G := rfl

/-! ## Pets: damage and despawn -/

/-- What `Pet.despawn` does to the pet store: it raises the flag of `p`. -/
theorem Pet.despawn_petObj (w : World) (p : ℕ) (now : ℤ) :
    (Pet.despawn w p now).petObj =
      Function.update w.petObj p { w.petObj p with isDespawning := true } := by
  unfold Pet.despawn
  split_ifs with h
  · funext q
    by_cases hq : q = p
    · subst hq
      simp [← h]
    · simp [Function.update_noteq hq]
  · cases (w.petObj p).owner <;> simp

/-- Claim C1, as the code has it: for a pet with `0 ≤ hp ≤ maxHp` and a damage amount
that is not negative, `takeDamage` leaves `0 ≤ hp ≤ maxHp`. -/
theorem Pet.takeDamage_hp_bounds (w : World) (p : ℕ) (amount : ℚ) (now : ℤ)
    (hhp0 : 0 ≤ (w.petObj p).hp) (hhp : (w.petObj p).hp ≤ (w.petObj p).maxHp)
    (hamount : 0 ≤ amount) :
    0 ≤ ((Pet.takeDamage w p amount now).2.petObj p).hp ∧
      ((Pet.takeDamage w p amount now).2.petObj p).hp ≤
        ((Pet.takeDamage w p amount now).2.petObj p).maxHp := by
  have hle : max 0 ((w.petObj p).hp - amount) ≤ (w.petObj p).maxHp :=
    max_le (hhp0.trans hhp) (by linarith)
  unfold Pet.takeDamage
  simp only []
  split_ifs with h
  · simp only [Pet.despawn_petObj, World.setPet_petObj, Function.update_same]
    exact ⟨le_max_left _ _, hle⟩
  · simp only [World.setPet_petObj, Function.update_same]
    exact ⟨le_max_left _ _, hle⟩

/-- Witness for C1 (amended): a pet at 100/100 hp that takes 30 damage. -/
theorem Pet.takeDamage_hp_bounds_witness :
    0 ≤ ((Pet.takeDamage World.blank 0 30 0).2.petObj 0).hp ∧
      ((Pet.takeDamage World.blank 0 30 0).2.petObj 0).hp ≤
        ((Pet.takeDamage World.blank 0 30 0).2.petObj 0).maxHp :=
  Pet.takeDamage_hp_bounds World.blank 0 30 0
    (by norm_num [World.blank, blankPet]) (by norm_num [World.blank, blankPet]) (by norm_num)

/-- Counterexample to C1 as stated: a pet at 100/100 hp that takes the amount -5 ends
at hp 105 with maxHp 100, so `hp ≤ maxHp` is lost. -/
theorem Pet.takeDamage_negative_amount :
    0 ≤ (World.blank.petObj 0).hp ∧ (World.blank.petObj 0).hp ≤ (World.blank.petObj 0).maxHp ∧
      ((Pet.takeDamage World.blank 0 (-5) 0).2.petObj 0).hp = 105 ∧
      ((Pet.takeDamage World.blank 0 (-5) 0).2.petObj 0).maxHp = 100 ∧
      ¬ ((Pet.takeDamage World.blank 0 (-5) 0).2.petObj 0).hp ≤
        ((Pet.takeDamage World.blank 0 (-5) 0).2.petObj 0).maxHp := by
  simp [Pet.takeDamage, World.blank, blankPet]
  norm_num

/-- On a pet that is already despawning, `Pet.despawn` returns at once. -/
theorem Pet.despawn_of_isDespawning (w : World) (p : ℕ) (now : ℤ)
    (h : (w.petObj p).isDespawning = true) : Pet.despawn w p now = w := by
  unfold Pet.despawn
  rw [if_pos h]

/-- After `Pet.despawn` the pet is flagged as despawning. -/
theorem Pet.despawn_isDespawning (w : World) (p : ℕ) (now : ℤ) :
    ((Pet.despawn w p now).petObj p).isDespawning = true := by
  rw [Pet.despawn_petObj]
  simp

/-- Claim C6: `Pet.despawn` is idempotent. A second call, at any clock reading, returns
the state the first call produced: roster, flag and owner cooldown are untouched. -/
theorem Pet.despawn_idempotent (w : World) (p : ℕ) (now now2 : ℤ) :
    Pet.despawn (Pet.despawn w p now) p now2 = Pet.despawn w p now :=
  Pet.despawn_of_isDespawning _ p now2 (Pet.despawn_isDespawning w p now)

/-- Claim C8: the damage of a rank C pet is `floor(H * (lo + r * 0.10))` with `lo = 0.10`
below level 30 and `lo = 0.20` from level 30 on; on `H = 1000` this lies in 100..200 at
level 1 and in 200..300 at level 30. -/
theorem Pet.calculateDamage_rank_C (pet : Pet) (H r : ℚ) (hrank : pet.rank = "C")
    (hr0 : 0 ≤ r) (hr1 : r < 1) :
    Pet.calculateDamage pet H r =
        (⌊H * ((if pet.level < 30 then 1 / 10 else 2 / 10) + r * (1 / 10))⌋ : ℤ) ∧
      (H = 1000 → pet.level = 1 →
        100 ≤ Pet.calculateDamage pet H r ∧ Pet.calculateDamage pet H r ≤ 200) ∧
      (H = 1000 → pet.level = 30 →
        200 ≤ Pet.calculateDamage pet H r ∧ Pet.calculateDamage pet H r ≤ 300) := by
  have hval : Pet.calculateDamage pet H r =
      (⌊H * ((if pet.level < 30 then 1 / 10 else 2 / 10) + r * (1 / 10))⌋ : ℤ) := by
    unfold Pet.calculateDamage
    rw [hrank]
    by_cases hl : pet.level < 30
    · have hl2 : ¬ (30 : ℚ) ≤ pet.level := not_le.mpr hl
      simp only [CONFIG.PET.POWER_TIERS, hl, hl2, if_true, false_and, if_false]
      norm_num
    · have hl2 : (30 : ℚ) ≤ pet.level := not_lt.mp hl
      simp only [CONFIG.PET.POWER_TIERS, hl, hl2, if_false, true_and, true_or, if_true,
        Option.getD_some]
      norm_num
  refine ⟨hval, ?_, ?_⟩
  · intro hH1 hlevel
    rw [hval, hH1, hlevel, if_pos (by norm_num)]
    constructor
    · have : ((100 : ℤ) : ℚ) ≤ 1000 * (1 / 10 + r * (1 / 10)) := by push_cast; linarith
      exact_mod_cast Int.le_floor.mpr this
    · have h1 : ((⌊(1000 : ℚ) * (1 / 10 + r * (1 / 10))⌋ : ℤ) : ℚ) ≤
          1000 * (1 / 10 + r * (1 / 10)) := Int.floor_le _
      linarith
  · intro hH1 hlevel
    rw [hval, hH1, hlevel, if_neg (by norm_num)]
    constructor
    · have : ((200 : ℤ) : ℚ) ≤ 1000 * (2 / 10 + r * (1 / 10)) := by push_cast; linarith
      exact_mod_cast Int.le_floor.mpr this
    · have h1 : ((⌊(1000 : ℚ) * (2 / 10 + r * (1 / 10))⌋ : ℤ) : ℚ) ≤
          1000 * (2 / 10 + r * (1 / 10)) := Int.floor_le _
      linarith

/-- Witness for C8: a rank C pet of level 1 rolling 1/2 against 1000 max hp. -/
theorem Pet.calculateDamage_rank_C_witness :
    100 ≤ Pet.calculateDamage blankPet 1000 (1 / 2) ∧
      Pet.calculateDamage blankPet 1000 (1 / 2) ≤ 200 :=
  (Pet.calculateDamage_rank_C blankPet 1000 (1 / 2) rfl (by norm_num) (by norm_num)).2.1 rfl rfl

/-! ## Rounding to doubles -/

theorem floor_le_roundHalfEven (q : ℚ) : ⌊q⌋ ≤ roundHalfEven q := by
  unfold roundHalfEven
  split_ifs <;> omega

theorem roundHalfEven_le_floor_succ (q : ℚ) : roundHalfEven q ≤ ⌊q⌋ + 1 := by
  unfold roundHalfEven
  split_ifs <;> omega

/-- An integer is rounded to itself. -/
theorem roundHalfEven_intCast (n : ℤ) : roundHalfEven (n : ℚ) = n := by
  unfold roundHalfEven
  rw [Int.fract_intCast, if_pos (by norm_num), Int.floor_intCast]

/-- Rounding does not pass an integer above. -/
theorem roundHalfEven_le_of_le (q : ℚ) (n : ℤ) (h : q ≤ n) : roundHalfEven q ≤ n := by
  rcases h.lt_or_eq with hlt | heq
  · have hfl : ⌊q⌋ < n := Int.floor_lt.mpr hlt
    have := roundHalfEven_le_floor_succ q
    omega
  · rw [heq, roundHalfEven_intCast]

/-- Rounding does not pass an integer below. -/
theorem le_roundHalfEven_of_le (q : ℚ) (n : ℤ) (h : (n : ℚ) ≤ q) : n ≤ roundHalfEven q :=
  (Int.le_floor.mpr h).trans (floor_le_roundHalfEven q)

theorem two_zpow_pos (k : ℤ) : (0 : ℚ) < 2 ^ k := zpow_pos (by norm_num) k

/-- The exponent picked by `toDouble` brackets `|q|`. -/
theorem toDouble_exponent (q : ℚ) (hq : q ≠ 0) :
    (2 : ℚ) ^ Int.log 2 |q| ≤ |q| ∧ |q| < (2 : ℚ) ^ (Int.log 2 |q| + 1) := by
  have h1 : ((2 : ℕ) : ℚ) ^ Int.log 2 |q| ≤ |q| :=
    Int.zpow_log_le_self (by norm_num) (abs_pos.mpr hq)
  have h2 : |q| < ((2 : ℕ) : ℚ) ^ (Int.log 2 |q| + 1) :=
    Int.lt_zpow_succ_log_self (by norm_num) |q|
  simp only [Nat.cast_ofNat] at h1 h2
  exact ⟨h1, h2⟩

/-- The exponent of a value between two powers of two. -/
theorem toDouble_exponent_eq (q : ℚ) (e : ℤ) (h1 : (2 : ℚ) ^ e ≤ |q|)
    (h2 : |q| < (2 : ℚ) ^ (e + 1)) : Int.log 2 |q| = e := by
  have hpos : 0 < |q| := lt_of_lt_of_le (two_zpow_pos e) h1
  have hq : q ≠ 0 := abs_pos.mp hpos
  obtain ⟨h3, h4⟩ := toDouble_exponent q hq
  have ha := (zpow_lt_zpow_iff_right₀ (by norm_num : (1 : ℚ) < 2)).mp (lt_of_le_of_lt h1 h4)
  have hb := (zpow_lt_zpow_iff_right₀ (by norm_num : (1 : ℚ) < 2)).mp (lt_of_le_of_lt h3 h2)
  omega

/-- Rounding keeps the sign: a value that is not negative is rounded to one. -/
theorem toDouble_nonneg (q : ℚ) (h : 0 ≤ q) : 0 ≤ toDouble q := by
  unfold toDouble
  split_ifs with h0
  · exact le_refl _
  · apply mul_nonneg _ (two_zpow_pos _).le
    have : (0 : ℤ) ≤ roundHalfEven (q / 2 ^ (Int.log 2 |q| - 52)) :=
      le_roundHalfEven_of_le _ 0 (by
        push_cast
        exact div_nonneg h (two_zpow_pos _).le)
    exact_mod_cast this

/-- Rounding keeps the sign: a value that is not positive is rounded to one. -/
theorem toDouble_nonpos (q : ℚ) (h : q ≤ 0) : toDouble q ≤ 0 := by
  unfold toDouble
  split_ifs with h0
  · exact le_refl _
  · apply mul_nonpos_of_nonpos_of_nonneg _ (two_zpow_pos _).le
    have : roundHalfEven (q / 2 ^ (Int.log 2 |q| - 52)) ≤ (0 : ℤ) :=
      roundHalfEven_le_of_le _ 0 (by
        push_cast
        exact div_nonpos_of_nonpos_of_nonneg h (two_zpow_pos _).le)
    exact_mod_cast this

/-- The value `m * 2 ^ k` is a whole multiple of every `2 ^ j` with `j ≤ k`. -/
theorem zpow_multiple (m k j : ℤ) (h : j ≤ k) :
    ∃ n : ℤ, (m : ℚ) * 2 ^ k = n * 2 ^ j := by
  refine ⟨m * 2 ^ (k - j).toNat, ?_⟩
  have hk : k = (k - j).toNat + j := by omega
  have h2 : (2 : ℚ) ≠ 0 := by norm_num
  conv_lhs => rw [hk]
  rw [zpow_add₀ h2, zpow_natCast]
  push_cast
  ring

/-- For a double `m * 2 ^ k` and `0 < |q| ≤ |m * 2 ^ k|`, the unit in which `q` is
rounded is at most `2 ^ k`. -/
theorem toDouble_unit_le (q : ℚ) (m k : ℤ) (hq : q ≠ 0) (hm : |m| < 2 ^ 53)
    (hle : |q| ≤ |(m : ℚ) * 2 ^ k|) : Int.log 2 |q| - 52 ≤ k := by
  obtain ⟨h1, _⟩ := toDouble_exponent q hq
  have hm1 : |(m : ℚ)| < 2 ^ (53 : ℤ) := by
    have : ((|m| : ℤ) : ℚ) < ((2 ^ 53 : ℤ) : ℚ) := by exact_mod_cast hm
    rw [Int.cast_abs] at this
    norm_num at this ⊢
    exact this
  have habs : |(m : ℚ) * 2 ^ k| < 2 ^ (53 + k) := by
    rw [abs_mul, abs_of_pos (two_zpow_pos k), zpow_add₀ (by norm_num : (2 : ℚ) ≠ 0)]
    exact mul_lt_mul_of_pos_right hm1 (two_zpow_pos k)
  have hlt : (2 : ℚ) ^ Int.log 2 |q| < 2 ^ (53 + k) := lt_of_le_of_lt (h1.trans hle) habs
  have := (zpow_lt_zpow_iff_right₀ (by norm_num : (1 : ℚ) < 2)).mp hlt
  omega

/-- A double is rounded to itself. -/
theorem toDouble_of_isDouble (q : ℚ) (h : IsDouble q) : toDouble q = q := by
  obtain ⟨m, k, hm, rfl⟩ := h
  unfold toDouble
  split_ifs with h0
  · exact h0.symm
  · obtain ⟨n, hn⟩ := zpow_multiple m k (Int.log 2 |(m : ℚ) * 2 ^ k| - 52)
      (toDouble_unit_le _ m k h0 hm (le_refl _))
    have hdiv : (m : ℚ) * 2 ^ k / 2 ^ (Int.log 2 |(m : ℚ) * 2 ^ k| - 52) = n := by
      rw [div_eq_iff (two_zpow_pos _).ne']
      exact hn
    rw [hdiv, roundHalfEven_intCast]
    exact hn.symm

/-- Rounding does not pass a double that is not negative. -/
theorem toDouble_le_of_le (q f : ℚ) (hf : IsDouble f) (hf0 : 0 ≤ f) (hq : q ≤ f) :
    toDouble q ≤ f := by
  rcases le_or_lt q 0 with hq0 | hq0
  · exact (toDouble_nonpos q hq0).trans hf0
  · obtain ⟨m, k, hm, rfl⟩ := hf
    have hne : q ≠ 0 := hq0.ne'
    obtain ⟨n, hn⟩ := zpow_multiple m k (Int.log 2 |q| - 52)
      (toDouble_unit_le q m k hne hm (by rw [abs_of_pos hq0, abs_of_nonneg hf0]; exact hq))
    unfold toDouble
    rw [if_neg hne, hn]
    apply mul_le_mul_of_nonneg_right _ (two_zpow_pos _).le
    have : roundHalfEven (q / 2 ^ (Int.log 2 |q| - 52)) ≤ n :=
      roundHalfEven_le_of_le _ n (by
        rw [div_le_iff₀ (two_zpow_pos _)]
        rw [← hn]
        exact hq)
    exact_mod_cast this

theorem isDouble_zero : IsDouble 0 := ⟨0, 0, by norm_num, by norm_num⟩

/-- An integer of at most 53 bits is a double. -/
theorem isDouble_intCast (n : ℤ) (h : |n| < 2 ^ 53) : IsDouble (n : ℚ) :=
  ⟨n, 0, h, by norm_num⟩

/-- The baseline fuel of a new vehicle is a double. -/
theorem isDouble_baseline : IsDouble CONFIG.VEHICLE.FUEL_BASELINE :=
  ⟨30000, 0, by norm_num, by norm_num [CONFIG.VEHICLE.FUEL_BASELINE]⟩

/-- The result of rounding is a double. -/
theorem toDouble_isDouble (q : ℚ) : IsDouble (toDouble q) := by
  unfold toDouble
  split_ifs with h0
  · exact isDouble_zero
  · obtain ⟨h1, h2⟩ := toDouble_exponent q h0
    set e := Int.log 2 |q| with he
    set y := q / 2 ^ (e - 52) with hy
    have hpos := two_zpow_pos (e - 52)
    have habs : |y| < 2 ^ (53 : ℤ) := by
      rw [hy, abs_div, abs_of_pos hpos, div_lt_iff₀ hpos, ← zpow_add₀ (by norm_num : (2 : ℚ) ≠ 0)]
      have : (53 : ℤ) + (e - 52) = e + 1 := by ring
      rw [this]
      exact h2
    have hup : roundHalfEven y ≤ 2 ^ 53 :=
      roundHalfEven_le_of_le y (2 ^ 53) (by
        push_cast
        have := (abs_lt.mp habs).2
        norm_num at this ⊢
        exact this.le)
    have hlow : -(2 ^ 53) ≤ roundHalfEven y :=
      le_roundHalfEven_of_le y (-(2 ^ 53)) (by
        push_cast
        have := (abs_lt.mp habs).1
        norm_num at this ⊢
        exact this.le)
    by_cases htop : |roundHalfEven y| < 2 ^ 53
    · exact ⟨roundHalfEven y, e - 52, htop, rfl⟩
    · have hcase : roundHalfEven y = 2 ^ 53 ∨ roundHalfEven y = -(2 ^ 53) := by
        rw [abs_lt, not_and_or] at htop
        rcases htop with h | h <;> omega
      rcases hcase with h | h
      · refine ⟨2 ^ 52, e - 51, by norm_num, ?_⟩
        rw [h]
        have : e - 51 = (e - 52) + 1 := by ring
        rw [this, zpow_add₀ (by norm_num : (2 : ℚ) ≠ 0)]
        push_cast
        ring
      · refine ⟨-(2 ^ 52), e - 51, by norm_num, ?_⟩
        rw [h]
        have : e - 51 = (e - 52) + 1 := by ring
        rw [this, zpow_add₀ (by norm_num : (2 : ℚ) ≠ 0)]
        push_cast
        ring

/-- The fuel written by `consumeFuel` is a double. -/
theorem isDouble_max_zero (q : ℚ) : IsDouble (max 0 (toDouble q)) := by
  rcases max_choice 0 (toDouble q) with h | h <;> rw [h]
  · exact isDouble_zero
  · exact toDouble_isDouble q

/-- With a time step that is not negative, the fuel written by `consumeFuel` is at most
the fuel before. -/
theorem toDouble_sub_le (fuel dt : ℚ) (hd : IsDouble fuel) (h0 : 0 ≤ fuel) (hdt : 0 ≤ dt) :
    max 0 (toDouble (fuel - dt)) ≤ fuel :=
  max_le h0 (toDouble_le_of_le _ fuel hd h0 (by linarith))

/-! ## Vehicles: what each method does to the stores -/

@[simp]
theorem World.setVehicle_vehicleObj (w : World) (i : ℕ) (x : Vehicle) :
    (w.setVehicle i x).vehicleObj = Function.update w.vehicleObj i x := rfl

@[simp]
theorem World.setVehicle_playerObj (w : World) (i : ℕ) (x : Vehicle) :
    (w.setVehicle i x).playerObj = w.playerObj := rfl

@[simp]
theorem World.setVehicle_G (w : World) (i : ℕ) (x : Vehicle) :
    (w.setVehicle i x).G = w.G := rfl

@[simp]
theorem World.setPlayer_vehicleObj (w : World) (i : ℕ) (p : Player) :
    (w.setPlayer i p).vehicleObj = w.vehicleObj := rfl

/-- `positionRider` writes to the player only. -/
theorem Vehicle.positionRider_vehicleObj (w : World) (v player : ℕ) :
    (Vehicle.positionRider w v player).vehicleObj = w.vehicleObj := by
  unfold Vehicle.positionRider
  dsimp only
  split <;> rfl

/-- `positionRider` leaves `G` and the timers alone. -/
theorem Vehicle.positionRider_G (w : World) (v player : ℕ) :
    (Vehicle.positionRider w v player).G = w.G ∧
      (Vehicle.positionRider w v player).timers = w.timers ∧
      (Vehicle.positionRider w v player).nextVehicle = w.nextVehicle ∧
      (Vehicle.positionRider w v player).nextPet = w.nextPet ∧
      (Vehicle.positionRider w v player).petObj = w.petObj ∧
      (Vehicle.positionRider w v player).enemyObj = w.enemyObj := by
  unfold Vehicle.positionRider
  dsimp only
  split <;> exact ⟨rfl, rfl, rfl, rfl, rfl, rfl⟩

/-- The vehicle store after `mount`: only the rider list of `v` can change. -/
theorem Vehicle.mount_vehicleObj (w : World) (v player : ℕ) :
    (Vehicle.mount w v player).2.vehicleObj =
      if geNumber (w.vehicleObj v).riders.length (w.vehicleObj v).maxRiders = true ∨
          player ∈ (w.vehicleObj v).riders then w.vehicleObj
      else Function.update w.vehicleObj v
        { w.vehicleObj v with riders := (w.vehicleObj v).riders ++ [player] } := by
  unfold Vehicle.mount
  by_cases h1 : geNumber (w.vehicleObj v).riders.length (w.vehicleObj v).maxRiders = true
  · simp [h1]
  · by_cases h2 : player ∈ (w.vehicleObj v).riders
    · simp [h1, h2]
    · simp [h1, h2, Vehicle.positionRider_vehicleObj]

/-- The vehicle store after `dismount`: the first occurrence of the player leaves the
rider list of `v`. -/
theorem Vehicle.dismount_vehicleObj (w : World) (v player : ℕ) (now : ℤ) :
    (Vehicle.dismount w v player now).2.vehicleObj =
      Function.update w.vehicleObj v
        { w.vehicleObj v with riders := (w.vehicleObj v).riders.erase player } := by
  unfold Vehicle.dismount
  by_cases h : player ∈ (w.vehicleObj v).riders
  · simp only [h, not_true_eq_false, if_false]
    split_ifs <;> simp
  · simp only [h, not_false_eq_true, if_true]
    rw [List.erase_of_not_mem h]
    exact (Function.update_eq_self v w.vehicleObj).symm

/-- The roster and the rest of `G` are untouched by `dismount`. -/
theorem Vehicle.dismount_G (w : World) (v player : ℕ) (now : ℤ) :
    (Vehicle.dismount w v player now).2.G = w.G := by
  unfold Vehicle.dismount
  dsimp only
  split_ifs <;> rfl

/-- The player store after `dismount`. -/
theorem Vehicle.dismount_playerObj (w : World) (v player : ℕ) (now : ℤ) :
    (Vehicle.dismount w v player now).2.playerObj =
      if player ∈ (w.vehicleObj v).riders then
        Function.update w.playerObj player
          { w.playerObj player with vehicle := none, mountedVehicle := none }
      else w.playerObj := by
  unfold Vehicle.dismount
  by_cases h : player ∈ (w.vehicleObj v).riders
  · simp only [h, not_true_eq_false, if_false, if_true]
    split_ifs <;> simp
  · simp only [h, not_false_eq_true, if_true, if_false]

/-- Removing, one after the other, the members of a list that has the same members with
the same multiplicities empties the list. -/
theorem foldl_erase_of_perm : ∀ (s l : List ℕ), l.Perm s → s.foldl List.erase l = []
  | [], l, h => by simpa using h.eq_nil
  | a :: s, l, h => by
    have ha : a ∈ l := h.symm.subset (List.mem_cons_self a s)
    have h2 : (l.erase a).Perm s :=
      (List.perm_cons a).mp ((List.perm_cons_erase ha).symm.trans h)
    simpa using foldl_erase_of_perm s (l.erase a) h2

/-- The vehicle store after dismounting the players of `s` in turn. -/
theorem Vehicle.dismount_foldl_vehicleObj (v : ℕ) (now : ℤ) : ∀ (s : List ℕ) (w : World),
    (s.foldl (fun acc rider => (Vehicle.dismount acc v rider now).2) w).vehicleObj =
      Function.update w.vehicleObj v
        { w.vehicleObj v with riders := s.foldl List.erase (w.vehicleObj v).riders }
  | [], w => (Function.update_eq_self v w.vehicleObj).symm
  | a :: s, w => by
    rw [List.foldl_cons, Vehicle.dismount_foldl_vehicleObj v now s, Vehicle.dismount_vehicleObj]
    simp

/-- Dismounting players never touches `G`. -/
theorem Vehicle.dismount_foldl_G (v : ℕ) (now : ℤ) : ∀ (s : List ℕ) (w : World),
    (s.foldl (fun acc rider => (Vehicle.dismount acc v rider now).2) w).G = w.G
  | [], _ => rfl
  | a :: s, w => by
    rw [List.foldl_cons, Vehicle.dismount_foldl_G v now s, Vehicle.dismount_G]

/-- A player that is on no vehicle stays so through any `dismount`. -/
theorem Vehicle.dismount_keeps_unmounted (w : World) (v player : ℕ) (now : ℤ) (q : ℕ)
    (h : (w.playerObj q).vehicle = none ∧ (w.playerObj q).mountedVehicle = none) :
    ((Vehicle.dismount w v player now).2.playerObj q).vehicle = none ∧
      ((Vehicle.dismount w v player now).2.playerObj q).mountedVehicle = none := by
  rw [Vehicle.dismount_playerObj]
  split_ifs
  · by_cases hq : q = player
    · subst hq
      simp
    · simpa [Function.update_noteq hq] using h
  · exact h

/-- A player that is on no vehicle stays so while a list of players is dismounted. -/
theorem Vehicle.dismount_foldl_keeps_unmounted (v : ℕ) (now : ℤ) (q : ℕ) :
    ∀ (s : List ℕ) (w : World),
      ((w.playerObj q).vehicle = none ∧ (w.playerObj q).mountedVehicle = none) →
      ((s.foldl (fun acc rider => (Vehicle.dismount acc v rider now).2) w).playerObj q).vehicle
          = none ∧
        ((s.foldl (fun acc rider =>
          (Vehicle.dismount acc v rider now).2) w).playerObj q).mountedVehicle = none
  | [], _, h => h
  | a :: s, w, h => by
    rw [List.foldl_cons]
    exact Vehicle.dismount_foldl_keeps_unmounted v now q s _
      (Vehicle.dismount_keeps_unmounted w v a now q h)

/-- Dismounting in turn the members of the rider list leaves each of them on no vehicle. -/
theorem Vehicle.dismount_foldl_unmounts (v : ℕ) (now : ℤ) : ∀ (s : List ℕ) (w : World),
    (w.vehicleObj v).riders.Perm s → ∀ q ∈ s,
      ((s.foldl (fun acc rider => (Vehicle.dismount acc v rider now).2) w).playerObj q).vehicle
          = none ∧
        ((s.foldl (fun acc rider =>
          (Vehicle.dismount acc v rider now).2) w).playerObj q).mountedVehicle = none
  | [], _, _, q, hq => absurd hq (List.not_mem_nil q)
  | a :: s, w, h, q, hq => by
    have ha : a ∈ (w.vehicleObj v).riders := h.symm.subset (List.mem_cons_self a s)
    have h2 : ((Vehicle.dismount w v a now).2.vehicleObj v).riders.Perm s := by
      rw [Vehicle.dismount_vehicleObj]
      simpa using (List.perm_cons a).mp ((List.perm_cons_erase ha).symm.trans h)
    rw [List.foldl_cons]
    by_cases hqs : q ∈ s
    · exact Vehicle.dismount_foldl_unmounts v now s _ h2 q hqs
    · have hqa : q = a := by
        rcases List.mem_cons.mp hq with h3 | h3
        · exact h3
        · exact absurd h3 hqs
      subst hqa
      apply Vehicle.dismount_foldl_keeps_unmounted
      rw [Vehicle.dismount_playerObj, if_pos ha]
      simp

/-- The vehicle store after `ejectAllRiders`: the rider list of `v` is empty. -/
theorem Vehicle.ejectAllRiders_vehicleObj (w : World) (v : ℕ) (now : ℤ) :
    (Vehicle.ejectAllRiders w v now).vehicleObj =
      Function.update w.vehicleObj v { w.vehicleObj v with riders := [] } := by
  unfold Vehicle.ejectAllRiders
  rw [Vehicle.dismount_foldl_vehicleObj, foldl_erase_of_perm _ _ (List.Perm.refl _)]

/-- The vehicle store after `despawn`: the rider list of `v` is empty. -/
theorem Vehicle.despawn_vehicleObj (w : World) (v : ℕ) (now : ℤ) :
    (Vehicle.despawn w v now).vehicleObj =
      Function.update w.vehicleObj v { w.vehicleObj v with riders := [] } := by
  unfold Vehicle.despawn
  exact Vehicle.ejectAllRiders_vehicleObj w v now

/-- The roster after `despawn`: the first entry for `v` is removed. -/
theorem Vehicle.despawn_G_vehicles (w : World) (v : ℕ) (now : ℤ) :
    (Vehicle.despawn w v now).G.vehicles = w.G.vehicles.erase v := by
  unfold Vehicle.despawn Vehicle.ejectAllRiders
  simp only [Vehicle.dismount_foldl_G]

/-- The vehicle store after `consumeFuel`. -/
theorem Vehicle.consumeFuel_vehicleObj (w : World) (v : ℕ) (deltaTime : ℚ) (now : ℤ) :
    (Vehicle.consumeFuel w v deltaTime now).2.vehicleObj =
      if (w.vehicleObj v).riders.length = 0 then w.vehicleObj
      else if max 0 (toDouble ((w.vehicleObj v).fuel - deltaTime)) ≤ 0 then
        Function.update w.vehicleObj v
          { w.vehicleObj v with
            fuel := max 0 (toDouble ((w.vehicleObj v).fuel - deltaTime))
            riders := [] }
      else
        Function.update w.vehicleObj v
          { w.vehicleObj v with
            fuel := max 0 (toDouble ((w.vehicleObj v).fuel - deltaTime)) } := by
  unfold Vehicle.consumeFuel
  by_cases h1 : (w.vehicleObj v).riders.length = 0
  · simp only [h1, if_true]
  · by_cases h2 : max 0 (toDouble ((w.vehicleObj v).fuel - deltaTime)) ≤ 0
    · simp only [h1, if_false, World.setVehicle_vehicleObj, Function.update_same, h2, if_true,
        Vehicle.despawn_vehicleObj, Vehicle.ejectAllRiders_vehicleObj, Function.update_idem]
    · simp only [h1, if_false, World.setVehicle_vehicleObj, Function.update_same, h2]

/-- On a vehicle without riders `ejectAllRiders` does nothing. -/
theorem Vehicle.ejectAllRiders_of_empty (w : World) (v : ℕ) (now : ℤ)
    (h : (w.vehicleObj v).riders = []) : Vehicle.ejectAllRiders w v now = w := by
  unfold Vehicle.ejectAllRiders
  rw [h]
  rfl

/-- After `ejectAllRiders` every former rider is on no vehicle. -/
theorem Vehicle.ejectAllRiders_unmounts (w : World) (v : ℕ) (now : ℤ) (q : ℕ)
    (hq : q ∈ (w.vehicleObj v).riders) :
    ((Vehicle.ejectAllRiders w v now).playerObj q).vehicle = none ∧
      ((Vehicle.ejectAllRiders w v now).playerObj q).mountedVehicle = none := by
  unfold Vehicle.ejectAllRiders
  exact Vehicle.dismount_foldl_unmounts v now _ w (List.Perm.refl _) q hq

/-! ## Vehicles: rejected mount (C2) -/

/-- Claim C2: when the seats are full (`riders.length >= maxRiders` holds) or the player
is already a rider, `mount` returns false and the state is the one before the call:
riders, fuel and the player's `vehicle`, `mountedVehicle` and offset fields are
unchanged. -/
theorem Vehicle.mount_rejected (w : World) (v player : ℕ)
    (h : geNumber (w.vehicleObj v).riders.length (w.vehicleObj v).maxRiders = true ∨
      player ∈ (w.vehicleObj v).riders) :
    Vehicle.mount w v player = (false, w) := by
  unfold Vehicle.mount
  by_cases h1 : geNumber (w.vehicleObj v).riders.length (w.vehicleObj v).maxRiders = true
  · rw [if_pos h1]
  · rw [if_neg h1, if_pos (h.resolve_left h1)]

/-- The motorcycle of the test state has two seats and the riders 1 and 2. -/
theorem World.motorcycle_vehicle :
    (World.motorcycle.vehicleObj 0).maxRiders = some 2 ∧
      (World.motorcycle.vehicleObj 0).riders = [1, 2] := by
  simp [World.motorcycle, Vehicle.mount_vehicleObj, Vehicle.new, World.blank,
    Vehicle.getMaxRiders, Vehicle.riderCounts, Lookup.orElse, geNumber]

/-- Witness for C2: a two-seat motorcycle with two riders rejects a third player and
still has its two riders. -/
theorem Vehicle.mount_rejected_witness :
    (Vehicle.mount World.motorcycle 0 3).1 = false ∧
      ((Vehicle.mount World.motorcycle 0 3).2.vehicleObj 0).riders = [1, 2] := by
  rw [Vehicle.mount_rejected World.motorcycle 0 3
    (Or.inl (by rw [World.motorcycle_vehicle.1, World.motorcycle_vehicle.2]; decide))]
  exact ⟨rfl, World.motorcycle_vehicle.2⟩

/-! ## Vehicles: fuel bounds (C3) -/

/-- For a rank that does not name a member of `Object.prototype`, the per-ten-levels
upgrade read by `calculateMaxFuel` is a number, at least 5000. -/
theorem CONFIG.VEHICLE.baseUpgrade_ge (rank : String) (hrank : rank ∉ inheritedNames) :
    ∃ baseUpgrade : ℚ,
      (CONFIG.VEHICLE.FUEL_UPGRADE_PER_10_LEVELS rank).orElse 5000 = some baseUpgrade ∧
        5000 ≤ baseUpgrade := by
  unfold CONFIG.VEHICLE.FUEL_UPGRADE_PER_10_LEVELS
  split
  · exact ⟨5000, by simp [Lookup.orElse], by norm_num⟩
  · exact ⟨7000, by simp [Lookup.orElse], by norm_num⟩
  · exact ⟨10000, by simp [Lookup.orElse], by norm_num⟩
  · exact ⟨12000, by simp [Lookup.orElse], by norm_num⟩
  · exact ⟨15000, by simp [Lookup.orElse], by norm_num⟩
  · rw [if_neg hrank]
    exact ⟨5000, rfl, le_refl _⟩

/-- For a rank that does not name a member of `Object.prototype` and a level that is not
negative, the capacity without the shop upgrade is a number, at least the baseline of
30000 and at most the ceiling of 50000. -/
theorem Vehicle.calculateMaxFuel_bounds (rank : String) (level : ℚ) (hlevel : 0 ≤ level)
    (hrank : rank ∉ inheritedNames) :
    ∃ capacity : ℚ, Vehicle.calculateMaxFuel rank level false = some capacity ∧
      CONFIG.VEHICLE.FUEL_BASELINE ≤ capacity ∧ capacity ≤ CONFIG.VEHICLE.FUEL_MAX := by
  obtain ⟨baseUpgrade, hbase, hge⟩ := CONFIG.VEHICLE.baseUpgrade_ge rank hrank
  unfold Vehicle.calculateMaxFuel
  rw [hbase]
  have hfloor : (0 : ℚ) ≤ ((⌊level / 10⌋ : ℤ) : ℚ) := by
    exact_mod_cast Int.floor_nonneg.mpr (div_nonneg hlevel (by norm_num))
  have hprod := mul_nonneg hfloor (by linarith : (0 : ℚ) ≤ baseUpgrade)
  simp only [Bool.false_eq_true, if_false]
  exact ⟨_, rfl, le_min (by linarith) (by norm_num [CONFIG.VEHICLE.FUEL_BASELINE,
    CONFIG.VEHICLE.FUEL_MAX]), min_le_right _ _⟩

/-- The object built by `new Vehicle`. -/
theorem Vehicle.new_vehicleObj (w : World) (type rank : String) (level : ℚ) :
    (Vehicle.new w type level rank).2.vehicleObj (Vehicle.new w type level rank).1 =
      { type := type
        level := level
        rank := rank
        riders := []
        maxRiders := Vehicle.getMaxRiders type
        fuel := CONFIG.VEHICLE.FUEL_BASELINE
        maxFuel := Vehicle.calculateMaxFuel rank level false
        fuelTankUpgrade := false
        x := 0
        y := 0 } := by
  simp [Vehicle.new]

/-- One call keeps the fuel a double that is not negative, whatever the time step. -/
theorem VehicleCall.run_fuel_double (v : ℕ) (w : World) (call : VehicleCall)
    (h : IsDouble (w.vehicleObj v).fuel ∧ 0 ≤ (w.vehicleObj v).fuel) :
    IsDouble ((call.run v w).vehicleObj v).fuel ∧ 0 ≤ ((call.run v w).vehicleObj v).fuel := by
  cases call with
  | mount player =>
    simp only [VehicleCall.run, Vehicle.mount_vehicleObj]
    split_ifs
    · exact h
    · simpa using h
  | dismount player now =>
    simpa [VehicleCall.run, Vehicle.dismount_vehicleObj] using h
  | consumeFuel deltaTime now =>
    have hnew : IsDouble (max 0 (toDouble ((w.vehicleObj v).fuel - deltaTime))) ∧
        0 ≤ max 0 (toDouble ((w.vehicleObj v).fuel - deltaTime)) :=
      ⟨isDouble_max_zero _, le_max_left _ _⟩
    simp only [VehicleCall.run, Vehicle.consumeFuel_vehicleObj]
    split_ifs
    · exact h
    · simpa using hnew
    · simpa using hnew
  | despawn now =>
    simpa [VehicleCall.run, Vehicle.despawn_vehicleObj] using h

/-- A sequence of calls keeps the fuel a double that is not negative. -/
theorem runCalls_fuel_double (v : ℕ) : ∀ (calls : List VehicleCall) (w : World),
    (IsDouble (w.vehicleObj v).fuel ∧ 0 ≤ (w.vehicleObj v).fuel) →
    IsDouble ((runCalls v w calls).vehicleObj v).fuel ∧
      0 ≤ ((runCalls v w calls).vehicleObj v).fuel
  | [], _, h => h
  | call :: calls, w, h =>
    runCalls_fuel_double v calls (call.run v w) (VehicleCall.run_fuel_double v w call h)

/-- One call with a time step that is not negative does not raise the fuel of a vehicle
whose fuel is a double that is not negative, and leaves `maxFuel` alone. -/
theorem VehicleCall.run_fuel_le (v : ℕ) (w : World) (call : VehicleCall)
    (hdt : ∀ dt now, call = VehicleCall.consumeFuel dt now → 0 ≤ dt)
    (h : IsDouble (w.vehicleObj v).fuel ∧ 0 ≤ (w.vehicleObj v).fuel) :
    ((call.run v w).vehicleObj v).fuel ≤ (w.vehicleObj v).fuel ∧
      ((call.run v w).vehicleObj v).maxFuel = (w.vehicleObj v).maxFuel := by
  cases call with
  | mount player =>
    simp only [VehicleCall.run, Vehicle.mount_vehicleObj]
    split_ifs
    · exact ⟨le_refl _, rfl⟩
    · simp
  | dismount player now =>
    simp [VehicleCall.run, Vehicle.dismount_vehicleObj]
  | consumeFuel deltaTime now =>
    have hle := toDouble_sub_le (w.vehicleObj v).fuel deltaTime h.1 h.2 (hdt deltaTime now rfl)
    simp only [VehicleCall.run, Vehicle.consumeFuel_vehicleObj]
    split_ifs
    · exact ⟨le_refl _, rfl⟩
    · simpa using hle
    · simpa using hle
  | despawn now =>
    simp [VehicleCall.run, Vehicle.despawn_vehicleObj]

/-- The comparison `fuel <= maxFuel` survives a drop of the fuel. -/
theorem leNumber_of_le (a b : ℚ) (m : Option ℚ) (hab : a ≤ b) (h : leNumber b m = true) :
    leNumber a m = true := by
  cases m with
  | none => simp [leNumber] at h
  | some q =>
    simp only [leNumber, decide_eq_true_eq] at h ⊢
    exact hab.trans h

/-- One call with a time step that is not negative keeps the fuel invariant. -/
theorem VehicleCall.run_fuel_bounds (v : ℕ) (w : World) (call : VehicleCall)
    (hdt : ∀ dt now, call = VehicleCall.consumeFuel dt now → 0 ≤ dt)
    (h : (w.vehicleObj v).FuelOk) : ((call.run v w).vehicleObj v).FuelOk := by
  obtain ⟨hd, h0, hmax⟩ := h
  obtain ⟨hd1, h01⟩ := VehicleCall.run_fuel_double v w call ⟨hd, h0⟩
  obtain ⟨hle, hsame⟩ := VehicleCall.run_fuel_le v w call hdt ⟨hd, h0⟩
  refine ⟨hd1, h01, ?_⟩
  rw [hsame]
  exact leNumber_of_le _ _ _ hle hmax

/-- A sequence of calls with time steps that are not negative keeps the fuel invariant. -/
theorem runCalls_fuel_bounds (v : ℕ) : ∀ (calls : List VehicleCall) (w : World),
    (∀ dt now, VehicleCall.consumeFuel dt now ∈ calls → 0 ≤ dt) →
    (w.vehicleObj v).FuelOk → ((runCalls v w calls).vehicleObj v).FuelOk
  | [], _, _, h => h
  | call :: calls, w, hdt, h => by
    have hstep := VehicleCall.run_fuel_bounds v w call
      (fun dt now hc => hdt dt now (hc ▸ List.mem_cons_self _ _)) h
    exact runCalls_fuel_bounds v calls (call.run v w)
      (fun dt now hc => hdt dt now (List.mem_cons_of_mem _ hc)) hstep

/-- Claim C3, as the code has it: a vehicle constructed with any type, a rank that does
not name a member of `Object.prototype` and a level that is not negative satisfies
`0 ≤ fuel ≤ maxFuel` after every finite sequence of `mount`, `dismount`,
`consumeFuel(dt)` (and `despawn`) calls whose `dt` are not negative. -/
theorem Vehicle.fuel_bounds (w : World) (type rank : String) (level : ℚ)
    (calls : List VehicleCall) (hlevel : 0 ≤ level) (hrank : rank ∉ inheritedNames)
    (hdt : ∀ dt now, VehicleCall.consumeFuel dt now ∈ calls → 0 ≤ dt) :
    0 ≤ ((runCalls (Vehicle.new w type level rank).1 (Vehicle.new w type level rank).2
          calls).vehicleObj (Vehicle.new w type level rank).1).fuel ∧
      leNumber
        ((runCalls (Vehicle.new w type level rank).1 (Vehicle.new w type level rank).2
          calls).vehicleObj (Vehicle.new w type level rank).1).fuel
        ((runCalls (Vehicle.new w type level rank).1 (Vehicle.new w type level rank).2
          calls).vehicleObj (Vehicle.new w type level rank).1).maxFuel = true := by
  have hstart : ((Vehicle.new w type level rank).2.vehicleObj
      (Vehicle.new w type level rank).1).FuelOk := by
    rw [Vehicle.new_vehicleObj]
    obtain ⟨capacity, hcap, hlow, _⟩ := Vehicle.calculateMaxFuel_bounds rank level hlevel hrank
    refine ⟨isDouble_baseline, by norm_num [CONFIG.VEHICLE.FUEL_BASELINE], ?_⟩
    simp only [hcap, leNumber, decide_eq_true_eq]
    exact hlow
  exact (runCalls_fuel_bounds _ calls _ hdt hstart).2

/-- Witness for C3: a level 25 rank S car that is boarded, driven for 16 ms, left and
boarded again, then driven for longer than its fuel lasts. -/
theorem Vehicle.fuel_bounds_witness :
    0 ≤ ((runCalls (Vehicle.new World.blank "car" 25 "S").1
          (Vehicle.new World.blank "car" 25 "S").2
          [.mount 1, .consumeFuel 16 0, .dismount 1 16, .mount 2,
            .consumeFuel 40000 32]).vehicleObj (Vehicle.new World.blank "car" 25 "S").1).fuel ∧
      leNumber
        ((runCalls (Vehicle.new World.blank "car" 25 "S").1
          (Vehicle.new World.blank "car" 25 "S").2
          [.mount 1, .consumeFuel 16 0, .dismount 1 16, .mount 2,
            .consumeFuel 40000 32]).vehicleObj (Vehicle.new World.blank "car" 25 "S").1).fuel
        ((runCalls (Vehicle.new World.blank "car" 25 "S").1
          (Vehicle.new World.blank "car" 25 "S").2
          [.mount 1, .consumeFuel 16 0, .dismount 1 16, .mount 2,
            .consumeFuel 40000 32]).vehicleObj
              (Vehicle.new World.blank "car" 25 "S").1).maxFuel = true :=
  Vehicle.fuel_bounds World.blank "car" "S" 25 _ (by norm_num) (by decide) (by
    intro dt now h
    simp only [List.mem_cons, reduceCtorEq, VehicleCall.consumeFuel.injEq, List.mem_singleton,
      false_or, List.not_mem_nil, or_false] at h
    rcases h with h | h <;> rw [h.1] <;> norm_num)

/-- Counterexample to C3 as stated: a vehicle constructed with the rank "constructor"
has `maxFuel = NaN`, so `fuel <= maxFuel` is false from the start (fuel 30000). -/
theorem Vehicle.fuel_bounds_inherited_rank :
    ((Vehicle.new World.blank "bike" 1 "constructor").2.vehicleObj
        (Vehicle.new World.blank "bike" 1 "constructor").1).fuel = 30000 ∧
      ((Vehicle.new World.blank "bike" 1 "constructor").2.vehicleObj
        (Vehicle.new World.blank "bike" 1 "constructor").1).maxFuel = none ∧
      leNumber
        ((Vehicle.new World.blank "bike" 1 "constructor").2.vehicleObj
          (Vehicle.new World.blank "bike" 1 "constructor").1).fuel
        ((Vehicle.new World.blank "bike" 1 "constructor").2.vehicleObj
          (Vehicle.new World.blank "bike" 1 "constructor").1).maxFuel = false := by
  rw [Vehicle.new_vehicleObj]
  have hmax : Vehicle.calculateMaxFuel "constructor" 1 false = none := by
    simp [Vehicle.calculateMaxFuel, CONFIG.VEHICLE.FUEL_UPGRADE_PER_10_LEVELS, inheritedNames,
      Lookup.orElse]
  simp only [hmax, leNumber]
  exact ⟨rfl, trivial, trivial⟩

/-! ## Vehicles: seats (C4) -/

/-- Every vehicle type that does not name a member of `Object.prototype` has one to
three seats. -/
theorem Vehicle.getMaxRiders_bounds (type : String) (htype : type ∉ inheritedNames) :
    ∃ seats : ℕ, Vehicle.getMaxRiders type = some seats ∧ 1 ≤ seats ∧ seats ≤ 3 := by
  unfold Vehicle.getMaxRiders Vehicle.riderCounts
  split
  · exact ⟨1, rfl, by decide, by decide⟩
  · exact ⟨2, rfl, by decide, by decide⟩
  · exact ⟨3, rfl, by decide, by decide⟩
  · exact ⟨1, rfl, by decide, by decide⟩
  · exact ⟨1, rfl, by decide, by decide⟩
  · rw [if_neg htype]
    exact ⟨1, rfl, by decide, by decide⟩

/-- One call keeps the seat invariant. -/
theorem VehicleCall.run_seatsOk (v : ℕ) (w : World) (call : VehicleCall)
    (h : (w.vehicleObj v).SeatsOk) : ((call.run v w).vehicleObj v).SeatsOk := by
  obtain ⟨seats, hseats, hlen, h1, h3, hnd⟩ := h
  have hempty : Vehicle.SeatsOk { w.vehicleObj v with riders := [] } :=
    ⟨seats, hseats, Nat.zero_le _, h1, h3, List.nodup_nil⟩
  cases call with
  | mount player =>
    simp only [VehicleCall.run, Vehicle.mount_vehicleObj]
    split_ifs with hc
    · exact ⟨seats, hseats, hlen, h1, h3, hnd⟩
    · rw [not_or] at hc
      have hfree : (w.vehicleObj v).riders.length < seats := by
        have := hc.1
        rw [hseats] at this
        simpa [geNumber] using this
      simp only [Function.update_same]
      refine ⟨seats, hseats, by simpa using hfree, h1, h3, ?_⟩
      exact List.Nodup.append hnd (List.nodup_singleton _) (by simpa using hc.2)
  | dismount player now =>
    simp only [VehicleCall.run, Vehicle.dismount_vehicleObj, Function.update_same]
    exact ⟨seats, hseats, (List.length_erase_le _ _).trans hlen, h1, h3, hnd.erase _⟩
  | consumeFuel deltaTime now =>
    simp only [VehicleCall.run, Vehicle.consumeFuel_vehicleObj]
    split_ifs
    · exact ⟨seats, hseats, hlen, h1, h3, hnd⟩
    · simpa using hempty
    · simpa using (⟨seats, hseats, hlen, h1, h3, hnd⟩ : (w.vehicleObj v).SeatsOk)
  | despawn now =>
    simpa [VehicleCall.run, Vehicle.despawn_vehicleObj] using hempty

/-- A sequence of calls keeps the seat invariant. -/
theorem runCalls_seatsOk (v : ℕ) : ∀ (calls : List VehicleCall) (w : World),
    (w.vehicleObj v).SeatsOk → ((runCalls v w calls).vehicleObj v).SeatsOk
  | [], _, h => h
  | call :: calls, w, h =>
    runCalls_seatsOk v calls (call.run v w) (VehicleCall.run_seatsOk v w call h)

/-- One call never lists a player twice, whatever `maxRiders` holds. -/
theorem VehicleCall.run_nodup (v : ℕ) (w : World) (call : VehicleCall)
    (h : (w.vehicleObj v).riders.Nodup) : ((call.run v w).vehicleObj v).riders.Nodup := by
  cases call with
  | mount player =>
    simp only [VehicleCall.run, Vehicle.mount_vehicleObj]
    split_ifs with hc
    · exact h
    · rw [not_or] at hc
      simp only [Function.update_same]
      exact List.Nodup.append h (List.nodup_singleton _) (by simpa using hc.2)
  | dismount player now =>
    simp only [VehicleCall.run, Vehicle.dismount_vehicleObj, Function.update_same]
    exact h.erase _
  | consumeFuel deltaTime now =>
    simp only [VehicleCall.run, Vehicle.consumeFuel_vehicleObj]
    split_ifs
    · exact h
    · simp
    · simpa using h
  | despawn now =>
    simp [VehicleCall.run, Vehicle.despawn_vehicleObj]

/-- A sequence of calls never lists a player twice. -/
theorem runCalls_nodup (v : ℕ) : ∀ (calls : List VehicleCall) (w : World),
    (w.vehicleObj v).riders.Nodup → ((runCalls v w calls).vehicleObj v).riders.Nodup
  | [], _, h => h
  | call :: calls, w, h =>
    runCalls_nodup v calls (call.run v w) (VehicleCall.run_nodup v w call h)

/-- Claim C4, as the code has it: from a newly constructed vehicle, every finite
sequence of `mount`, `dismount`, `consumeFuel` and `despawn` calls never lists a player
twice; and when the type does not name a member of `Object.prototype`, `maxRiders` is a
number within 1..3 and the sequence keeps `riders.length ≤ maxRiders`. -/
theorem Vehicle.seats_invariant (w : World) (type rank : String) (level : ℚ)
    (calls : List VehicleCall) :
    ((runCalls (Vehicle.new w type level rank).1 (Vehicle.new w type level rank).2
          calls).vehicleObj (Vehicle.new w type level rank).1).riders.Nodup ∧
      (type ∉ inheritedNames → ∃ seats : ℕ,
        ((runCalls (Vehicle.new w type level rank).1 (Vehicle.new w type level rank).2
          calls).vehicleObj (Vehicle.new w type level rank).1).maxRiders = some seats ∧
        ((runCalls (Vehicle.new w type level rank).1 (Vehicle.new w type level rank).2
          calls).vehicleObj (Vehicle.new w type level rank).1).riders.length ≤ seats ∧
        1 ≤ seats ∧ seats ≤ 3) := by
  constructor
  · apply runCalls_nodup _ calls
    rw [Vehicle.new_vehicleObj]
    exact List.nodup_nil
  · intro htype
    obtain ⟨seats, hseats, h1, h3⟩ := Vehicle.getMaxRiders_bounds type htype
    have hstart : ((Vehicle.new w type level rank).2.vehicleObj
        (Vehicle.new w type level rank).1).SeatsOk := by
      rw [Vehicle.new_vehicleObj]
      exact ⟨seats, hseats, Nat.zero_le _, h1, h3, List.nodup_nil⟩
    obtain ⟨n, hn, hlen, hn1, hn3, _⟩ := runCalls_seatsOk _ calls _ hstart
    exact ⟨n, hn, hlen, hn1, hn3⟩

/-- Counterexample to C4 as stated: a vehicle of the type "constructor" holds a member
of `Object.prototype` in `maxRiders`, the test `riders.length >= maxRiders` is false at
every length, and four `mount` calls give four riders. -/
theorem Vehicle.seats_inherited_type :
    ((Vehicle.new World.blank "constructor" 1 "C").2.vehicleObj 0).maxRiders = none ∧
      ((runCalls 0 (Vehicle.new World.blank "constructor" 1 "C").2
        [.mount 1, .mount 2, .mount 3, .mount 4]).vehicleObj 0).riders = [1, 2, 3, 4] ∧
      ((runCalls 0 (Vehicle.new World.blank "constructor" 1 "C").2
        [.mount 1, .mount 2, .mount 3, .mount 4]).vehicleObj 0).maxRiders = none ∧
      geNumber 4 ((runCalls 0 (Vehicle.new World.blank "constructor" 1 "C").2
        [.mount 1, .mount 2, .mount 3, .mount 4]).vehicleObj 0).maxRiders = false := by
  have hseats : Vehicle.getMaxRiders "constructor" = none := by
    simp [Vehicle.getMaxRiders, Vehicle.riderCounts, inheritedNames, Lookup.orElse]
  simp [runCalls, VehicleCall.run, Vehicle.mount_vehicleObj, Vehicle.new, World.blank, hseats,
    geNumber]

/-! ## Vehicles: running out of fuel (C5) -/

/-- Claim C5: for a vehicle that is in the roster (listed once), has a rider and has
`fuel ≤ dt`, `consumeFuel(dt)` returns false; afterwards the fuel is 0, there are no
riders, every former rider has `vehicle = null` and `mountedVehicle = null`, and the
vehicle has left the roster, which is one entry shorter. -/
theorem Vehicle.consumeFuel_depleted (w : World) (v : ℕ) (dt : ℚ) (now : ℤ)
    (hroster : v ∈ w.G.vehicles) (hnodup : w.G.vehicles.Nodup)
    (hriders : (w.vehicleObj v).riders ≠ []) (hdt : (w.vehicleObj v).fuel ≤ dt) :
    (Vehicle.consumeFuel w v dt now).1 = false ∧
      ((Vehicle.consumeFuel w v dt now).2.vehicleObj v).fuel = 0 ∧
      ((Vehicle.consumeFuel w v dt now).2.vehicleObj v).riders = [] ∧
      (∀ q ∈ (w.vehicleObj v).riders,
        ((Vehicle.consumeFuel w v dt now).2.playerObj q).vehicle = none ∧
          ((Vehicle.consumeFuel w v dt now).2.playerObj q).mountedVehicle = none) ∧
      v ∉ (Vehicle.consumeFuel w v dt now).2.G.vehicles ∧
      (Vehicle.consumeFuel w v dt now).2.G.vehicles.length + 1 = w.G.vehicles.length := by
  have hlen : ¬ (w.vehicleObj v).riders.length = 0 := by
    simpa [List.length_eq_zero] using hriders
  have hfuel : max 0 (toDouble ((w.vehicleObj v).fuel - dt)) = 0 :=
    max_eq_left (toDouble_nonpos _ (by linarith))
  have hobj := Vehicle.consumeFuel_vehicleObj w v dt now
  rw [if_neg hlen, if_pos (le_of_eq hfuel)] at hobj
  have hres : Vehicle.consumeFuel w v dt now =
      (false, Vehicle.despawn (Vehicle.ejectAllRiders (w.setVehicle v
        { w.vehicleObj v with
          fuel := max 0 (toDouble ((w.vehicleObj v).fuel - dt)) }) v now) v now) := by
    unfold Vehicle.consumeFuel
    rw [if_neg hlen]
    simp only [World.setVehicle_vehicleObj, Function.update_same]
    rw [if_pos (le_of_eq hfuel)]
  refine ⟨by rw [hres], by rw [hobj]; simpa using hfuel, by rw [hobj]; simp, ?_, ?_, ?_⟩
  · intro q hq
    rw [hres]
    have hempty : ((Vehicle.ejectAllRiders (w.setVehicle v
        { w.vehicleObj v with
          fuel := max 0 (toDouble ((w.vehicleObj v).fuel - dt)) }) v now).vehicleObj
          v).riders = [] := by
      rw [Vehicle.ejectAllRiders_vehicleObj]
      simp
    have hsame : (Vehicle.despawn (Vehicle.ejectAllRiders (w.setVehicle v
        { w.vehicleObj v with
          fuel := max 0 (toDouble ((w.vehicleObj v).fuel - dt)) }) v now)
          v now).playerObj = (Vehicle.ejectAllRiders (w.setVehicle v
        { w.vehicleObj v with
          fuel := max 0 (toDouble ((w.vehicleObj v).fuel - dt)) }) v now).playerObj := by
      unfold Vehicle.despawn
      rw [Vehicle.ejectAllRiders_of_empty _ v now hempty]
    simp only [hsame]
    apply Vehicle.ejectAllRiders_unmounts
    simpa using hq
  · rw [hres]
    simp only [Vehicle.despawn_G_vehicles]
    unfold Vehicle.ejectAllRiders
    rw [Vehicle.dismount_foldl_G]
    exact hnodup.not_mem_erase
  · rw [hres]
    simp only [Vehicle.despawn_G_vehicles]
    unfold Vehicle.ejectAllRiders
    rw [Vehicle.dismount_foldl_G]
    simp only [World.setVehicle_G]
    rw [List.length_erase_of_mem hroster]
    have : 0 < w.G.vehicles.length := List.length_pos_of_mem hroster
    omega

/-- The bike of the low-fuel test state: in the roster, one rider, fuel 1. -/
theorem World.lowFuel_vehicle :
    World.lowFuel.G.vehicles = [0] ∧ (World.lowFuel.vehicleObj 0).riders = [1] ∧
      (World.lowFuel.vehicleObj 0).fuel = 1 := by
  simp [World.lowFuel, Vehicle.mount_vehicleObj, Vehicle.new, World.blank,
    Vehicle.getMaxRiders, Vehicle.riderCounts, Lookup.orElse, geNumber, Vehicle.mount,
    Vehicle.positionRider, Vehicle.positions, World.setPlayer]

/-- Witness for C5: fuel 1, one rider, `consumeFuel(2)`. -/
theorem Vehicle.consumeFuel_depleted_witness :
    (Vehicle.consumeFuel World.lowFuel 0 2 0).1 = false ∧
      ((Vehicle.consumeFuel World.lowFuel 0 2 0).2.vehicleObj 0).fuel = 0 ∧
      ((Vehicle.consumeFuel World.lowFuel 0 2 0).2.vehicleObj 0).riders = [] ∧
      (∀ q ∈ (World.lowFuel.vehicleObj 0).riders,
        ((Vehicle.consumeFuel World.lowFuel 0 2 0).2.playerObj q).vehicle = none ∧
          ((Vehicle.consumeFuel World.lowFuel 0 2 0).2.playerObj q).mountedVehicle = none) ∧
      0 ∉ (Vehicle.consumeFuel World.lowFuel 0 2 0).2.G.vehicles ∧
      (Vehicle.consumeFuel World.lowFuel 0 2 0).2.G.vehicles.length + 1 =
        World.lowFuel.G.vehicles.length :=
  Vehicle.consumeFuel_depleted World.lowFuel 0 2 0
    (by rw [World.lowFuel_vehicle.1]; decide)
    (by rw [World.lowFuel_vehicle.1]; decide)
    (by rw [World.lowFuel_vehicle.2.1]; decide)
    (by rw [World.lowFuel_vehicle.2.2]; norm_num)

/-! ## Pets: the skill cooldown (C7) -/

@[simp]
theorem World.setEnemy_petObj (w : World) (i : ℕ) (e : Enemy) :
    (w.setEnemy i e).petObj = w.petObj := rfl

@[simp]
theorem World.setEnemy_enemyObj (w : World) (i : ℕ) (e : Enemy) :
    (w.setEnemy i e).enemyObj = Function.update w.enemyObj i e := rfl

@[simp]
theorem World.setPet_enemyObj (w : World) (i : ℕ) (p : Pet) :
    (w.setPet i p).enemyObj = w.enemyObj := rfl

/-- The cooldown `tier.cooldown || 10000` of the five ranks of the tier table. -/
theorem CONFIG.PET.cooldown_of_rank (rank : String) (hrank : rank ∈ ["C", "B", "A", "S", "SS"]) :
    ∃ tier, CONFIG.PET.POWER_TIERS rank = some tier ∧
      orElseInt tier.cooldown 10000 =
        (if rank = "A" then 60000 else if rank = "S" then 50000
          else if rank = "SS" then 40000 else 10000) := by
  simp only [List.mem_cons, List.mem_singleton, List.not_mem_nil, or_false] at hrank
  rcases hrank with h | h | h | h | h <;> subst h <;>
    exact ⟨_, rfl, by simp [orElseInt]⟩

/-- A call of `useSkill` that does not throw keeps the rank of the pet, and either
leaves `lastSkillUse` alone or sets it to a clock reading that is at least a cooldown
later. A refused call (cooldown not over) returns false and the state it received. -/
theorem Pet.useSkill_step (w w1 : World) (p : ℕ) (target : Option ℕ) (now : ℤ) (roll : ℚ)
    (b : Bool) (tier : Tier) (ht : CONFIG.PET.POWER_TIERS (w.petObj p).rank = some tier)
    (h : Pet.useSkill w p target now roll = some (b, w1)) :
    (w1.petObj p).rank = (w.petObj p).rank ∧
      ((now - (w.petObj p).lastSkillUse < orElseInt tier.cooldown 10000 ∧ b = false ∧ w1 = w) ∨
        (orElseInt tier.cooldown 10000 ≤ now - (w.petObj p).lastSkillUse ∧
          (w1.petObj p).lastSkillUse = now ∧ (b = true ↔ target.isSome))) := by
  unfold Pet.useSkill at h
  simp only [ht] at h
  by_cases hc : now - (w.petObj p).lastSkillUse < orElseInt tier.cooldown 10000
  · rw [if_pos hc] at h
    simp only [Option.some.injEq, Prod.mk.injEq] at h
    obtain ⟨hb, hw⟩ := h
    subst hw
    exact ⟨rfl, Or.inl ⟨hc, hb.symm, rfl⟩⟩
  · rw [if_neg hc] at h
    cases target with
    | none =>
      simp only [Option.some.injEq, Prod.mk.injEq] at h
      obtain ⟨hb, hw⟩ := h
      subst hw
      exact ⟨by simp, Or.inr ⟨not_lt.mp hc, by simp, by simp [← hb]⟩⟩
    | some t =>
      simp only [Option.some.injEq, Prod.mk.injEq] at h
      obtain ⟨hb, hw⟩ := h
      subst hw
      exact ⟨by simp, Or.inr ⟨not_lt.mp hc, by simp, by simp [← hb]⟩⟩

/-- Through a sequence of `useSkill` calls the rank stays and `lastSkillUse` never
goes back, for a rank of the tier table. -/
theorem useSkills_lastSkillUse (p : ℕ) (rank : String)
    (hrank : rank ∈ ["C", "B", "A", "S", "SS"]) :
    ∀ (calls : List (Option ℕ × ℤ × ℚ)) (w w2 : World), (w.petObj p).rank = rank →
      useSkills p w calls = some w2 →
      (w2.petObj p).rank = rank ∧ (w.petObj p).lastSkillUse ≤ (w2.petObj p).lastSkillUse
  | [], w, w2, hr, h => by
    simp only [useSkills, Option.some.injEq] at h
    subst h
    exact ⟨hr, le_refl _⟩
  | (target, now, roll) :: rest, w, w2, hr, h => by
    obtain ⟨tier, ht, hcd⟩ := CONFIG.PET.cooldown_of_rank rank hrank
    have hpos : 0 < orElseInt tier.cooldown 10000 := by
      rw [hcd]
      split_ifs <;> norm_num
    rw [← hr] at ht
    unfold useSkills at h
    cases hstep : Pet.useSkill w p target now roll with
    | none => simp [hstep] at h
    | some res =>
      obtain ⟨b, w1⟩ := res
      simp only [hstep] at h
      obtain ⟨hrank1, hlast⟩ := Pet.useSkill_step w w1 p target now roll b tier ht hstep
      obtain ⟨hr2, hle⟩ := useSkills_lastSkillUse p rank hrank rest w1 w2 (hrank1.trans hr) h
      refine ⟨hr2, le_trans ?_ hle⟩
      rcases hlast with ⟨_, _, hw⟩ | ⟨hge, hnow, _⟩
      · rw [hw]
      · rw [hnow]
        linarith

/-- Claim C7: for a pet of rank C, B, A, S or SS, once `useSkill(target)` has returned
true at time `t1`, every `useSkill` call at a time `t2` with `t2 - t1 < cooldown(rank)`,
whatever `useSkill` calls came in between, returns false and leaves the state (so the
target's hp) unchanged; the cooldown is 60000 for A, 50000 for S, 40000 for SS and
10000 for C and B. -/
theorem Pet.useSkill_cooldown (w w1 w2 : World) (p target : ℕ) (t1 t2 : ℤ) (r r2 : ℚ)
    (calls : List (Option ℕ × ℤ × ℚ)) (target2 : Option ℕ)
    (hrank : (w.petObj p).rank ∈ ["C", "B", "A", "S", "SS"])
    (hfirst : Pet.useSkill w p (some target) t1 r = some (true, w1))
    (hcalls : useSkills p w1 calls = some w2)
    (hdt : t2 - t1 <
      (if (w.petObj p).rank = "A" then 60000 else if (w.petObj p).rank = "S" then 50000
        else if (w.petObj p).rank = "SS" then 40000 else 10000)) :
    Pet.useSkill w2 p target2 t2 r2 = some (false, w2) := by
  obtain ⟨tier, ht, hcd⟩ := CONFIG.PET.cooldown_of_rank _ hrank
  obtain ⟨hrank1, hlast⟩ := Pet.useSkill_step w w1 p (some target) t1 r true tier ht hfirst
  have hlast1 : (w1.petObj p).lastSkillUse = t1 := by
    rcases hlast with ⟨_, hb, _⟩ | ⟨_, hnow, _⟩
    · exact absurd hb (by decide)
    · exact hnow
  obtain ⟨hrank2, hle⟩ := useSkills_lastSkillUse p _ hrank calls w1 w2 hrank1 hcalls
  rw [hlast1] at hle
  unfold Pet.useSkill
  rw [hrank2]
  simp only [ht]
  rw [if_pos (by rw [hcd]; linarith)]

/-- The first skill use of the test state succeeds and yields `World.afterSkill`. -/
theorem World.afterSkill_first :
    Pet.useSkill World.blank 0 (some 0) 20000 (1 / 2) = some (true, World.afterSkill) := by
  simp [World.afterSkill, Pet.useSkill, World.blank, blankPet, CONFIG.PET.POWER_TIERS,
    orElseInt]

/-- A further skill use 5 s later is refused and keeps `World.afterSkill`. -/
theorem World.afterSkill_calls :
    useSkills 0 World.afterSkill [(some 0, 25000, 1 / 3)] = some World.afterSkill := by
  simp [useSkills, World.afterSkill, Pet.useSkill, World.blank, blankPet,
    CONFIG.PET.POWER_TIERS, orElseInt]

/-- Witness for C7: a rank C pet that hit at 20000 and tried again at 25000 is refused
at 29999, one millisecond before its 10 s cooldown ends. -/
theorem Pet.useSkill_cooldown_witness :
    Pet.useSkill World.afterSkill 0 (some 0) 29999 (1 / 2) = some (false, World.afterSkill) :=
  Pet.useSkill_cooldown World.blank World.afterSkill World.afterSkill 0 0 20000 29999
    (1 / 2) (1 / 2) [(some 0, 25000, 1 / 3)] (some 0)
    (by simp [World.blank, blankPet]) World.afterSkill_first World.afterSkill_calls
    (by simp [World.blank, blankPet])

/-! ## Summoning pets (C9, C10) -/

/-- A roll of `Math.random()`, which lies in `[0, 1)`, picks an element of a non-empty
array literal. -/
theorem pick_isSome {α : Type} (arr : List α) (r n : ℚ) (hn : (arr.length : ℚ) = n)
    (hpos : 0 < n) (hr0 : 0 ≤ r) (hr1 : r < 1) : ∃ a, pick arr r n = some a := by
  have hfl0 : 0 ≤ ⌊r * n⌋ := Int.floor_nonneg.mpr (mul_nonneg hr0 hpos.le)
  have hlt : ⌊r * n⌋ < (arr.length : ℤ) := by
    rw [Int.floor_lt]
    push_cast
    rw [hn]
    nlinarith
  have hnat : (⌊r * n⌋).toNat < arr.length := (Int.toNat_lt hfl0).mpr hlt
  unfold pick
  rw [if_neg (not_lt.mpr hfl0)]
  cases hget : arr.get? (⌊r * n⌋).toNat with
  | none => exact absurd (List.get?_eq_none.mp hget) (not_le.mpr hnat)
  | some a => exact ⟨a, rfl⟩

/-- The roster after `new Pet`: the new reference is appended. -/
theorem Pet.new_G_pets (w : World) (owner : ℕ) (species rank : String) (level : ℚ) (now : ℤ) :
    (Pet.new w owner species rank level now).2.G.pets = w.G.pets ++ [w.nextPet] := rfl

/-- The owner of the pet built by `new Pet`. -/
theorem Pet.new_owner (w : World) (owner : ℕ) (species rank : String) (level : ℚ) (now : ℤ) :
    ((Pet.new w owner species rank level now).2.petObj w.nextPet).owner = some owner := by
  simp [Pet.new]

/-- The owners in the roster after `new Pet`, when every roster entry is an object that
was allocated before: the new owner is appended. -/
theorem Pet.new_petOwners (w : World) (owner : ℕ) (species rank : String) (level : ℚ)
    (now : ℤ) (halloc : ∀ p ∈ w.G.pets, p < w.nextPet) :
    (Pet.new w owner species rank level now).2.petOwners = w.petOwners ++ [some owner] := by
  unfold World.petOwners
  rw [Pet.new_G_pets, List.map_append, List.map_singleton, Pet.new_owner]
  congr 1
  apply List.map_congr_left
  intro p hp
  have hne : p ≠ w.nextPet := Nat.ne_of_lt (halloc p hp)
  simp [Pet.new, Function.update_noteq hne]

/-- The player found by `spawnPet` owns no pet of the roster. -/
theorem spawnPet_available (w : World) (availablePlayer : ℕ)
    (h : w.G.players.find? (fun player =>
      !w.G.pets.any (fun pet => (w.petObj pet).owner == some player)) = some availablePlayer) :
    availablePlayer ∈ w.G.players ∧ some availablePlayer ∉ w.petOwners := by
  refine ⟨List.mem_of_find?_eq_some h, ?_⟩
  have hp := List.find?_some h
  simp only [Bool.not_eq_true', List.any_eq_false, beq_iff_eq] at hp
  unfold World.petOwners
  intro hmem
  obtain ⟨p, hp1, hp2⟩ := List.mem_map.mp hmem
  exact hp p hp1 hp2

/-- Claim C9: `spawnPet` returns and preserves the roster caps. If no two pets of
`G.pets` share an owner and `G.pets` has at most 3 pets before the call, the same holds
after it; and when every party member already owns a pet of `G.pets`, `G.pets` is left
unchanged. (Roster entries are allocated objects; the species roll is a value of
`Math.random()`.) -/
theorem spawnPet_roster_caps (w : World) (now : ℤ) (rSpecies rRank rLevel : ℚ)
    (hr0 : 0 ≤ rSpecies) (hr1 : rSpecies < 1)
    (halloc : ∀ p ∈ w.G.pets, p < w.nextPet)
    (howners : w.petOwners.Nodup) (hlen : w.G.pets.length ≤ 3) :
    ∃ w1, spawnPet w now rSpecies rRank rLevel = some w1 ∧
      w1.petOwners.Nodup ∧ w1.G.pets.length ≤ 3 ∧
      ((∀ player ∈ w.G.players, some player ∈ w.petOwners) → w1.G.pets = w.G.pets) := by
  unfold spawnPet
  simp only []
  by_cases h3 : CONFIG.PET.MAX_TOTAL ≤ w.G.pets.length
  · rw [if_pos h3]
    exact ⟨w, rfl, howners, hlen, fun _ => rfl⟩
  · rw [if_neg h3]
    cases hfind : w.G.players.find? (fun player =>
        !w.G.pets.any (fun pet => (w.petObj pet).owner == some player)) with
    | none => exact ⟨w, rfl, howners, hlen, fun _ => rfl⟩
    | some availablePlayer =>
      obtain ⟨hmem, hfree⟩ := spawnPet_available w availablePlayer hfind
      simp only []
      split_ifs with hcd
      · exact ⟨w, rfl, howners, hlen, fun _ => rfl⟩
      · obtain ⟨species, hsp⟩ :=
          pick_isSome ["wolf", "cat", "bird", "dragon", "fairy"] rSpecies 5 (by norm_num)
            (by norm_num) hr0 hr1
        rw [hsp]
        refine ⟨_, rfl, ?_, ?_, ?_⟩
        · rw [Pet.new_petOwners _ _ _ _ _ _ halloc]
          exact List.Nodup.append howners (List.nodup_singleton _) (by simpa using hfree)
        · rw [Pet.new_G_pets]
          have : w.G.pets.length < 3 := not_le.mp h3
          simp only [List.length_append, List.length_singleton]
          omega
        · intro hall
          exact absurd (hall availablePlayer hmem) hfree

/-- The roster of the two-player test state: one allocated pet, owned by player 7. -/
theorem World.duo_roster :
    World.duo.G.pets = [0] ∧ World.duo.nextPet = 1 ∧ World.duo.petOwners = [some 7] := by
  simp [World.duo, Pet.new, World.blank, World.petOwners]

/-- Witness for C9: with the players 7 and 8 and one pet owned by 7, `spawnPet` returns
a state that still satisfies the caps. -/
theorem spawnPet_roster_caps_witness :
    ∃ w1, spawnPet World.duo 5000 (1 / 2) (1 / 2) (1 / 2) = some w1 ∧
      w1.petOwners.Nodup ∧ w1.G.pets.length ≤ 3 ∧
      ((∀ player ∈ World.duo.G.players, some player ∈ World.duo.petOwners) →
        w1.G.pets = World.duo.G.pets) :=
  spawnPet_roster_caps World.duo 5000 (1 / 2) (1 / 2) (1 / 2) (by norm_num) (by norm_num)
    (by rw [World.duo_roster.1, World.duo_roster.2.1]; decide)
    (by rw [World.duo_roster.2.2]; decide)
    (by rw [World.duo_roster.1]; decide)

/-- The state after the only pet of a one-player party despawned at time `t`: the roster
is empty, the party is as before and the owner's cooldown runs until `t + 60000`. -/
theorem Pet.despawn_single (w : World) (P p : ℕ) (t : ℤ)
    (hroster : w.G.pets = [p]) (howner : (w.petObj p).owner = some P)
    (halive : (w.petObj p).isDespawning = false) :
    (Pet.despawn w p t).G.pets = [] ∧ (Pet.despawn w p t).G.players = w.G.players ∧
      ((Pet.despawn w p t).playerObj P).petCooldownUntil = some (t + 60000) := by
  unfold Pet.despawn
  rw [if_neg (by simp [halive])]
  simp [howner, hroster, Game.players, CONFIG.PET.COOLDOWN_MS]

/-- Claim C10: with the party of the single player `P`, after P's pet (the only pet of
the roster) despawned at time `t`, the roster is empty; `spawnPet` at a time
`now < t + 60000` returns without creating a pet, and `spawnPet` at a time
`now ≥ t + 60000` adds exactly one pet, owned by `P`. (Clock readings are not
negative.) -/
theorem spawnPet_after_despawn (w : World) (P p : ℕ) (t now : ℤ) (rSpecies rRank rLevel : ℚ)
    (ht : 0 ≤ t) (hparty : w.G.players = [P]) (hroster : w.G.pets = [p])
    (howner : (w.petObj p).owner = some P) (halive : (w.petObj p).isDespawning = false) :
    (Pet.despawn w p t).G.pets = [] ∧
      (now < t + 60000 →
        spawnPet (Pet.despawn w p t) now rSpecies rRank rLevel = some (Pet.despawn w p t)) ∧
      (t + 60000 ≤ now → 0 ≤ rSpecies → rSpecies < 1 →
        ∃ w1 n, spawnPet (Pet.despawn w p t) now rSpecies rRank rLevel = some w1 ∧
          w1.G.pets = [n] ∧ (w1.petObj n).owner = some P) := by
  obtain ⟨hpets, hplayers, hcd⟩ := Pet.despawn_single w P p t hroster howner halive
  have hplayers1 : (Pet.despawn w p t).G.players = [P] := hplayers.trans hparty
  have hne : t + 60000 ≠ 0 := by omega
  refine ⟨hpets, ?_, ?_⟩
  · intro hnow
    unfold spawnPet
    simp [hpets, hplayers1, hcd, orElseInt, hne, hnow, CONFIG.PET.MAX_TOTAL]
  · intro hnow hr0 hr1
    obtain ⟨species, hsp⟩ :=
      pick_isSome ["wolf", "cat", "bird", "dragon", "fairy"] rSpecies 5 (by norm_num)
        (by norm_num) hr0 hr1
    refine ⟨(Pet.new (Pet.despawn w p t) P species
      ((pick ["C", "B", "A", "S", "SS"] rRank 5).getD "B") ((⌊rLevel * 50⌋ : ℤ) + 1) now).2,
      (Pet.despawn w p t).nextPet, ?_, ?_, ?_⟩
    · unfold spawnPet
      simp [hpets, hplayers1, hcd, orElseInt, hne, not_lt.mpr hnow, CONFIG.PET.MAX_TOTAL, hsp]
    · rw [Pet.new_G_pets, hpets]
      rfl
    · exact Pet.new_owner _ _ _ _ _ _

/-- The one-player test state: party of player 7, whose live pet 0 is the roster. -/
theorem World.onePet_roster :
    World.onePet.G.players = [7] ∧ World.onePet.G.pets = [0] ∧
      (World.onePet.petObj 0).owner = some 7 ∧ (World.onePet.petObj 0).isDespawning = false := by
  simp [World.onePet, Pet.new, World.blank, Game.players]

/-- Witness for C10: the pet of player 7 despawns at 5000; `spawnPet` at 64999 creates
nothing and `spawnPet` at 65000 adds one pet owned by 7. -/
theorem spawnPet_after_despawn_witness :
    spawnPet (Pet.despawn World.onePet 0 5000) 64999 (1 / 2) (1 / 2) (1 / 2) =
        some (Pet.despawn World.onePet 0 5000) ∧
      ∃ w1 n, spawnPet (Pet.despawn World.onePet 0 5000) 65000 (1 / 2) (1 / 2) (1 / 2) =
          some w1 ∧ w1.G.pets = [n] ∧ (w1.petObj n).owner = some 7 :=
  ⟨(spawnPet_after_despawn World.onePet 7 0 5000 64999 (1 / 2) (1 / 2) (1 / 2) (by norm_num)
      World.onePet_roster.1 World.onePet_roster.2.1 World.onePet_roster.2.2.1
      World.onePet_roster.2.2.2).2.1 (by norm_num),
    (spawnPet_after_despawn World.onePet 7 0 5000 65000 (1 / 2) (1 / 2) (1 / 2) (by norm_num)
      World.onePet_roster.1 World.onePet_roster.2.1 World.onePet_roster.2.2.1
      World.onePet_roster.2.2.2).2.2 (by norm_num) (by norm_num) (by norm_num)⟩

/-! ## The rosters of reachable states -/

/-- The state set up by `init` has well-formed (empty) rosters. -/
theorem init_rostersOk (w : World) : (init w).RostersOk := by
  simp [init, World.RostersOk]

/-- The constructor `new Vehicle` keeps the rosters well-formed. -/
theorem Vehicle.new_rostersOk (w : World) (type rank : String) (level : ℚ)
    (h : w.RostersOk) : (Vehicle.new w type level rank).2.RostersOk := by
  obtain ⟨hp, hnd, halloc⟩ := h
  refine ⟨hp, ?_, ?_⟩
  · refine List.Nodup.append hnd (List.nodup_singleton _) ?_
    simp only [List.disjoint_singleton]
    exact fun hmem => lt_irrefl _ (halloc _ hmem)
  · intro v hv
    rcases List.mem_append.mp hv with hv | hv
    · exact Nat.lt_succ_of_lt (halloc v hv)
    · rw [List.mem_singleton.mp hv]
      exact Nat.lt_succ_self _

/-- The constructor `new Pet` keeps the rosters well-formed. -/
theorem Pet.new_keeps_rosters (w : World) (owner : ℕ) (species rank : String) (level : ℚ)
    (now : ℤ) (h : w.RostersOk) : (Pet.new w owner species rank level now).2.RostersOk := by
  obtain ⟨⟨hnd, halloc⟩, hv⟩ := h
  refine ⟨⟨?_, ?_⟩, hv⟩
  · refine List.Nodup.append hnd (List.nodup_singleton _) ?_
    simp only [List.disjoint_singleton]
    exact fun hmem => lt_irrefl _ (halloc _ hmem)
  · intro p hp
    rcases List.mem_append.mp hp with hp | hp
    · exact Nat.lt_succ_of_lt (halloc p hp)
    · rw [List.mem_singleton.mp hp]
      exact Nat.lt_succ_self _

/-- The function `spawnPet` keeps the rosters well-formed. -/
theorem spawnPet_rostersOk (w w1 : World) (now : ℤ) (rSpecies rRank rLevel : ℚ)
    (h : w.RostersOk) (hres : spawnPet w now rSpecies rRank rLevel = some w1) :
    w1.RostersOk := by
  unfold spawnPet at hres
  simp only [] at hres
  split at hres
  · cases hres
    exact h
  · split at hres
    · cases hres
      exact h
    · split at hres
      · cases hres
        exact h
      · split at hres
        · cases hres
        · cases hres
          exact Pet.new_keeps_rosters _ _ _ _ _ _ h

/-- The method `Pet.despawn` keeps the rosters well-formed. -/
theorem Pet.despawn_keeps_rosters (w : World) (p : ℕ) (now : ℤ) (h : w.RostersOk) :
    (Pet.despawn w p now).RostersOk := by
  obtain ⟨⟨hnd, halloc⟩, hv⟩ := h
  unfold Pet.despawn
  split_ifs
  · exact ⟨⟨hnd, halloc⟩, hv⟩
  · cases (w.petObj p).owner <;>
      exact ⟨⟨hnd.erase _, fun q hq => halloc q (List.mem_of_mem_erase hq)⟩, hv⟩

/-- Well-formedness of the rosters depends on `G` and the allocation counters only. -/
theorem World.RostersOk.of_eq {w w1 : World} (h : w.RostersOk) (hG : w1.G = w.G)
    (hp : w1.nextPet = w.nextPet) (hv : w1.nextVehicle = w.nextVehicle) : w1.RostersOk := by
  unfold World.RostersOk
  rw [hG, hp, hv]
  exact h

/-- The method `mount` keeps the rosters well-formed. -/
theorem Vehicle.mount_rostersOk (w : World) (v player : ℕ) (h : w.RostersOk) :
    (Vehicle.mount w v player).2.RostersOk := by
  unfold Vehicle.mount
  dsimp only
  split_ifs
  · exact h
  · exact h
  · exact h.of_eq (Vehicle.positionRider_G _ _ _).1 (Vehicle.positionRider_G _ _ _).2.2.2.1
      (Vehicle.positionRider_G _ _ _).2.2.1

/-- The method `dismount` keeps the rosters well-formed. -/
theorem Vehicle.dismount_rostersOk (w : World) (v player : ℕ) (now : ℤ) (h : w.RostersOk) :
    (Vehicle.dismount w v player now).2.RostersOk := by
  unfold Vehicle.dismount
  dsimp only
  split_ifs
  · exact h
  · exact h.of_eq rfl rfl rfl
  · exact h.of_eq rfl rfl rfl

/-- Dismounting a list of players keeps the rosters well-formed. -/
theorem Vehicle.dismount_foldl_rostersOk (v : ℕ) (now : ℤ) : ∀ (s : List ℕ) (w : World),
    w.RostersOk →
    (s.foldl (fun acc rider => (Vehicle.dismount acc v rider now).2) w).RostersOk
  | [], _, h => h
  | a :: s, w, h =>
    Vehicle.dismount_foldl_rostersOk v now s _ (Vehicle.dismount_rostersOk w v a now h)

/-- The method `Vehicle.despawn` keeps the rosters well-formed. -/
theorem Vehicle.despawn_rostersOk (w : World) (v : ℕ) (now : ℤ) (h : w.RostersOk) :
    (Vehicle.despawn w v now).RostersOk := by
  unfold Vehicle.despawn Vehicle.ejectAllRiders
  obtain ⟨hp, hnd, halloc⟩ := Vehicle.dismount_foldl_rostersOk v now _ w h
  exact ⟨hp, hnd.erase _, fun q hq => halloc q (List.mem_of_mem_erase hq)⟩

/-- Every call on a vehicle keeps the rosters well-formed. -/
theorem VehicleCall.run_rostersOk (v : ℕ) (w : World) (call : VehicleCall)
    (h : w.RostersOk) : (call.run v w).RostersOk := by
  cases call with
  | mount player => exact Vehicle.mount_rostersOk w v player h
  | dismount player now => exact Vehicle.dismount_rostersOk w v player now h
  | consumeFuel deltaTime now =>
    simp only [VehicleCall.run]
    unfold Vehicle.consumeFuel
    dsimp only
    split_ifs
    · exact h
    · apply Vehicle.despawn_rostersOk
      unfold Vehicle.ejectAllRiders
      exact Vehicle.dismount_foldl_rostersOk v now _ _ (h.of_eq rfl rfl rfl)
    · exact h.of_eq rfl rfl rfl
  | despawn now => exact Vehicle.despawn_rostersOk w v now h

/-! ## Vehicles: fuel is consumed only while occupied (C12) -/

/-- Claim C12, as the code has it: on a vehicle without riders `consumeFuel(dt)` returns
true and leaves the whole state unchanged, for every `dt`; on a vehicle with a rider it
sets the fuel to `max(0, fuel - dt)`, the difference rounded to the nearest double. For
a fuel that is a double and not negative and `dt ≥ 0` the new fuel is at most the old
one. It is strictly less than an old fuel `> 0` whenever a double `d ≥ 0` lies in
`fuel - dt ≤ d < fuel`, in particular when `dt > 0` and the difference `fuel - dt` is
itself a double, where the new fuel is exactly `max(0, fuel - dt)`. -/
theorem Vehicle.consumeFuel_frame (w : World) (v : ℕ) (dt : ℚ) (now : ℤ) :
    ((w.vehicleObj v).riders = [] → Vehicle.consumeFuel w v dt now = (true, w)) ∧
      ((w.vehicleObj v).riders ≠ [] →
        ((Vehicle.consumeFuel w v dt now).2.vehicleObj v).fuel =
            max 0 (toDouble ((w.vehicleObj v).fuel - dt)) ∧
          (IsDouble (w.vehicleObj v).fuel → 0 ≤ (w.vehicleObj v).fuel → 0 ≤ dt →
            ((Vehicle.consumeFuel w v dt now).2.vehicleObj v).fuel ≤ (w.vehicleObj v).fuel) ∧
          (0 < (w.vehicleObj v).fuel → ∀ d : ℚ, IsDouble d → 0 ≤ d →
            (w.vehicleObj v).fuel - dt ≤ d → d < (w.vehicleObj v).fuel →
            ((Vehicle.consumeFuel w v dt now).2.vehicleObj v).fuel < (w.vehicleObj v).fuel) ∧
          (0 < dt → 0 < (w.vehicleObj v).fuel → IsDouble ((w.vehicleObj v).fuel - dt) →
            ((Vehicle.consumeFuel w v dt now).2.vehicleObj v).fuel =
                max 0 ((w.vehicleObj v).fuel - dt) ∧
              ((Vehicle.consumeFuel w v dt now).2.vehicleObj v).fuel <
                (w.vehicleObj v).fuel)) := by
  constructor
  · intro h
    unfold Vehicle.consumeFuel
    rw [if_pos (by rw [h]; rfl)]
  · intro h
    have hlen : ¬ (w.vehicleObj v).riders.length = 0 := by
      simpa [List.length_eq_zero] using h
    have hfuel : ((Vehicle.consumeFuel w v dt now).2.vehicleObj v).fuel =
        max 0 (toDouble ((w.vehicleObj v).fuel - dt)) := by
      rw [Vehicle.consumeFuel_vehicleObj, if_neg hlen]
      split_ifs <;> simp
    refine ⟨hfuel, fun hd h0 hdt => ?_, fun hpos d hd hd0 hle hlt => ?_,
      fun hdt hpos hd => ?_⟩
    · rw [hfuel]
      exact toDouble_sub_le _ _ hd h0 hdt
    · rw [hfuel]
      exact lt_of_le_of_lt (max_le hd0 (toDouble_le_of_le _ d hd hd0 hle)) hlt
    · rw [hfuel, toDouble_of_isDouble _ hd]
      exact ⟨rfl, max_lt hpos (by linarith)⟩

/-- Counterexample to C12 as stated: on the motorcycle of the test state (two riders,
fuel 30000) the call `consumeFuel(2 ** -40)` leaves the fuel at 30000 although
`dt > 0` and `fuel > 0`: the difference `30000 - 2 ** -40` lies a quarter of a unit in
the last place below 30000 and is rounded back to 30000. -/
theorem Vehicle.consumeFuel_absorbed_step :
    (World.motorcycle.vehicleObj 0).riders ≠ [] ∧
      (World.motorcycle.vehicleObj 0).fuel = 30000 ∧
      (0 : ℚ) < 1 / 2 ^ 40 ∧
      ((Vehicle.consumeFuel World.motorcycle 0 (1 / 2 ^ 40) 0).2.vehicleObj 0).fuel = 30000 ∧
      ¬ ((Vehicle.consumeFuel World.motorcycle 0 (1 / 2 ^ 40) 0).2.vehicleObj 0).fuel <
        (World.motorcycle.vehicleObj 0).fuel := by
  have hfuel : (World.motorcycle.vehicleObj 0).fuel = 30000 := by
    simp [World.motorcycle, Vehicle.mount_vehicleObj, Vehicle.new, World.blank,
      Vehicle.getMaxRiders, Vehicle.riderCounts, Lookup.orElse, geNumber,
      CONFIG.VEHICLE.FUEL_BASELINE]
  have hriders : (World.motorcycle.vehicleObj 0).riders ≠ [] := by
    rw [World.motorcycle_vehicle.2]
    decide
  have hlog : Int.log 2 |(30000 - 1 / 2 ^ 40 : ℚ)| = 14 :=
    toDouble_exponent_eq _ 14 (by norm_num [abs_of_pos]) (by norm_num [abs_of_pos])
  have hfl : ⌊((30000 - 1 / 2 ^ 40 : ℚ) / 2 ^ ((14 : ℤ) - 52))⌋ = 30000 * 2 ^ 38 - 1 := by
    rw [Int.floor_eq_iff]
    constructor <;> norm_num
  have hfr : Int.fract ((30000 - 1 / 2 ^ 40 : ℚ) / 2 ^ ((14 : ℤ) - 52)) = 3 / 4 := by
    unfold Int.fract
    rw [hfl]
    norm_num
  have hround : roundHalfEven ((30000 - 1 / 2 ^ 40 : ℚ) / 2 ^ ((14 : ℤ) - 52)) =
      30000 * 2 ^ 38 := by
    unfold roundHalfEven
    rw [hfr, hfl, if_neg (by norm_num), if_pos (by norm_num)]
    norm_num
  have hdouble : toDouble (30000 - 1 / 2 ^ 40) = 30000 := by
    unfold toDouble
    rw [if_neg (by norm_num), hlog, hround]
    norm_num
  have hlen : ¬ (World.motorcycle.vehicleObj 0).riders.length = 0 := by
    rw [World.motorcycle_vehicle.2]
    decide
  have hafter : ((Vehicle.consumeFuel World.motorcycle 0 (1 / 2 ^ 40) 0).2.vehicleObj 0).fuel =
      30000 := by
    rw [Vehicle.consumeFuel_vehicleObj, if_neg hlen, hfuel, hdouble]
    norm_num
  refine ⟨hriders, hfuel, by norm_num, hafter, ?_⟩
  rw [hafter, hfuel]
  exact lt_irrefl _

/-- An ordinary step on the motorcycle of the test state: `consumeFuel(16)` takes the
fuel from 30000 to 29984. -/
theorem Vehicle.consumeFuel_whole_step :
    ((Vehicle.consumeFuel World.motorcycle 0 16 0).2.vehicleObj 0).fuel = 29984 := by
  have hfuel : (World.motorcycle.vehicleObj 0).fuel = 30000 := by
    simp [World.motorcycle, Vehicle.mount_vehicleObj, Vehicle.new, World.blank,
      Vehicle.getMaxRiders, Vehicle.riderCounts, Lookup.orElse, geNumber,
      CONFIG.VEHICLE.FUEL_BASELINE]
  have hlen : ¬ (World.motorcycle.vehicleObj 0).riders.length = 0 := by
    rw [World.motorcycle_vehicle.2]
    decide
  have hdouble : toDouble (30000 - 16) = 29984 := by
    have hcast : (30000 - 16 : ℚ) = ((29984 : ℤ) : ℚ) := by norm_num
    rw [hcast, toDouble_of_isDouble _ (isDouble_intCast 29984 (by norm_num))]
    norm_num
  rw [Vehicle.consumeFuel_vehicleObj, if_neg hlen, hfuel, hdouble]
  norm_num

/-! ## Vehicles: the fuel capacity (C13) -/

/-- For a rank that does not name a member of `Object.prototype`, the table lookup
with its fallback is the bonus of the specification. -/
theorem Spec.perTen_eq (rank : String) (hrank : rank ∉ inheritedNames) :
    (CONFIG.VEHICLE.FUEL_UPGRADE_PER_10_LEVELS rank).orElse 5000 =
      some (Spec.perTen rank) := by
  unfold Spec.perTen CONFIG.VEHICLE.FUEL_UPGRADE_PER_10_LEVELS
  split <;> simp_all [Lookup.orElse]

/-- Claim C13, as the code has it: for every rank that does not name a member of
`Object.prototype`, every level that is not negative and either value of the flag,
`calculateMaxFuel` returns
`min(30000 + floor(level/10) * perTen(rank) + (10000 if fuelTankUpgrade else 0), 50000)`;
hence the result lies in `[30000, 50000]`. -/
theorem Vehicle.calculateMaxFuel_formula (rank : String) (level : ℚ) (fuelTankUpgrade : Bool)
    (hlevel : 0 ≤ level) (hrank : rank ∉ inheritedNames) :
    Vehicle.calculateMaxFuel rank level fuelTankUpgrade =
        some (min (30000 + (⌊level / 10⌋ : ℤ) * Spec.perTen rank +
          (if fuelTankUpgrade = true then 10000 else 0)) 50000) ∧
      30000 ≤ min (30000 + (⌊level / 10⌋ : ℤ) * Spec.perTen rank +
          (if fuelTankUpgrade = true then 10000 else 0)) 50000 ∧
      min (30000 + (⌊level / 10⌋ : ℤ) * Spec.perTen rank +
          (if fuelTankUpgrade = true then 10000 else 0)) 50000 ≤ 50000 := by
  have hformula : Vehicle.calculateMaxFuel rank level fuelTankUpgrade =
      some (min (30000 + (⌊level / 10⌋ : ℤ) * Spec.perTen rank +
        (if fuelTankUpgrade = true then 10000 else 0)) 50000) := by
    unfold Vehicle.calculateMaxFuel
    rw [Spec.perTen_eq rank hrank]
    simp only [CONFIG.VEHICLE.FUEL_BASELINE, CONFIG.VEHICLE.FUEL_MAX]
    cases fuelTankUpgrade <;> simp
  have hfloor : (0 : ℚ) ≤ ((⌊level / 10⌋ : ℤ) : ℚ) := by
    exact_mod_cast Int.floor_nonneg.mpr (div_nonneg hlevel (by norm_num))
  have hbase : 0 ≤ Spec.perTen rank := by
    unfold Spec.perTen
    split_ifs <;> norm_num
  have hprod := mul_nonneg hfloor hbase
  have hup : (0 : ℚ) ≤ (if fuelTankUpgrade = true then 10000 else 0) := by
    split_ifs <;> norm_num
  exact ⟨hformula, le_min (by linarith) (by norm_num), min_le_right _ _⟩

/-- Witness for C13: rank S, level 25, with the tank upgrade: the capacity is capped at
the ceiling. -/
theorem Vehicle.calculateMaxFuel_formula_witness :
    Vehicle.calculateMaxFuel "S" 25 true =
        some (min (30000 + (⌊(25 : ℚ) / 10⌋ : ℤ) * Spec.perTen "S" +
          (if true = true then 10000 else 0)) 50000) ∧
      30000 ≤ min (30000 + (⌊(25 : ℚ) / 10⌋ : ℤ) * Spec.perTen "S" +
          (if true = true then 10000 else 0)) 50000 ∧
      min (30000 + (⌊(25 : ℚ) / 10⌋ : ℤ) * Spec.perTen "S" +
          (if true = true then 10000 else 0)) 50000 ≤ 50000 :=
  Vehicle.calculateMaxFuel_formula "S" 25 true (by norm_num) (by decide)

/-- Counterexample to C13 as stated: for the rank "constructor" the table lookup reads
the member inherited from `Object.prototype` instead of falling back to 5000, and
`calculateMaxFuel` returns `NaN`, for a level 25 vehicle with or without the upgrade;
the specification's bonus for this rank is 5000. -/
theorem Vehicle.calculateMaxFuel_inherited_rank :
    Vehicle.calculateMaxFuel "constructor" 25 false = none ∧
      Vehicle.calculateMaxFuel "constructor" 25 true = none ∧
      Spec.perTen "constructor" = 5000 := by
  have hlookup : (CONFIG.VEHICLE.FUEL_UPGRADE_PER_10_LEVELS "constructor").orElse 5000 =
      none := by
    simp [CONFIG.VEHICLE.FUEL_UPGRADE_PER_10_LEVELS, inheritedNames, Lookup.orElse]
  refine ⟨?_, ?_, ?_⟩
  · unfold Vehicle.calculateMaxFuel
    rw [hlookup]
  · unfold Vehicle.calculateMaxFuel
    rw [hlookup]
  · simp [Spec.perTen]

/-! ## Vehicles: dismount (C14) -/

/-- Removing the first occurrence of `a` leaves the other members, in their order. -/
theorem erase_filter_ne (a : ℕ) : ∀ (l : List ℕ),
    (l.erase a).filter (fun q => decide (q ≠ a)) = l.filter (fun q => decide (q ≠ a))
  | [] => rfl
  | b :: l => by
    by_cases h : b = a
    · subst h
      simp
    · rw [List.erase_cons_tail (by simpa using h)]
      simp only [List.filter_cons, erase_filter_ne a l]

/-- Claim C14: `dismount(player)` for a player that is not a rider returns false and
leaves the state (riders, player) unchanged. For a rider it returns true; the new rider
list is the old one with that player's entry removed (one entry less, the other riders
and their order kept, and the player gone when no player is listed twice), and the
player's `vehicle` and `mountedVehicle` are null. -/
theorem Vehicle.dismount_spec (w : World) (v player : ℕ) (now : ℤ) :
    (player ∉ (w.vehicleObj v).riders → Vehicle.dismount w v player now = (false, w)) ∧
      (player ∈ (w.vehicleObj v).riders →
        (Vehicle.dismount w v player now).1 = true ∧
          ((Vehicle.dismount w v player now).2.vehicleObj v).riders =
            (w.vehicleObj v).riders.erase player ∧
          ((Vehicle.dismount w v player now).2.vehicleObj v).riders.length + 1 =
            (w.vehicleObj v).riders.length ∧
          ((Vehicle.dismount w v player now).2.vehicleObj v).riders.Sublist
            (w.vehicleObj v).riders ∧
          ((Vehicle.dismount w v player now).2.vehicleObj v).riders.filter
              (fun q => decide (q ≠ player)) =
            (w.vehicleObj v).riders.filter (fun q => decide (q ≠ player)) ∧
          ((w.vehicleObj v).riders.Nodup →
            player ∉ ((Vehicle.dismount w v player now).2.vehicleObj v).riders) ∧
          ((Vehicle.dismount w v player now).2.playerObj player).vehicle = none ∧
          ((Vehicle.dismount w v player now).2.playerObj player).mountedVehicle = none) := by
  constructor
  · intro h
    unfold Vehicle.dismount
    rw [if_pos h]
  · intro h
    have hriders : ((Vehicle.dismount w v player now).2.vehicleObj v).riders =
        (w.vehicleObj v).riders.erase player := by
      rw [Vehicle.dismount_vehicleObj]
      simp
    have hflag : (Vehicle.dismount w v player now).1 = true := by
      unfold Vehicle.dismount
      rw [if_neg (not_not.mpr h)]
      dsimp only
      split_ifs <;> rfl
    refine ⟨hflag, hriders, ?_, ?_, ?_, ?_, ?_, ?_⟩
    · rw [hriders, List.length_erase_of_mem h]
      have : 0 < (w.vehicleObj v).riders.length := List.length_pos_of_mem h
      omega
    · rw [hriders]
      exact List.erase_sublist _ _
    · rw [hriders]
      exact erase_filter_ne player _
    · intro hnd
      rw [hriders]
      exact hnd.not_mem_erase
    · rw [Vehicle.dismount_playerObj, if_pos h]
      simp
    · rw [Vehicle.dismount_playerObj, if_pos h]
      simp

/-! ## Summoning pets: who gets the pet (C11) -/

/-- The search of `spawnPet` stops at the first member of the party that owns no pet of
the roster. -/
theorem find_first_petless (w : World) (P : ℕ) (post : List ℕ)
    (hP : some P ∉ w.petOwners) : ∀ (pre : List ℕ), (∀ q ∈ pre, some q ∈ w.petOwners) →
    (pre ++ P :: post).find? (fun player =>
      !w.G.pets.any (fun pet => (w.petObj pet).owner == some player)) = some P
  | [], _ => by
    have hnone : w.G.pets.any (fun pet => (w.petObj pet).owner == some P) = false := by
      rw [List.any_eq_false]
      intro pet hpet hown
      exact hP (List.mem_map.mpr ⟨pet, hpet, by simpa using hown⟩)
    simp [List.find?_cons, hnone]
  | q :: pre, hpre => by
    have hq : w.G.pets.any (fun pet => (w.petObj pet).owner == some q) = true := by
      obtain ⟨pet, hpet, hown⟩ := List.mem_map.mp (hpre q (List.mem_cons_self q pre))
      rw [List.any_eq_true]
      exact ⟨pet, hpet, by simpa using hown⟩
    rw [List.cons_append, List.find?_cons, hq]
    exact find_first_petless w P post hP pre
      (fun r hr => hpre r (List.mem_cons_of_mem q hr))

/-- Claim C11, as the code has it: with fewer than 3 pets in the roster, let `P` be the
first party member (in party order) that owns no pet of `G.pets`. If `P` is not under
the re-summon cooldown (`petCooldownUntil` unset or `≤ now`), `spawnPet` adds one pet,
owned by `P`; if `P` is under the cooldown, `spawnPet` adds no pet, whoever else is in
the party. -/
theorem spawnPet_first_petless (w : World) (now : ℤ) (rSpecies rRank rLevel : ℚ)
    (pre post : List ℕ) (P : ℕ) (hr0 : 0 ≤ rSpecies) (hr1 : rSpecies < 1)
    (hlen : w.G.pets.length < 3) (hplayers : w.G.players = pre ++ P :: post)
    (hpre : ∀ q ∈ pre, some q ∈ w.petOwners) (hP : some P ∉ w.petOwners) :
    (((w.playerObj P).petCooldownUntil = none ∨
        ∃ c, (w.playerObj P).petCooldownUntil = some c ∧ c ≤ now) →
      ∃ w1, spawnPet w now rSpecies rRank rLevel = some w1 ∧
        w1.G.pets = w.G.pets ++ [w.nextPet] ∧ (w1.petObj w.nextPet).owner = some P) ∧
      ((∃ c, (w.playerObj P).petCooldownUntil = some c ∧ c ≠ 0 ∧ now < c) →
        spawnPet w now rSpecies rRank rLevel = some w) := by
  have hfind := find_first_petless w P post hP pre hpre
  rw [← hplayers] at hfind
  have h3 : ¬ CONFIG.PET.MAX_TOTAL ≤ w.G.pets.length := not_le.mpr hlen
  constructor
  · intro hcd
    obtain ⟨species, hsp⟩ :=
      pick_isSome ["wolf", "cat", "bird", "dragon", "fairy"] rSpecies 5 (by norm_num)
        (by norm_num) hr0 hr1
    have hfree : ¬ (orElseInt (w.playerObj P).petCooldownUntil 0 ≠ 0 ∧
        now < orElseInt (w.playerObj P).petCooldownUntil 0) := by
      rcases hcd with hnone | ⟨c, hc, hle⟩
      · simp [hnone, orElseInt]
      · rw [hc]
        by_cases h0 : c = 0
        · simp [orElseInt, h0]
        · simp only [orElseInt, if_neg h0]
          omega
    refine ⟨(Pet.new w P species ((pick ["C", "B", "A", "S", "SS"] rRank 5).getD "B")
      ((⌊rLevel * 50⌋ : ℤ) + 1) now).2, ?_, Pet.new_G_pets _ _ _ _ _ _, Pet.new_owner _ _ _ _ _ _⟩
    unfold spawnPet
    simp only [hfind, if_neg h3, if_neg hfree, hsp]
  · rintro ⟨c, hc, hne, hlt⟩
    have hblocked : orElseInt (w.playerObj P).petCooldownUntil 0 ≠ 0 ∧
        now < orElseInt (w.playerObj P).petCooldownUntil 0 := by
      rw [hc]
      simp [orElseInt, hne, hlt]
    unfold spawnPet
    simp only [hfind, if_neg h3, if_pos hblocked]

/-- The test party: no pets, members 7 and 8, only 7 under a cooldown. -/
theorem World.cooling_state :
    World.cooling.G.pets = [] ∧ World.cooling.G.players = [7, 8] ∧
      World.cooling.petOwners = [] ∧
      (World.cooling.playerObj 7).petCooldownUntil = some 60000 ∧
      (World.cooling.playerObj 8).petCooldownUntil = none := by
  simp [World.cooling, World.blank, Game.players, World.petOwners]

/-- Witness for C11 (amended): the first pet-less member 7 is under cooldown at 1000, so
nothing is created; at 60000 the cooldown is over and 7 gets the pet. -/
theorem spawnPet_first_petless_witness :
    spawnPet World.cooling 1000 (1 / 2) (1 / 2) (1 / 2) = some World.cooling ∧
      ∃ w1, spawnPet World.cooling 60000 (1 / 2) (1 / 2) (1 / 2) = some w1 ∧
        w1.G.pets = World.cooling.G.pets ++ [World.cooling.nextPet] ∧
        (w1.petObj World.cooling.nextPet).owner = some 7 :=
  ⟨(spawnPet_first_petless World.cooling 1000 (1 / 2) (1 / 2) (1 / 2) [] [8] 7 (by norm_num)
      (by norm_num) (by rw [World.cooling_state.1]; decide) World.cooling_state.2.1
      (by simp) (by rw [World.cooling_state.2.2.1]; simp)).2
      ⟨60000, World.cooling_state.2.2.2.1, by norm_num, by norm_num⟩,
    (spawnPet_first_petless World.cooling 60000 (1 / 2) (1 / 2) (1 / 2) [] [8] 7 (by norm_num)
      (by norm_num) (by rw [World.cooling_state.1]; decide) World.cooling_state.2.1
      (by simp) (by rw [World.cooling_state.2.2.1]; simp)).1
      (Or.inr ⟨60000, World.cooling_state.2.2.2.1, le_refl _⟩)⟩

/-- Counterexample to C11 as stated: the roster is empty, player 8 is in the party, owns
no pet and is under no cooldown, yet `spawnPet` at clock reading 1000 creates no pet,
because player 7, the first member without a pet, is under cooldown until 60000. -/
theorem spawnPet_skips_eligible_member :
    World.cooling.G.pets.length < 3 ∧ 8 ∈ World.cooling.G.players ∧
      some 8 ∉ World.cooling.petOwners ∧
      (World.cooling.playerObj 8).petCooldownUntil = none ∧
      spawnPet World.cooling 1000 (1 / 2) (1 / 2) (1 / 2) = some World.cooling := by
  refine ⟨by rw [World.cooling_state.1]; decide, by rw [World.cooling_state.2.1]; decide,
    by rw [World.cooling_state.2.2.1]; simp, World.cooling_state.2.2.2.2, ?_⟩
  unfold spawnPet
  simp [World.cooling_state.1, World.cooling_state.2.1, World.cooling_state.2.2.2.1,
    orElseInt, CONFIG.PET.MAX_TOTAL]

/-! ## Vehicles: the idle-despawn timer (C15) -/

/-- Evaluation for C15: the bike becomes empty at `t0 = 0`, is boarded again and becomes
empty again at `t1 = 2000`. Both timers are then pending, the one armed at `t0` included;
when that one is due, at 30000, the bike is empty, so its callback despawns the bike
(it leaves the roster) although `30000 < t1 + 30000`. -/
theorem Vehicle.idle_timer_not_cancelled :
    World.reboarded.timers = [⟨30000, 0⟩, ⟨32000, 0⟩] ∧
      World.reboarded.G.vehicles = [0] ∧
      (World.reboarded.vehicleObj 0).riders = [] ∧
      (runTimers World.reboarded 30000).G.vehicles = [] ∧
      (runTimers World.reboarded 30000).timers = [⟨32000, 0⟩] ∧
      (30000 : ℤ) < 2000 + 30000 := by
  have hstate : World.reboarded.timers = [⟨30000, 0⟩, ⟨32000, 0⟩] ∧
      World.reboarded.G.vehicles = [0] ∧ (World.reboarded.vehicleObj 0).riders = [] := by
    simp [World.reboarded, runCalls, VehicleCall.run, Vehicle.mount, Vehicle.dismount,
      Vehicle.new, World.blank, Vehicle.getMaxRiders, Vehicle.riderCounts, Lookup.orElse,
      geNumber, Vehicle.positionRider, Vehicle.positions, World.setPlayer, World.setVehicle]
  obtain ⟨htimers, hroster, hriders⟩ := hstate
  refine ⟨htimers, hroster, hriders, ?_, ?_, by norm_num⟩
  · simp [runTimers, htimers, Timer.fire, hriders, Vehicle.despawn_G_vehicles, hroster]
  · simp [runTimers, htimers, Timer.fire, hriders, Vehicle.despawn,
      Vehicle.ejectAllRiders_of_empty]

/-! ## Pets: the per-tick update and the lifespan (C16) -/

/-- The method `updatePosition` touches neither `G` nor the flag and rank of the pet. -/
theorem Pet.updatePosition_frame (w : World) (p : ℕ) (cosAngle sinAngle : ℚ) :
    (Pet.updatePosition w p cosAngle sinAngle).G = w.G ∧
      ((Pet.updatePosition w p cosAngle sinAngle).petObj p).isDespawning =
        (w.petObj p).isDespawning ∧
      ((Pet.updatePosition w p cosAngle sinAngle).petObj p).rank = (w.petObj p).rank := by
  unfold Pet.updatePosition
  cases (w.petObj p).owner <;> simp

/-- For a rank of the tier table `useSkill` does not throw. -/
theorem Pet.useSkill_returns (w : World) (p : ℕ) (target : Option ℕ) (now : ℤ) (roll : ℚ)
    (hrank : (w.petObj p).rank ∈ ["C", "B", "A", "S", "SS"]) :
    ∃ b w1, Pet.useSkill w p target now roll = some (b, w1) := by
  obtain ⟨tier, ht, _⟩ := CONFIG.PET.cooldown_of_rank _ hrank
  unfold Pet.useSkill
  simp only [ht]
  split_ifs
  · exact ⟨_, _, rfl⟩
  · cases target <;> exact ⟨_, _, rfl⟩

/-- A call of `useSkill` that returns touches neither `G` nor the despawning flag. -/
theorem Pet.useSkill_frame (w w1 : World) (p : ℕ) (target : Option ℕ) (now : ℤ) (roll : ℚ)
    (b : Bool) (h : Pet.useSkill w p target now roll = some (b, w1)) :
    w1.G = w.G ∧ (w1.petObj p).isDespawning = (w.petObj p).isDespawning := by
  unfold Pet.useSkill at h
  cases ht : CONFIG.PET.POWER_TIERS (w.petObj p).rank with
  | none => simp [ht] at h
  | some tier =>
    simp only [ht] at h
    split_ifs at h
    · simp only [Option.some.injEq, Prod.mk.injEq] at h
      rw [← h.2]
      exact ⟨rfl, rfl⟩
    · cases target with
      | none =>
        simp only [Option.some.injEq, Prod.mk.injEq] at h
        rw [← h.2]
        simp
      | some t =>
        simp only [Option.some.injEq, Prod.mk.injEq] at h
        rw [← h.2]
        simp [World.setEnemy, World.setPet]

/-- A call of `checkAutoTrigger` that returns touches neither `G` nor the flag. -/
theorem Pet.checkAutoTrigger_frame (w w1 : World) (p : ℕ) (now : ℤ) (roll : ℚ)
    (h : Pet.checkAutoTrigger w p now roll = some w1) :
    w1.G = w.G ∧ (w1.petObj p).isDespawning = (w.petObj p).isDespawning := by
  unfold Pet.checkAutoTrigger at h
  split at h
  · cases h
    exact ⟨rfl, rfl⟩
  · split_ifs at h
    · cases h
      exact ⟨rfl, rfl⟩
    · split at h
      · cases h
        exact ⟨rfl, rfl⟩
      · split at h
        · cases h
        · rename_i b w2 hskill
          cases h
          exact Pet.useSkill_frame w w1 p _ now roll b hskill
    · cases h
      exact ⟨rfl, rfl⟩

/-- For a rank of the tier table `checkAutoTrigger` does not throw. -/
theorem Pet.checkAutoTrigger_returns (w : World) (p : ℕ) (now : ℤ) (roll : ℚ)
    (hrank : (w.petObj p).rank ∈ ["C", "B", "A", "S", "SS"]) :
    ∃ w1, Pet.checkAutoTrigger w p now roll = some w1 := by
  unfold Pet.checkAutoTrigger
  split
  · exact ⟨_, rfl⟩
  · split_ifs
    · exact ⟨_, rfl⟩
    · split
      · exact ⟨_, rfl⟩
      · rename_i nearestEnemy _
        obtain ⟨b, w1, h⟩ := Pet.useSkill_returns w p (some nearestEnemy) now roll hrank
        rw [h]
        exact ⟨_, rfl⟩
    · exact ⟨_, rfl⟩

/-- Claim C16: in a state whose roster lists each pet once and lists no pet that is
already despawning, `Pet.update` at a clock reading with `now - spawnTime > 120000`
despawns the pet (it returns the state of `despawn`: the flag is set and the pet is not
in `G.pets`) without changing `x`, `y`, `targetX`, `targetY` and without using a skill;
at a clock reading with `now - spawnTime ≤ 120000` it leaves the flag and the roster as
they are (and returns, for a rank of the tier table). -/
theorem Pet.update_lifespan (w : World) (p : ℕ) (now : ℤ) (cosAngle sinAngle roll : ℚ)
    (hnodup : w.G.pets.Nodup)
    (hflag : (w.petObj p).isDespawning = true → p ∉ w.G.pets) :
    (now - (w.petObj p).spawnTime > 120000 →
        Pet.update w p now cosAngle sinAngle roll = some (Pet.despawn w p now) ∧
          ((Pet.despawn w p now).petObj p).isDespawning = true ∧
          p ∉ (Pet.despawn w p now).G.pets ∧
          ((Pet.despawn w p now).petObj p).x = (w.petObj p).x ∧
          ((Pet.despawn w p now).petObj p).y = (w.petObj p).y ∧
          ((Pet.despawn w p now).petObj p).targetX = (w.petObj p).targetX ∧
          ((Pet.despawn w p now).petObj p).targetY = (w.petObj p).targetY ∧
          ((Pet.despawn w p now).petObj p).lastSkillUse = (w.petObj p).lastSkillUse ∧
          (Pet.despawn w p now).enemyObj = w.enemyObj) ∧
      (now - (w.petObj p).spawnTime ≤ 120000 →
        (∀ w1, Pet.update w p now cosAngle sinAngle roll = some w1 →
          w1.G.pets = w.G.pets ∧ (w1.petObj p).isDespawning = (w.petObj p).isDespawning) ∧
        ((w.petObj p).rank ∈ ["C", "B", "A", "S", "SS"] →
          ∃ w1, Pet.update w p now cosAngle sinAngle roll = some w1)) := by
  constructor
  · intro hold
    have hupd : Pet.update w p now cosAngle sinAngle roll = some (Pet.despawn w p now) := by
      unfold Pet.update
      rw [if_pos (by simpa [CONFIG.PET.LIFESPAN_MS] using hold)]
    have hgone : p ∉ (Pet.despawn w p now).G.pets := by
      by_cases hd : (w.petObj p).isDespawning = true
      · rw [Pet.despawn_of_isDespawning w p now hd]
        exact hflag hd
      · unfold Pet.despawn
        rw [if_neg hd]
        cases (w.petObj p).owner <;> simpa using hnodup.not_mem_erase
    have henemy : (Pet.despawn w p now).enemyObj = w.enemyObj := by
      unfold Pet.despawn
      split_ifs
      · rfl
      · cases (w.petObj p).owner <;> rfl
    refine ⟨hupd, Pet.despawn_isDespawning w p now, hgone, ?_, ?_, ?_, ?_, ?_, henemy⟩ <;>
      simp [Pet.despawn_petObj]
  · intro hyoung
    have hnot : ¬ now - (w.petObj p).spawnTime > CONFIG.PET.LIFESPAN_MS := by
      simpa [CONFIG.PET.LIFESPAN_MS] using hyoung
    obtain ⟨hG, hdesp, hrank⟩ := Pet.updatePosition_frame w p cosAngle sinAngle
    constructor
    · intro w1 h
      unfold Pet.update at h
      rw [if_neg hnot] at h
      obtain ⟨hG1, hd1⟩ := Pet.checkAutoTrigger_frame _ w1 p now roll h
      exact ⟨by rw [hG1, hG], by rw [hd1, hdesp]⟩
    · intro hr
      unfold Pet.update
      rw [if_neg hnot]
      exact Pet.checkAutoTrigger_returns _ p now roll (by rw [hrank]; exact hr)

/-- The pet of the one-player test state: spawned at 1000, alive, alone in the roster. -/
theorem World.onePet_pet :
    World.onePet.G.pets = [0] ∧ (World.onePet.petObj 0).spawnTime = 1000 ∧
      (World.onePet.petObj 0).isDespawning = false := by
  simp [World.onePet, Pet.new, World.blank]

/-- Witness for C16: a pet spawned at 1000 and updated at 130000 is despawned. -/
theorem Pet.update_lifespan_witness :
    Pet.update World.onePet 0 130000 1 0 (1 / 2) = some (Pet.despawn World.onePet 0 130000) ∧
      ((Pet.despawn World.onePet 0 130000).petObj 0).isDespawning = true ∧
      0 ∉ (Pet.despawn World.onePet 0 130000).G.pets :=
  have h := (Pet.update_lifespan World.onePet 0 130000 1 0 (1 / 2)
    (by rw [World.onePet_pet.1]; decide)
    (by rw [World.onePet_pet.2.2]; intro h; cases h)).1
    (by rw [World.onePet_pet.2.1]; norm_num)
  ⟨h.1, h.2.1, h.2.2.1⟩

/-! ## Pets: position update (C17, C18) -/

/-- The pet object after `updatePosition`, for a pet with an owner. -/
theorem Pet.updatePosition_petObj (w : World) (p o : ℕ) (cosAngle sinAngle : ℚ)
    (howner : (w.petObj p).owner = some o) :
    (Pet.updatePosition w p cosAngle sinAngle).petObj p =
      { w.petObj p with
        targetX := orElse (w.playerObj o).x 0 +
          (Pet.offset (Pet.getPositionType (w.petObj p).species) cosAngle sinAngle).1
        targetY :=
          if (w.petObj p).canFly = false ∧ truthy (w.playerObj o).groundY = true then
            max (orElse (w.playerObj o).y 0 +
              (Pet.offset (Pet.getPositionType (w.petObj p).species) cosAngle sinAngle).2)
              ((w.playerObj o).groundY.getD 0 - 20)
          else orElse (w.playerObj o).y 0 +
            (Pet.offset (Pet.getPositionType (w.petObj p).species) cosAngle sinAngle).2
        x := (w.petObj p).x + (orElse (w.playerObj o).x 0 +
          (Pet.offset (Pet.getPositionType (w.petObj p).species) cosAngle sinAngle).1 -
            (w.petObj p).x) * (15 / 100)
        y := (w.petObj p).y + ((if (w.petObj p).canFly = false ∧
            truthy (w.playerObj o).groundY = true then
            max (orElse (w.playerObj o).y 0 +
              (Pet.offset (Pet.getPositionType (w.petObj p).species) cosAngle sinAngle).2)
              ((w.playerObj o).groundY.getD 0 - 20)
          else orElse (w.playerObj o).y 0 +
            (Pet.offset (Pet.getPositionType (w.petObj p).species) cosAngle sinAngle).2) -
            (w.petObj p).y) * (15 / 100) } := by
  unfold Pet.updatePosition
  simp only [howner, World.setPet_petObj, Function.update_same]

/-- The ground lock where the code applies it: for a pet that does not fly and an
owner whose `groundY` is a number other than 0, the target is not above
`groundY - 20`. -/
theorem Pet.updatePosition_ground_lock (w : World) (p o : ℕ) (cosAngle sinAngle g : ℚ)
    (howner : (w.petObj p).owner = some o) (hfly : (w.petObj p).canFly = false)
    (hg : (w.playerObj o).groundY = some g) (hg0 : g ≠ 0) :
    g - 20 ≤ ((Pet.updatePosition w p cosAngle sinAngle).petObj p).targetY := by
  have hcond : (w.petObj p).canFly = false ∧ truthy (w.playerObj o).groundY = true := by
    rw [hg]
    exact ⟨hfly, by simpa [truthy] using hg0⟩
  have htarget := congrArg Pet.targetY
    (Pet.updatePosition_petObj w p o cosAngle sinAngle howner)
  dsimp only at htarget
  rw [htarget, if_pos hcond, hg]
  exact le_max_right _ _

/-- A wolf stays beside its owner. -/
theorem Pet.getPositionType_wolf : Pet.getPositionType "wolf" = "beside" := by
  have hlower : "wolf".toLower = "wolf" := by
    rw [String.toLower, String.map_eq]
    decide
  unfold Pet.getPositionType
  rw [hlower]
  rfl

/-- Evaluation for C17: for a wolf (no flight) whose owner is at `y = -100` with
`groundY = 0`, `updatePosition` sets `targetY = -100`, which is above the clearance line
`groundY - 20 = -20`: the test `this.owner.groundY` takes the ground reference 0 for a
missing one. -/
theorem Pet.updatePosition_groundY_zero :
    (World.groundZero.petObj 0).canFly = false ∧
      (World.groundZero.playerObj 7).groundY = some 0 ∧
      ((Pet.updatePosition World.groundZero 0 1 0).petObj 0).targetY = -100 ∧
      ¬ ((0 : ℚ) - 20 ≤ ((Pet.updatePosition World.groundZero 0 1 0).petObj 0).targetY) := by
  have howner : (World.groundZero.petObj 0).owner = some 7 := by
    simp [World.groundZero, World.blank, blankPet]
  have htarget : ((Pet.updatePosition World.groundZero 0 1 0).petObj 0).targetY = -100 := by
    rw [Pet.updatePosition_petObj _ 0 7 1 0 howner]
    simp [World.groundZero, World.blank, blankPet, truthy, orElse, Pet.offset,
      Pet.getPositionType_wolf]
  refine ⟨by simp [World.groundZero, World.blank, blankPet],
    by simp [World.groundZero, World.blank], htarget, ?_⟩
  rw [htarget]
  norm_num

/-- One smoothing step `x += (target - x) * 0.15`: the remaining distance is 0.85 times
the old one and the new coordinate lies between the old one and the target. -/
theorem smoothing_step (x target x1 : ℚ) (h : x1 = x + (target - x) * (15 / 100)) :
    target - x1 = 85 / 100 * (target - x) ∧ min x target ≤ x1 ∧ x1 ≤ max x target ∧
      |target - x1| = 85 / 100 * |target - x| := by
  have hrem : target - x1 = 85 / 100 * (target - x) := by
    rw [h]
    ring
  refine ⟨hrem, ?_, ?_, ?_⟩
  · rcases le_total x target with hle | hle
    · rw [min_eq_left hle, h]
      nlinarith
    · rw [min_eq_right hle, h]
      nlinarith
  · rcases le_total x target with hle | hle
    · rw [max_eq_right hle, h]
      nlinarith
    · rw [max_eq_left hle, h]
      nlinarith
  · rw [hrem, abs_mul, abs_of_pos (by norm_num : (0 : ℚ) < 85 / 100)]

/-- Claim C18: `updatePosition` never overshoots. With `(tx, ty)` the target computed
in the call and `(x, y)`, `(x', y')` the position before and after,
`tx - x' = 0.85 * (tx - x)` and `ty - y' = 0.85 * (ty - y)`; each new coordinate lies
between the old coordinate and the target, and the remaining distance is 0.85 times
the old one. -/
theorem Pet.updatePosition_no_overshoot (w : World) (p o : ℕ) (cosAngle sinAngle : ℚ)
    (howner : (w.petObj p).owner = some o) :
    (((Pet.updatePosition w p cosAngle sinAngle).petObj p).targetX -
          ((Pet.updatePosition w p cosAngle sinAngle).petObj p).x =
        85 / 100 * (((Pet.updatePosition w p cosAngle sinAngle).petObj p).targetX -
          (w.petObj p).x) ∧
      min (w.petObj p).x ((Pet.updatePosition w p cosAngle sinAngle).petObj p).targetX ≤
        ((Pet.updatePosition w p cosAngle sinAngle).petObj p).x ∧
      ((Pet.updatePosition w p cosAngle sinAngle).petObj p).x ≤
        max (w.petObj p).x ((Pet.updatePosition w p cosAngle sinAngle).petObj p).targetX ∧
      |((Pet.updatePosition w p cosAngle sinAngle).petObj p).targetX -
          ((Pet.updatePosition w p cosAngle sinAngle).petObj p).x| =
        85 / 100 * |((Pet.updatePosition w p cosAngle sinAngle).petObj p).targetX -
          (w.petObj p).x|) ∧
    (((Pet.updatePosition w p cosAngle sinAngle).petObj p).targetY -
          ((Pet.updatePosition w p cosAngle sinAngle).petObj p).y =
        85 / 100 * (((Pet.updatePosition w p cosAngle sinAngle).petObj p).targetY -
          (w.petObj p).y) ∧
      min (w.petObj p).y ((Pet.updatePosition w p cosAngle sinAngle).petObj p).targetY ≤
        ((Pet.updatePosition w p cosAngle sinAngle).petObj p).y ∧
      ((Pet.updatePosition w p cosAngle sinAngle).petObj p).y ≤
        max (w.petObj p).y ((Pet.updatePosition w p cosAngle sinAngle).petObj p).targetY ∧
      |((Pet.updatePosition w p cosAngle sinAngle).petObj p).targetY -
          ((Pet.updatePosition w p cosAngle sinAngle).petObj p).y| =
        85 / 100 * |((Pet.updatePosition w p cosAngle sinAngle).petObj p).targetY -
          (w.petObj p).y|) := by
  have hobj := Pet.updatePosition_petObj w p o cosAngle sinAngle howner
  have hx := congrArg Pet.x hobj
  have hy := congrArg Pet.y hobj
  have htx := congrArg Pet.targetX hobj
  have hty := congrArg Pet.targetY hobj
  dsimp only at hx hy htx hty
  constructor
  · apply smoothing_step
    rw [hx, htx]
  · apply smoothing_step
    rw [hy, hty]

/-- The grounded test state: a wolf at the origin, owner at `(50, 300)`. -/
theorem World.grounded_owner : (World.grounded.petObj 0).owner = some 7 := by
  simp [World.grounded, World.blank, blankPet]

/-- Witness for C18: the wolf of the grounded test state moves toward its owner. -/
theorem Pet.updatePosition_no_overshoot_witness :
    ((Pet.updatePosition World.grounded 0 1 0).petObj 0).targetX -
        ((Pet.updatePosition World.grounded 0 1 0).petObj 0).x =
      85 / 100 * (((Pet.updatePosition World.grounded 0 1 0).petObj 0).targetX -
        (World.grounded.petObj 0).x) ∧
    ((Pet.updatePosition World.grounded 0 1 0).petObj 0).targetY -
        ((Pet.updatePosition World.grounded 0 1 0).petObj 0).y =
      85 / 100 * (((Pet.updatePosition World.grounded 0 1 0).petObj 0).targetY -
        (World.grounded.petObj 0).y) :=
  ⟨(Pet.updatePosition_no_overshoot World.grounded 0 7 1 0 World.grounded_owner).1.1,
    (Pet.updatePosition_no_overshoot World.grounded 0 7 1 0 World.grounded_owner).2.1⟩

/-! ## Pets: the nearest enemy (C19, C20) -/

/-- One round of the search either keeps the enemy found so far or takes the enemy of
this round, which then has truthy `x` and `y`, does not have `hp <= 0` and is closer
than 300. -/
theorem Pet.nearestStep_fst (w : World) (p : ℕ) (acc : Option ℕ × Option ℚ) (enemy e : ℕ)
    (h : (Pet.nearestStep w p acc enemy).1 = some e) :
    acc.1 = some e ∨
      (e = enemy ∧ truthy (w.enemyObj enemy).x = true ∧ truthy (w.enemyObj enemy).y = true ∧
        (w.enemyObj enemy).hpLeZero = false ∧
        Pet.dist2 (w.petObj p) (w.enemyObj enemy) < 300 * 300) := by
  unfold Pet.nearestStep at h
  split_ifs at h with h1 h2
  · exact Or.inl h
  · simp only [Option.some.injEq] at h
    simp only [not_or, Bool.not_eq_false, Bool.not_eq_true] at h1
    exact Or.inr ⟨h.symm, h1.1, h1.2.1, h1.2.2, h2.2⟩
  · exact Or.inl h

/-- The enemy found by the search, if it is not the one the search started with, is a
member of the list that passed the guard of its round. -/
theorem Pet.nearest_foldl_fst (w : World) (p : ℕ) : ∀ (enemies : List ℕ)
    (acc : Option ℕ × Option ℚ) (e : ℕ),
    (enemies.foldl (Pet.nearestStep w p) acc).1 = some e →
    acc.1 = some e ∨
      (e ∈ enemies ∧ truthy (w.enemyObj e).x = true ∧ truthy (w.enemyObj e).y = true ∧
        (w.enemyObj e).hpLeZero = false ∧ Pet.dist2 (w.petObj p) (w.enemyObj e) < 300 * 300)
  | [], _, _, h => Or.inl h
  | enemy :: enemies, acc, e, h => by
    rw [List.foldl_cons] at h
    rcases Pet.nearest_foldl_fst w p enemies _ e h with h1 | ⟨hmem, hrest⟩
    · rcases Pet.nearestStep_fst w p acc enemy e h1 with h2 | ⟨heq, hrest⟩
      · exact Or.inl h2
      · subst heq
        exact Or.inr ⟨List.mem_cons_self _ _, hrest⟩
    · exact Or.inr ⟨List.mem_cons_of_mem _ hmem, hrest⟩

/-- A truthy numeric property is present. -/
theorem truthy_ne_none (a : Option ℚ) (h : truthy a = true) : ∃ v, a = some v ∧ v ≠ 0 := by
  cases a with
  | none => simp [truthy] at h
  | some v => exact ⟨v, rfl, by simpa [truthy] using h⟩

/-- Claim C20, as the code has it: `findNearestEnemy` returns for every list of enemy
objects (the function is total), and an enemy it returns is a member of the list that has
its `x` and its `y` field and does not have an `hp` that is present and `≤ 0`. An enemy
that only lacks `hp` stays a candidate. -/
theorem Pet.findNearestEnemy_fields (w : World) (p : ℕ) (enemies : List ℕ) (e : ℕ)
    (h : Pet.findNearestEnemy w p enemies = some e) :
    e ∈ enemies ∧ (∃ x, (w.enemyObj e).x = some x ∧ x ≠ 0) ∧
      (∃ y, (w.enemyObj e).y = some y ∧ y ≠ 0) ∧
      ∀ hp, (w.enemyObj e).hp = some hp → 0 < hp := by
  unfold Pet.findNearestEnemy at h
  rcases Pet.nearest_foldl_fst w p enemies (none, none) e h with h1 | ⟨hmem, hx, hy, hhp, _⟩
  · cases h1
  · refine ⟨hmem, truthy_ne_none _ hx, truthy_ne_none _ hy, ?_⟩
    intro hp hhp1
    simpa [Enemy.hpLeZero, hhp1] using hhp

/-- Counterexample to C20 as stated: an enemy at `(5, 5)` that has no `hp` field is
returned. -/
theorem Pet.findNearestEnemy_missing_hp :
    (World.noHpEnemy.enemyObj 0).hp = none ∧
      Pet.findNearestEnemy World.noHpEnemy 0 [0] = some 0 := by
  constructor
  · simp [World.noHpEnemy, World.blank]
  · simp [Pet.findNearestEnemy, Pet.nearestStep, World.noHpEnemy, World.blank, blankPet,
      truthy, Enemy.hpLeZero, ltMinDist, Pet.dist2]
    norm_num

/-- Witness for C20 (amended): the enemy returned from the test state has `x` and `y`. -/
theorem Pet.findNearestEnemy_fields_witness :
    0 ∈ [0] ∧ (∃ x, (World.noHpEnemy.enemyObj 0).x = some x ∧ x ≠ 0) ∧
      (∃ y, (World.noHpEnemy.enemyObj 0).y = some y ∧ y ≠ 0) ∧
      ∀ hp, (World.noHpEnemy.enemyObj 0).hp = some hp → 0 < hp :=
  Pet.findNearestEnemy_fields World.noHpEnemy 0 [0] 0 (by
    simp [Pet.findNearestEnemy, Pet.nearestStep, World.noHpEnemy, World.blank, blankPet,
      truthy, Enemy.hpLeZero, ltMinDist, Pet.dist2]
    norm_num)

/-- Evaluation for C19: an enemy with 50 hp at `(0, 10)`, at distance 10 from the pet at
the origin, is not found: the guard `!enemy.x` takes the coordinate 0 for a missing one,
and the search returns null. -/
theorem Pet.findNearestEnemy_zero_coordinate :
    (World.edgeEnemy.enemyObj 0).x = some 0 ∧ (World.edgeEnemy.enemyObj 0).y = some 10 ∧
      (World.edgeEnemy.enemyObj 0).hp = some 50 ∧
      Pet.dist2 (World.edgeEnemy.petObj 0) (World.edgeEnemy.enemyObj 0) = 10 * 10 ∧
      Pet.findNearestEnemy World.edgeEnemy 0 [0] = none := by
  refine ⟨?_, ?_, ?_, ?_, ?_⟩
  · simp [World.edgeEnemy, World.blank]
  · simp [World.edgeEnemy, World.blank]
  · simp [World.edgeEnemy, World.blank]
  · simp [World.edgeEnemy, World.blank, blankPet, Pet.dist2]
  · simp [Pet.findNearestEnemy, Pet.nearestStep, World.edgeEnemy, World.blank, truthy]

/-- One round of the search keeps the search invariant. -/
theorem Pet.nearestStep_searchOk (w : World) (p : ℕ) (acc : Option ℕ × Option ℚ)
    (done : List ℕ) (enemy : ℕ) (h : Pet.SearchOk w p acc done) :
    Pet.SearchOk w p (Pet.nearestStep w p acc enemy) (done ++ [enemy]) := by
  unfold Pet.nearestStep
  split_ifs with hguard htake
  · -- the guard rejects the enemy
    have hno : ¬ Pet.isCandidate w p enemy := by
      rintro ⟨hx, hy, hhp, _⟩
      rcases hguard with h1 | h1 | h1
      · rw [hx] at h1; cases h1
      · rw [hy] at h1; cases h1
      · rw [hhp] at h1; cases h1
    rcases h with ⟨hacc, hnone⟩ | ⟨e, l1, l2, hacc, hdone, hcand, hbefore, hafter⟩
    · refine Or.inl ⟨hacc, fun e he => ?_⟩
      rcases List.mem_append.mp he with he | he
      · exact hnone e he
      · rw [List.mem_singleton.mp he]
        exact hno
    · refine Or.inr ⟨e, l1, l2 ++ [enemy], hacc, by rw [hdone]; simp, hcand, hbefore, ?_⟩
      intro e2 he2 hc2
      rcases List.mem_append.mp he2 with he2 | he2
      · exact hafter e2 he2 hc2
      · rw [List.mem_singleton.mp he2] at hc2
        exact absurd hc2 hno
  · -- the enemy is taken
    simp only [not_or, Bool.not_eq_false] at hguard
    have hcand : Pet.isCandidate w p enemy :=
      ⟨hguard.1, hguard.2.1, by simpa using hguard.2.2, htake.2⟩
    refine Or.inr ⟨enemy, done, [], rfl, rfl, hcand, ?_, fun e2 he2 => by cases he2⟩
    rcases h with ⟨_, hnone⟩ | ⟨e, l1, l2, hacc, hdone, _, hbefore, hafter⟩
    · exact fun e1 he1 hc1 => absurd hc1 (hnone e1 he1)
    · have hlt : Pet.dist2 (w.petObj p) (w.enemyObj enemy) <
          Pet.dist2 (w.petObj p) (w.enemyObj e) := by
        have := htake.1
        rw [hacc] at this
        simpa [ltMinDist] using this
      intro e1 he1 hc1
      rw [hdone] at he1
      rcases List.mem_append.mp he1 with he1 | he1
      · exact lt_trans hlt (hbefore e1 he1 hc1)
      · rcases List.mem_cons.mp he1 with he1 | he1
        · rw [he1]
          exact hlt
        · exact lt_of_lt_of_le hlt (hafter e1 he1 hc1)
  · -- the enemy passes the guard but is not closer, or is out of range
    simp only [not_or, Bool.not_eq_false] at hguard
    rcases h with ⟨hacc, hnone⟩ | ⟨e, l1, l2, hacc, hdone, hcand, hbefore, hafter⟩
    · refine Or.inl ⟨hacc, fun e he => ?_⟩
      rcases List.mem_append.mp he with he | he
      · exact hnone e he
      · rw [List.mem_singleton.mp he]
        rintro ⟨_, _, _, hrange⟩
        apply htake
        rw [hacc]
        exact ⟨rfl, hrange⟩
    · refine Or.inr ⟨e, l1, l2 ++ [enemy], hacc, by rw [hdone]; simp, hcand, hbefore, ?_⟩
      intro e2 he2 hc2
      rcases List.mem_append.mp he2 with he2 | he2
      · exact hafter e2 he2 hc2
      · rw [List.mem_singleton.mp he2] at hc2 ⊢
        by_contra hnot
        apply htake
        rw [hacc]
        exact ⟨by simpa [ltMinDist] using not_le.mp hnot, hc2.2.2.2⟩

/-- The rounds of the search keep the search invariant. -/
theorem Pet.nearest_foldl_searchOk (w : World) (p : ℕ) : ∀ (enemies done : List ℕ)
    (acc : Option ℕ × Option ℚ), Pet.SearchOk w p acc done →
    Pet.SearchOk w p (enemies.foldl (Pet.nearestStep w p) acc) (done ++ enemies)
  | [], done, acc, h => by simpa using h
  | enemy :: enemies, done, acc, h => by
    have hstep := Pet.nearest_foldl_searchOk w p enemies (done ++ [enemy]) _
      (Pet.nearestStep_searchOk w p acc done enemy h)
    simpa using hstep

/-- What `findNearestEnemy` computes, in terms of the candidates its guard admits: null
exactly when the list has no candidate, and otherwise the first of the candidates of
minimum distance. -/
theorem Pet.findNearestEnemy_spec (w : World) (p : ℕ) (enemies : List ℕ) :
    (Pet.findNearestEnemy w p enemies = none ↔ ∀ e ∈ enemies, ¬ Pet.isCandidate w p e) ∧
      ∀ e, Pet.findNearestEnemy w p enemies = some e →
        ∃ l1 l2, enemies = l1 ++ e :: l2 ∧ Pet.isCandidate w p e ∧
          (∀ e1 ∈ l1, Pet.isCandidate w p e1 →
            Pet.dist2 (w.petObj p) (w.enemyObj e) < Pet.dist2 (w.petObj p) (w.enemyObj e1)) ∧
          (∀ e2 ∈ l2, Pet.isCandidate w p e2 →
            Pet.dist2 (w.petObj p) (w.enemyObj e) ≤ Pet.dist2 (w.petObj p) (w.enemyObj e2)) := by
  have hinv := Pet.nearest_foldl_searchOk w p enemies [] (none, none)
    (Or.inl ⟨rfl, fun e he => by cases he⟩)
  rw [List.nil_append] at hinv
  unfold Pet.findNearestEnemy
  rcases hinv with ⟨hacc, hnone⟩ | ⟨e, l1, l2, hacc, hdone, hcand, hbefore, hafter⟩
  · rw [hacc]
    exact ⟨⟨fun _ => hnone, fun _ => rfl⟩, fun e he => by cases he⟩
  · rw [hacc]
    refine ⟨⟨fun h => (by cases h), fun h => ?_⟩, fun e1 he1 => ?_⟩
    · exact absurd hcand (h e (by rw [hdone]; simp))
    · simp only [Option.some.injEq] at he1
      subst he1
      exact ⟨l1, l2, hdone, hcand, hbefore, hafter⟩

/-- For an enemy with numeric `x`, `y` and `hp` whose coordinates are not 0, being a
candidate means `hp > 0` and a distance below 300. -/
theorem Pet.isCandidate_iff (w : World) (p e : ℕ) (x y hp : ℚ)
    (hx : (w.enemyObj e).x = some x) (hy : (w.enemyObj e).y = some y)
    (hhp : (w.enemyObj e).hp = some hp) (hx0 : x ≠ 0) (hy0 : y ≠ 0) :
    Pet.isCandidate w p e ↔
      0 < hp ∧ (x - (w.petObj p).x) * (x - (w.petObj p).x) +
        (y - (w.petObj p).y) * (y - (w.petObj p).y) < 300 * 300 := by
  simp [Pet.isCandidate, truthy, Enemy.hpLeZero, Pet.dist2, hx, hy, hhp, hx0, hy0]

/-! ## The roster lists live pets only -/

/-- After `init` the roster is empty, so every pet of it is alive. -/
theorem init_livePets (w : World) : (init w).LivePets := by
  intro p hp
  simp [init] at hp

/-- The constructor `new Pet` keeps the roster free of despawning pets, when the roster
entries are allocated objects. -/
theorem Pet.new_livePets (w : World) (owner : ℕ) (species rank : String) (level : ℚ)
    (now : ℤ) (halloc : ∀ p ∈ w.G.pets, p < w.nextPet) (h : w.LivePets) :
    (Pet.new w owner species rank level now).2.LivePets := by
  intro p hp
  rw [Pet.new_G_pets] at hp
  rcases List.mem_append.mp hp with hp | hp
  · have hne : p ≠ w.nextPet := Nat.ne_of_lt (halloc p hp)
    simpa [Pet.new, Function.update_noteq hne] using h p hp
  · rw [List.mem_singleton.mp hp]
    simp [Pet.new]

/-- The method `Pet.despawn` keeps the roster free of despawning pets, when the roster
lists each pet once. -/
theorem Pet.despawn_livePets (w : World) (p : ℕ) (now : ℤ) (hnodup : w.G.pets.Nodup)
    (h : w.LivePets) : (Pet.despawn w p now).LivePets := by
  intro q hq
  by_cases hd : (w.petObj p).isDespawning = true
  · rw [Pet.despawn_of_isDespawning w p now hd] at hq ⊢
    exact h q hq
  · have hroster : (Pet.despawn w p now).G.pets = w.G.pets.erase p := by
      unfold Pet.despawn
      rw [if_neg hd]
      cases (w.petObj p).owner <;> rfl
    rw [hroster] at hq
    have hne : q ≠ p := fun heq => hnodup.not_mem_erase (heq ▸ hq)
    rw [Pet.despawn_petObj, Function.update_noteq hne]
    exact h q (List.mem_of_mem_erase hq)

/-! ## Pets: a skill use without a target (C30) -/

/-- Claim C30: for a pet of a rank of the tier table that is off cooldown
(`now - lastSkillUse ≥ cooldown`), `useSkill` with a null target returns false, leaves
every enemy as it is and sets `lastSkillUse = now`; a following `useSkill` with a real
target at a time `t2` with `t2 - now < cooldown` returns false and changes nothing. -/
theorem Pet.useSkill_null_target (w : World) (p : ℕ) (now : ℤ) (r : ℚ)
    (hrank : (w.petObj p).rank ∈ ["C", "B", "A", "S", "SS"])
    (hoff : (if (w.petObj p).rank = "A" then 60000 else if (w.petObj p).rank = "S" then 50000
        else if (w.petObj p).rank = "SS" then 40000 else 10000) ≤
      now - (w.petObj p).lastSkillUse) :
    ∃ w1, Pet.useSkill w p none now r = some (false, w1) ∧
      (w1.petObj p).lastSkillUse = now ∧ w1.enemyObj = w.enemyObj ∧
      ∀ (target : ℕ) (t2 : ℤ) (r2 : ℚ),
        t2 - now < (if (w.petObj p).rank = "A" then 60000
          else if (w.petObj p).rank = "S" then 50000
          else if (w.petObj p).rank = "SS" then 40000 else 10000) →
        Pet.useSkill w1 p (some target) t2 r2 = some (false, w1) := by
  obtain ⟨tier, ht, hcd⟩ := CONFIG.PET.cooldown_of_rank _ hrank
  rw [← hcd] at hoff ⊢
  refine ⟨w.setPet p { w.petObj p with lastSkillUse := now }, ?_, by simp, rfl, ?_⟩
  · unfold Pet.useSkill
    simp only [ht]
    rw [if_neg (not_lt.mpr hoff)]
  · intro target t2 r2 hlt
    unfold Pet.useSkill
    simp only [World.setPet_petObj, Function.update_same, ht]
    rw [if_pos hlt]

/-- Witness for C30: the rank C pet of the blank state, never used, called without a
target at 20000. -/
theorem Pet.useSkill_null_target_witness :
    ∃ w1, Pet.useSkill World.blank 0 none 20000 (1 / 2) = some (false, w1) ∧
      (w1.petObj 0).lastSkillUse = 20000 ∧ w1.enemyObj = World.blank.enemyObj ∧
      ∀ (target : ℕ) (t2 : ℤ) (r2 : ℚ),
        t2 - 20000 < (if (World.blank.petObj 0).rank = "A" then 60000
          else if (World.blank.petObj 0).rank = "S" then 50000
          else if (World.blank.petObj 0).rank = "SS" then 40000 else 10000) →
        Pet.useSkill w1 0 (some target) t2 r2 = some (false, w1) :=
  Pet.useSkill_null_target World.blank 0 20000 (1 / 2)
    (by simp [World.blank, blankPet]) (by simp [World.blank, blankPet])

/-! ## Pets: the documented power tiers (C23) -/

/-- Evaluation for C23: against 1000 max hp with the roll 1/2, a rank SS pet of level 1
deals 525, above the 50 % (500) of the file header, and a rank B pet of level 30 deals
375, above the documented 30 % (300). -/
theorem Pet.calculateDamage_above_header :
    Pet.calculateDamage { blankPet with rank := "SS" } 1000 (1 / 2) = 525 ∧
      ¬ Pet.calculateDamage { blankPet with rank := "SS" } 1000 (1 / 2) ≤ 50 / 100 * 1000 ∧
      Pet.calculateDamage { blankPet with rank := "B", level := 30 } 1000 (1 / 2) = 375 ∧
      ¬ Pet.calculateDamage { blankPet with rank := "B", level := 30 } 1000 (1 / 2) ≤
        30 / 100 * 1000 := by
  have hSS : Pet.calculateDamage { blankPet with rank := "SS" } 1000 (1 / 2) = 525 := by
    simp [Pet.calculateDamage, blankPet, CONFIG.PET.POWER_TIERS]
    norm_num
  have hB : Pet.calculateDamage { blankPet with rank := "B", level := 30 } 1000 (1 / 2) =
      375 := by
    simp [Pet.calculateDamage, blankPet, CONFIG.PET.POWER_TIERS]
    norm_num
  refine ⟨hSS, ?_, hB, ?_⟩
  · rw [hSS]
    norm_num
  · rw [hB]
    norm_num

/-! ## Pets: the target's hp after a skill use (C27) -/

/-- The damage computed for a rank of the tier table, a roll that is not negative and a
maximum hp that is not negative, is not negative. -/
theorem Pet.calculateDamage_nonneg (pet : Pet) (H r : ℚ)
    (hrank : pet.rank ∈ ["C", "B", "A", "S", "SS"]) (hH : 0 ≤ H) (hr : 0 ≤ r) :
    0 ≤ Pet.calculateDamage pet H r := by
  have hfloor : ∀ q : ℚ, 0 ≤ q → (0 : ℚ) ≤ ((⌊H * q⌋ : ℤ) : ℚ) := fun q hq => by
    exact_mod_cast Int.floor_nonneg.mpr (mul_nonneg hH hq)
  simp only [List.mem_cons, List.mem_singleton, List.not_mem_nil, or_false] at hrank
  unfold Pet.calculateDamage
  rcases hrank with h | h | h | h | h <;> rw [h] <;>
    simp only [CONFIG.PET.POWER_TIERS] <;> split_ifs <;> apply hfloor <;>
    (try simp only [Option.getD_some, Option.getD_none]) <;> nlinarith

/-- Where `useSkill` does what C27 says: for a target with `hp > 0` whose `maxHp` is
missing or not negative, a pet of a rank of the tier table and a roll that is not
negative, the target's hp after the call is between 0 and its hp before the call. -/
theorem Pet.useSkill_hp_not_raised (w w1 : World) (p target : ℕ) (now : ℤ) (r hp : ℚ)
    (b : Bool) (hrank : (w.petObj p).rank ∈ ["C", "B", "A", "S", "SS"]) (hr : 0 ≤ r)
    (hhp : (w.enemyObj target).hp = some hp) (hpos : 0 < hp)
    (hmax : ∀ m, (w.enemyObj target).maxHp = some m → 0 ≤ m)
    (h : Pet.useSkill w p (some target) now r = some (b, w1)) :
    ∃ hp1, (w1.enemyObj target).hp = some hp1 ∧ 0 ≤ hp1 ∧ hp1 ≤ hp := by
  obtain ⟨tier, ht, _⟩ := CONFIG.PET.cooldown_of_rank _ hrank
  unfold Pet.useSkill at h
  simp only [ht] at h
  split_ifs at h
  · simp only [Option.some.injEq, Prod.mk.injEq] at h
    rw [← h.2]
    exact ⟨hp, hhp, hpos.le, le_refl _⟩
  · simp only [Option.some.injEq, Prod.mk.injEq] at h
    rw [← h.2]
    have hor : orElse (some hp) 100 = hp := by simp [orElse, hpos.ne']
    have hH : 0 ≤ orElse (w.enemyObj target).maxHp (orElse (some hp) 100) := by
      rw [hor]
      cases hm : (w.enemyObj target).maxHp with
      | none => simpa [orElse] using hpos.le
      | some m =>
        simp only [orElse]
        split_ifs
        · exact hpos.le
        · exact hmax m hm
    have hdmg := Pet.calculateDamage_nonneg
      { w.petObj p with lastSkillUse := now } _ r hrank hH hr
    simp only [World.setEnemy_enemyObj, World.setPet_enemyObj, World.setPet_petObj,
      Function.update_same, hhp]
    refine ⟨_, rfl, le_max_left _ _, max_le hpos.le ?_⟩
    rw [hor] at hdmg ⊢
    linarith

/-- Evaluation for C27: a target with `hp = 0` (and no `maxHp`) hit by a rank C pet with
the roll 1/2 ends at `hp = 85`: `target.hp || 100` takes the hp 0 for a missing one, so
the call raises the target's hp. -/
theorem Pet.useSkill_raises_zero_hp :
    (World.deadEnemy.enemyObj 0).hp = some 0 ∧
      ∃ w1, Pet.useSkill World.deadEnemy 0 (some 0) 20000 (1 / 2) = some (true, w1) ∧
        (w1.enemyObj 0).hp = some 85 := by
  refine ⟨by simp [World.deadEnemy, World.blank], _, rfl, ?_⟩
  simp [World.deadEnemy, World.blank, blankPet, orElse, Pet.calculateDamage,
    CONFIG.PET.POWER_TIERS]
  norm_num

/-! ## Vehicles: a new vehicle is below its capacity and is never refuelled (C28) -/

/-- Claim C28, as the code has it: a new vehicle starts with `fuel = 30000` whatever its
type, rank and level; for every rank that does not name a member of `Object.prototype`
and every level `≥ 10` its `maxFuel` is a number and its fuel is strictly below it; and
after any sequence of `mount`, `dismount`, `consumeFuel` and `despawn` calls with time
steps that are not negative, a further such call does not raise the fuel. -/
theorem Vehicle.new_fuel_below_maxFuel (w : World) (type rank : String) (level : ℚ) :
    ((Vehicle.new w type level rank).2.vehicleObj (Vehicle.new w type level rank).1).fuel =
        30000 ∧
      (rank ∉ inheritedNames → 10 ≤ level → ∃ capacity : ℚ,
        ((Vehicle.new w type level rank).2.vehicleObj
          (Vehicle.new w type level rank).1).maxFuel = some capacity ∧
        ((Vehicle.new w type level rank).2.vehicleObj (Vehicle.new w type level rank).1).fuel <
          capacity) ∧
      (∀ (calls : List VehicleCall) (call : VehicleCall),
        (∀ dt now, VehicleCall.consumeFuel dt now ∈ calls ++ [call] → 0 ≤ dt) →
        ((runCalls (Vehicle.new w type level rank).1 (Vehicle.new w type level rank).2
            (calls ++ [call])).vehicleObj (Vehicle.new w type level rank).1).fuel ≤
          ((runCalls (Vehicle.new w type level rank).1 (Vehicle.new w type level rank).2
            calls).vehicleObj (Vehicle.new w type level rank).1).fuel) := by
  refine ⟨by rw [Vehicle.new_vehicleObj]; rfl, ?_, ?_⟩
  · intro hrank hlevel
    obtain ⟨baseUpgrade, hbase, hge⟩ := CONFIG.VEHICLE.baseUpgrade_ge rank hrank
    rw [Vehicle.new_vehicleObj]
    simp only [Vehicle.calculateMaxFuel, hbase, CONFIG.VEHICLE.FUEL_BASELINE,
      CONFIG.VEHICLE.FUEL_MAX, Bool.false_eq_true, if_false]
    have hfloor : (1 : ℚ) ≤ ((⌊level / 10⌋ : ℤ) : ℚ) := by
      have : (1 : ℤ) ≤ ⌊level / 10⌋ := Int.le_floor.mpr (by push_cast; linarith)
      exact_mod_cast this
    have hprod : (5000 : ℚ) ≤ ((⌊level / 10⌋ : ℤ) : ℚ) * baseUpgrade := by nlinarith
    exact ⟨_, rfl, lt_min (by linarith) (by norm_num)⟩
  · intro calls call hdt
    have hstart : IsDouble ((Vehicle.new w type level rank).2.vehicleObj
          (Vehicle.new w type level rank).1).fuel ∧
        0 ≤ ((Vehicle.new w type level rank).2.vehicleObj
          (Vehicle.new w type level rank).1).fuel := by
      rw [Vehicle.new_vehicleObj]
      exact ⟨isDouble_baseline, by norm_num [CONFIG.VEHICLE.FUEL_BASELINE]⟩
    have hbounds := runCalls_fuel_double (Vehicle.new w type level rank).1 calls
      (Vehicle.new w type level rank).2 hstart
    have hrun : runCalls (Vehicle.new w type level rank).1 (Vehicle.new w type level rank).2
        (calls ++ [call]) = call.run (Vehicle.new w type level rank).1
          (runCalls (Vehicle.new w type level rank).1 (Vehicle.new w type level rank).2
            calls) := by
      simp [runCalls, List.foldl_append]
    rw [hrun]
    exact (VehicleCall.run_fuel_le _ _ call
      (fun dt now hc => hdt dt now (List.mem_append_right _ (by rw [hc]; simp))) hbounds).1

/-- Counterexample to C28 as stated: on the motorcycle of the test state (two riders,
fuel 30000) the call `consumeFuel(-1000)` raises the fuel to 31000. And a level 10
vehicle of the rank "constructor" has `maxFuel = NaN`, so its fuel 30000 is not below
its `maxFuel`. -/
theorem Vehicle.consumeFuel_negative_step :
    (World.motorcycle.vehicleObj 0).fuel = 30000 ∧
      ((Vehicle.consumeFuel World.motorcycle 0 (-1000) 0).2.vehicleObj 0).fuel = 31000 ∧
      ((Vehicle.new World.blank "bike" 10 "constructor").2.vehicleObj
        (Vehicle.new World.blank "bike" 10 "constructor").1).maxFuel = none := by
  have hfuel : (World.motorcycle.vehicleObj 0).fuel = 30000 := by
    simp [World.motorcycle, Vehicle.mount_vehicleObj, Vehicle.new, World.blank,
      Vehicle.getMaxRiders, Vehicle.riderCounts, Lookup.orElse, geNumber,
      CONFIG.VEHICLE.FUEL_BASELINE]
  have hlen : ¬ (World.motorcycle.vehicleObj 0).riders.length = 0 := by
    rw [World.motorcycle_vehicle.2]
    decide
  have hdouble : toDouble (30000 - -1000) = 31000 := by
    have hcast : (30000 - -1000 : ℚ) = ((31000 : ℤ) : ℚ) := by norm_num
    rw [hcast, toDouble_of_isDouble _ (isDouble_intCast 31000 (by norm_num))]
    norm_num
  refine ⟨hfuel, ?_, ?_⟩
  · rw [Vehicle.consumeFuel_vehicleObj, if_neg hlen, hfuel, hdouble]
    norm_num
  · rw [Vehicle.new_vehicleObj]
    simp [Vehicle.calculateMaxFuel, CONFIG.VEHICLE.FUEL_UPGRADE_PER_10_LEVELS, inheritedNames,
      Lookup.orElse]

/-! ## The update loop skips the entry after a despawn (C22) -/

/-- The two-pet test state: roster `[0, 1]`, pet 0 spawned at 0 and alive. -/
theorem World.twoPets_state :
    World.twoPets.G.pets = [0, 1] ∧ World.twoPets.G.vehicles = [] ∧
      (World.twoPets.petObj 0).spawnTime = 0 ∧
      (World.twoPets.petObj 0).isDespawning = false := by
  simp [World.twoPets, Pet.new, World.blank]

/-- The two-vehicle test state: roster `[0, 1]`, the bike 0 has the rider 1 and fuel 10. -/
theorem World.twoVehicles_state :
    World.twoVehicles.G.pets = [] ∧ World.twoVehicles.G.vehicles = [0, 1] ∧
      (World.twoVehicles.vehicleObj 0).riders = [1] ∧
      (World.twoVehicles.vehicleObj 0).fuel = 10 := by
  simp [World.twoVehicles, Vehicle.mount, Vehicle.new, World.blank, Vehicle.getMaxRiders,
    Vehicle.riderCounts, Lookup.orElse, geNumber, Vehicle.positionRider, Vehicle.positions,
    World.setPlayer, World.setVehicle]

/-- The result of `consumeFuel` on a vehicle with a rider and `fuel ≤ dt`: the riders
are ejected and the vehicle is despawned. -/
theorem Vehicle.consumeFuel_of_depleted (w : World) (v : ℕ) (dt : ℚ) (now : ℤ)
    (hriders : (w.vehicleObj v).riders ≠ []) (hdt : (w.vehicleObj v).fuel ≤ dt) :
    Vehicle.consumeFuel w v dt now =
      (false, Vehicle.despawn (Vehicle.ejectAllRiders (w.setVehicle v
        { w.vehicleObj v with
          fuel := max 0 (toDouble ((w.vehicleObj v).fuel - dt)) }) v now) v now) := by
  have hlen : ¬ (w.vehicleObj v).riders.length = 0 := by
    simpa [List.length_eq_zero] using hriders
  have hfuel : max 0 (toDouble ((w.vehicleObj v).fuel - dt)) = 0 :=
    max_eq_left (toDouble_nonpos _ (by linarith))
  unfold Vehicle.consumeFuel
  rw [if_neg hlen]
  simp only [World.setVehicle_vehicleObj, Function.update_same]
  rw [if_pos (le_of_eq hfuel)]

/-- The roster after `Vehicle.update` on a vehicle that runs out of fuel in the call. -/
theorem Vehicle.update_of_depleted (w : World) (v : ℕ) (dt : ℚ) (now : ℤ)
    (hriders : (w.vehicleObj v).riders ≠ []) (hdt : (w.vehicleObj v).fuel ≤ dt) :
    (Vehicle.update w v dt now).G.vehicles = w.G.vehicles.erase v := by
  unfold Vehicle.update
  rw [Vehicle.consumeFuel_of_depleted w v dt now hriders hdt]
  simp only [if_true]
  rw [Vehicle.despawn_G_vehicles]
  unfold Vehicle.ejectAllRiders
  rw [Vehicle.dismount_foldl_G]
  rfl

/-- Evaluation for C22: with the roster `[0, 1]` and pet 0 past its lifespan, one
`gameUpdate` invokes `update` on pet 0 only: pet 0 despawns and is spliced out of
`G.pets` during its round, pet 1 moves to index 0 and the round for index 1 finds
nothing. Likewise with the vehicles `[0, 1]` when the bike 0 runs out of fuel in its
round: `update` is invoked on vehicle 0 only. -/
theorem gameUpdate_skips_after_despawn :
    World.twoPets.G.pets = [0, 1] ∧
      (gameUpdate World.twoPets 16 130000 1 0 (1 / 2)).map (fun r => r.2.1) = some [0] ∧
      World.twoVehicles.G.vehicles = [0, 1] ∧
      (gameUpdate World.twoVehicles 16 0 1 0 (1 / 2)).map (fun r => r.2.2) = some [0] := by
  obtain ⟨hpets, hveh, hspawn, halive⟩ := World.twoPets_state
  obtain ⟨hpets2, hveh2, hriders, hfuel⟩ := World.twoVehicles_state
  have hupdate : ∀ roll : ℚ, Pet.update World.twoPets 0 130000 1 0 roll =
      some (Pet.despawn World.twoPets 0 130000) := by
    intro roll
    unfold Pet.update
    rw [if_pos (by rw [hspawn]; norm_num [CONFIG.PET.LIFESPAN_MS])]
  have hroster : (Pet.despawn World.twoPets 0 130000).G.pets = [1] := by
    unfold Pet.despawn
    rw [if_neg (by simp [halive])]
    cases (World.twoPets.petObj 0).owner <;> simp [hpets]
  have hvupdate : (Vehicle.update World.twoVehicles 0 16 0).G.vehicles = [1] := by
    rw [Vehicle.update_of_depleted World.twoVehicles 0 16 0 (by rw [hriders]; decide)
      (by rw [hfuel]; norm_num), hveh2]
    decide
  refine ⟨hpets, ?_, hveh2, ?_⟩
  · simp [gameUpdate, petsForEach, hpets, hupdate, hroster]
  · simp [gameUpdate, petsForEach, vehiclesForEach, hpets2, hveh2, hvupdate]

/-! ## Targeting of `gameplay-pets-vehicles.js` (C21, C26) -/

/-- What `pick` returns is an entry of its list that passes the test of `find`. -/
theorem Gameplay.pick_some (sc : Gameplay.Scene) (x y range : ℚ)
    (list : List (Option ℕ)) (e : ℕ) (h : Gameplay.pick sc x y range (some list) = some e) :
    some e ∈ list ∧ Gameplay.qualifies sc x y range (some e) = true := by
  unfold Gameplay.pick at h
  cases hfind : list.find? (Gameplay.qualifies sc x y range) with
  | none => simp [hfind] at h
  | some entry =>
    simp only [hfind, Option.join] at h
    subst h
    exact ⟨List.mem_of_find?_eq_some hfind, List.find?_some hfind⟩

/-- When some entry of the list passes the test, `pick` returns an entry. -/
theorem Gameplay.pick_finds_qualifying (sc : Gameplay.Scene) (x y range : ℚ)
    (list : List (Option ℕ)) (p : ℕ) (hmem : some p ∈ list)
    (hq : Gameplay.qualifies sc x y range (some p) = true) :
    ∃ e, Gameplay.pick sc x y range (some list) = some e := by
  have hsome : (list.find? (Gameplay.qualifies sc x y range)).isSome = true :=
    List.find?_isSome.mpr ⟨some p, hmem, hq⟩
  cases hfind : list.find? (Gameplay.qualifies sc x y range) with
  | none => simp [hfind] at hsome
  | some entry =>
    cases entry with
    | none =>
      have := List.find?_some hfind
      simp [Gameplay.qualifies] at this
    | some e =>
      exact ⟨e, by simp [Gameplay.pick, hfind, Option.join]⟩

/-- Claim C21: if some entry of `G.enemyProjectiles` is non-null, not dead, does not
have `hp <= 0` and lies within distance `<= range` of `(x, y)`, then
`findThreatOrEnemy` returns an entry of `G.enemyProjectiles` (one that passes the same
tests), whatever `G.enemies` and `window.gameEnemies` hold. -/
theorem Gameplay.findThreatOrEnemy_projectile_first (sc : Gameplay.Scene)
    (x y range ex ey : ℚ) (projs : List (Option ℕ)) (p : ℕ)
    (hlist : sc.enemyProjectiles = some projs) (hmem : some p ∈ projs)
    (hdead : (sc.entity p).dead = false)
    (hhp : ∀ hp, (sc.entity p).hp = some hp → 0 < hp)
    (hx : (sc.entity p).x = some ex) (hy : (sc.entity p).y = some ey)
    (hrange : 0 ≤ range)
    (hdist : (ex - x) * (ex - x) + (ey - y) * (ey - y) ≤ range * range) :
    ∃ e, Gameplay.findThreatOrEnemy sc x y range = some e ∧ some e ∈ projs ∧
      Gameplay.qualifies sc x y range (some e) = true := by
  have hq : Gameplay.qualifies sc x y range (some p) = true := by
    have hnot : ¬ ((sc.entity p).dead = true ∨ (sc.entity p).hpLeZero = true) := by
      rintro (h | h)
      · rw [hdead] at h
        cases h
      · unfold Gameplay.Entity.hpLeZero at h
        cases hhp1 : (sc.entity p).hp with
        | none => simp [hhp1] at h
        | some hp =>
          simp only [hhp1, decide_eq_true_eq] at h
          exact absurd (hhp hp hhp1) (not_lt.mpr h)
    simp only [Gameplay.qualifies, if_neg hnot, Gameplay.within, hx, hy]
    exact decide_eq_true ⟨hrange, hdist⟩
  obtain ⟨e, he⟩ := Gameplay.pick_finds_qualifying sc x y range projs p hmem hq
  refine ⟨e, ?_, Gameplay.pick_some sc x y range projs e he⟩
  unfold Gameplay.findThreatOrEnemy
  rw [hlist, he]

/-- Witness for C21: a projectile at distance 200 is returned although an enemy is at
distance 10. -/
theorem Gameplay.findThreatOrEnemy_projectile_first_witness :
    ∃ e, Gameplay.findThreatOrEnemy Gameplay.Scene.threat 0 0 320 = some e ∧
      some e ∈ [none, some 2] ∧
      Gameplay.qualifies Gameplay.Scene.threat 0 0 320 (some e) = true :=
  Gameplay.findThreatOrEnemy_projectile_first Gameplay.Scene.threat 0 0 320 200 0
    [none, some 2] 2 rfl (by decide) (by simp [Gameplay.Scene.threat])
    (by simp [Gameplay.Scene.threat]) (by simp [Gameplay.Scene.threat])
    (by simp [Gameplay.Scene.threat]) (by norm_num) (by norm_num)

/-- Evaluation for C26: without projectiles and with the enemies at `(100, 0)` and
`(10, 0)` in this order, `findThreatOrEnemy(0, 0, 320)` returns the first one, at
distance 100, although the second one is alive, within range and strictly closer. -/
theorem Gameplay.findThreatOrEnemy_first_in_range :
    Gameplay.pick Gameplay.Scene.farFirst 0 0 320 Gameplay.Scene.farFirst.enemyProjectiles =
        none ∧
      Gameplay.findThreatOrEnemy Gameplay.Scene.farFirst 0 0 320 = some 0 ∧
      Gameplay.qualifies Gameplay.Scene.farFirst 0 0 320 (some 1) = true ∧
      (Gameplay.Scene.farFirst.entity 0).x = some 100 ∧
      (Gameplay.Scene.farFirst.entity 0).y = some 0 ∧
      (Gameplay.Scene.farFirst.entity 1).x = some 10 ∧
      (Gameplay.Scene.farFirst.entity 1).y = some 0 ∧
      ((10 : ℚ) - 0) * (10 - 0) + (0 - 0) * (0 - 0) <
        (100 - 0) * (100 - 0) + (0 - 0) * (0 - 0) := by
  have hproj : Gameplay.Scene.farFirst.enemyProjectiles = some [] := rfl
  have henemies : Gameplay.Scene.farFirst.enemies = some [some 0, some 1] := rfl
  have hq0 : Gameplay.qualifies Gameplay.Scene.farFirst 0 0 320 (some 0) = true := by
    simp [Gameplay.qualifies, Gameplay.within, Gameplay.Entity.hpLeZero,
      Gameplay.Scene.farFirst]
    norm_num
  have hq1 : Gameplay.qualifies Gameplay.Scene.farFirst 0 0 320 (some 1) = true := by
    simp [Gameplay.qualifies, Gameplay.within, Gameplay.Entity.hpLeZero,
      Gameplay.Scene.farFirst]
    norm_num
  have hpick : Gameplay.pick Gameplay.Scene.farFirst 0 0 320
      Gameplay.Scene.farFirst.enemyProjectiles = none := by
    rw [hproj]
    rfl
  refine ⟨hpick, ?_, hq1, ?_, ?_, ?_, ?_, by norm_num⟩
  · unfold Gameplay.findThreatOrEnemy
    rw [hpick, henemies]
    simp only [Gameplay.pick, List.find?_cons, hq0, Option.join]
    rfl
  · simp [Gameplay.Scene.farFirst]
  · simp [Gameplay.Scene.farFirst]
  · simp [Gameplay.Scene.farFirst]
  · simp [Gameplay.Scene.farFirst]

/-! ## State selection of the pet manager (C29) -/

/-- Claim C29: with a leader present, `PetManager.update` never leaves the pet in the
state "dash": the state it assigns is "intercept", "attack" or "follow". A projectile
gives "intercept"; without one, an enemy closer than 120 gives "attack", because
`d < 200` is tested before `d < 120`. -/
theorem Managers.PetManager.update_never_dash (state : String) (p lead : Managers.Body)
    (proj mob : Option Managers.Body) :
    Managers.PetManager.update state p (some lead) proj mob ≠ "dash" ∧
      Managers.PetManager.update state p (some lead) proj mob ∈
        ["intercept", "attack", "follow"] ∧
      (proj ≠ none → Managers.PetManager.update state p (some lead) proj mob = "intercept") ∧
      (proj = none → ∀ m, mob = some m → Managers.d2 p m < 120 * 120 →
        Managers.PetManager.update state p (some lead) proj mob = "attack") := by
  unfold Managers.PetManager.update Managers.PetManager.selectState
  cases proj with
  | some pr => simp
  | none =>
    cases mob with
    | none => simp
    | some m =>
      by_cases h200 : Managers.d2 p m < 200 * 200
      · simp [h200]
      · have h120 : ¬ Managers.d2 p m < 120 * 120 := fun h => h200 (by linarith)
        simp [h200, h120]
        exact not_lt.mp h120

/-! ## Boarding in `gameplay-pets-vehicles.js` (C24, C25) -/

/-- The vehicle after `board`: a hero is appended when the vehicle is active and has a
free seat, and nothing else changes. -/
theorem Gameplay.Vehicle.board_vehicle (s : Gameplay.State) (hero : ℕ) :
    (Gameplay.Vehicle.board s hero).2.vehicle =
      if s.vehicle.active = false ∨ s.vehicle.seatsFree ≤ 0 then s.vehicle
      else { s.vehicle with occupants := s.vehicle.occupants ++ [hero] } := by
  unfold Gameplay.Vehicle.board
  dsimp only
  split_ifs <;> rfl

/-- The flag returned by `board`. -/
theorem Gameplay.Vehicle.board_fst (s : Gameplay.State) (hero : ℕ) :
    (Gameplay.Vehicle.board s hero).1 =
      if s.vehicle.active = false ∨ s.vehicle.seatsFree ≤ 0 then false else true := by
  unfold Gameplay.Vehicle.board
  dsimp only
  split_ifs <;> rfl

/-- The seat check of `board` keeps `occupants.length ≤ def.seats`. -/
theorem Gameplay.Vehicle.board_keeps_seats (s : Gameplay.State) (hero : ℕ)
    (h : (s.vehicle.occupants.length : ℤ) ≤ s.vehicle.typeDef.seats) :
    ((Gameplay.Vehicle.board s hero).2.vehicle.occupants.length : ℤ) ≤
      (Gameplay.Vehicle.board s hero).2.vehicle.typeDef.seats := by
  rw [Gameplay.Vehicle.board_vehicle]
  split_ifs with hc
  · exact h
  · rw [not_or, not_le] at hc
    have := hc.2
    unfold Gameplay.Vehicle.seatsFree at this
    simp only [List.length_append, List.length_singleton]
    push_cast
    omega

/-- The loop of `G.boardVehicle` over heroes that are pairwise different and not yet
on the vehicle keeps the occupants pairwise different and within the seats. -/
theorem Gameplay.boardVehicle_loop : ∀ (hs : List ℕ) (acc : ℕ × Gameplay.State),
    hs.Nodup → acc.2.vehicle.occupants.Nodup →
    (∀ h ∈ hs, h ∉ acc.2.vehicle.occupants) →
    (acc.2.vehicle.occupants.length : ℤ) ≤ acc.2.vehicle.typeDef.seats →
    (hs.foldl (fun (acc : ℕ × Gameplay.State) h =>
        if 0 < acc.2.vehicle.seatsFree ∧ (Gameplay.Vehicle.board acc.2 h).1 = true then
          (acc.1 + 1, (Gameplay.Vehicle.board acc.2 h).2)
        else acc) acc).2.vehicle.occupants.Nodup ∧
      ((hs.foldl (fun (acc : ℕ × Gameplay.State) h =>
        if 0 < acc.2.vehicle.seatsFree ∧ (Gameplay.Vehicle.board acc.2 h).1 = true then
          (acc.1 + 1, (Gameplay.Vehicle.board acc.2 h).2)
        else acc) acc).2.vehicle.occupants.length : ℤ) ≤
        (hs.foldl (fun (acc : ℕ × Gameplay.State) h =>
        if 0 < acc.2.vehicle.seatsFree ∧ (Gameplay.Vehicle.board acc.2 h).1 = true then
          (acc.1 + 1, (Gameplay.Vehicle.board acc.2 h).2)
        else acc) acc).2.vehicle.typeDef.seats
  | [], _, _, hnd, _, hlen => ⟨hnd, hlen⟩
  | h :: hs, acc, hhs, hnd, hnew, hlen => by
    rw [List.foldl_cons]
    have hhs1 := (List.nodup_cons.mp hhs)
    apply Gameplay.boardVehicle_loop hs _ hhs1.2
    · split_ifs
      · dsimp only
        rw [Gameplay.Vehicle.board_vehicle]
        split_ifs
        · exact hnd
        · exact List.Nodup.append hnd (List.nodup_singleton _)
            (by simpa using hnew h (List.mem_cons_self _ _))
      · exact hnd
    · intro h1 hh1
      split_ifs
      · dsimp only
        rw [Gameplay.Vehicle.board_vehicle]
        split_ifs
        · exact hnew h1 (List.mem_cons_of_mem _ hh1)
        · simp only [List.mem_append, List.mem_singleton, not_or]
          exact ⟨hnew h1 (List.mem_cons_of_mem _ hh1), fun heq => hhs1.1 (heq ▸ hh1)⟩
      · exact hnew h1 (List.mem_cons_of_mem _ hh1)
    · split_ifs
      · exact Gameplay.Vehicle.board_keeps_seats acc.2 h hlen
      · exact hlen

/-- Claim C24, as the code has it: `board(hero)` returns false and leaves the state
unchanged when the vehicle is not active or has no free seat, and this seat check keeps
`occupants.length ≤ def.seats`; with a free seat on an active vehicle it returns true
and appends the hero, also when the hero is already an occupant. No hero is listed
twice through `G.boardVehicle`, which offers a seat only to heroes that are not hidden:
when `G.heroes` lists each hero once and every occupant is hidden, the occupants after
`G.boardVehicle` are pairwise different and within the seats. -/
theorem Gameplay.Vehicle.board_seat_check (s : Gameplay.State) (hero : ℕ) :
    ((s.vehicle.active = false ∨ s.vehicle.seatsFree ≤ 0) →
        Gameplay.Vehicle.board s hero = (false, s)) ∧
      ((s.vehicle.active = true ∧ 0 < s.vehicle.seatsFree) →
        (Gameplay.Vehicle.board s hero).1 = true ∧
          (Gameplay.Vehicle.board s hero).2.vehicle.occupants =
            s.vehicle.occupants ++ [hero]) ∧
      ((s.vehicle.occupants.length : ℤ) ≤ s.vehicle.typeDef.seats →
        ((Gameplay.Vehicle.board s hero).2.vehicle.occupants.length : ℤ) ≤
          (Gameplay.Vehicle.board s hero).2.vehicle.typeDef.seats) ∧
      ((s.heroes.getD []).Nodup → s.vehicle.occupants.Nodup →
        (∀ o ∈ s.vehicle.occupants, (s.heroObj o).hidden = true) →
        (s.vehicle.occupants.length : ℤ) ≤ s.vehicle.typeDef.seats →
        (Gameplay.boardVehicle s).2.vehicle.occupants.Nodup ∧
          ((Gameplay.boardVehicle s).2.vehicle.occupants.length : ℤ) ≤
            (Gameplay.boardVehicle s).2.vehicle.typeDef.seats) := by
  refine ⟨?_, ?_, Gameplay.Vehicle.board_keeps_seats s hero, ?_⟩
  · intro h
    unfold Gameplay.Vehicle.board
    rw [if_pos h]
  · rintro ⟨hactive, hfree⟩
    have hc : ¬ (s.vehicle.active = false ∨ s.vehicle.seatsFree ≤ 0) := by
      rw [not_or, not_le]
      exact ⟨by simp [hactive], hfree⟩
    rw [Gameplay.Vehicle.board_fst, Gameplay.Vehicle.board_vehicle, if_neg hc, if_neg hc]
    exact ⟨rfl, rfl⟩
  · intro hheroes hnd hhidden hlen
    unfold Gameplay.boardVehicle
    dsimp only
    apply Gameplay.boardVehicle_loop _ (0, s) (hheroes.filter _) hnd _ hlen
    intro h hh hocc
    have hvis := (List.mem_filter.mp hh).2
    rw [hhidden h hocc] at hvis
    cases hvis

/-- Counterexample to C24 as stated: on an active car with the occupant 5 and two free
seats, `board(5)` returns true and lists the hero 5 twice. -/
theorem Gameplay.Vehicle.board_seats_hero_twice :
    Gameplay.State.carWithHero.vehicle.active = true ∧
      Gameplay.State.carWithHero.vehicle.occupants = [5] ∧
      Gameplay.State.carWithHero.vehicle.seatsFree = 2 ∧
      (Gameplay.Vehicle.board Gameplay.State.carWithHero 5).1 = true ∧
      (Gameplay.Vehicle.board Gameplay.State.carWithHero 5).2.vehicle.occupants = [5, 5] := by
  have hfree : Gameplay.State.carWithHero.vehicle.seatsFree = 2 := by
    simp [Gameplay.Vehicle.seatsFree, Gameplay.State.carWithHero, Gameplay.Vehicle.new,
      Gameplay.vehDef, Gameplay.VEH_TYPES]
  have hc : ¬ (Gameplay.State.carWithHero.vehicle.active = false ∨
      Gameplay.State.carWithHero.vehicle.seatsFree ≤ 0) := by
    rw [hfree]
    simp [Gameplay.State.carWithHero, Gameplay.Vehicle.new]
  refine ⟨rfl, rfl, hfree, ?_, ?_⟩
  · rw [Gameplay.Vehicle.board_fst, if_neg hc]
  · rw [Gameplay.Vehicle.board_vehicle, if_neg hc]
    rfl

/-- The entry `VEH_TYPES.fusion`. -/
theorem Gameplay.vehDef_fusion :
    Gameplay.vehDef "fusion" = ⟨3, 11 / 10, 14 / 10, true⟩ := rfl

/-- Every type other than "fusion" has a definition without the `fusion` flag. -/
theorem Gameplay.vehDef_not_fusion (type : String) (h : type ≠ "fusion") :
    (Gameplay.vehDef type).fusion = false := by
  unfold Gameplay.vehDef Gameplay.VEH_TYPES
  split <;> first | rfl | exact absurd rfl h

/-- Neither `board` nor `unboard` changes the field `def` of the vehicle. -/
theorem Gameplay.Call.run_typeDef (s : Gameplay.State) (c : Gameplay.Call) :
    (Gameplay.Call.run s c).vehicle.typeDef = s.vehicle.typeDef := by
  cases c with
  | board hero =>
    unfold Gameplay.Call.run Gameplay.Vehicle.board
    dsimp only
    split_ifs <;> rfl
  | unboard hero roll =>
    unfold Gameplay.Call.run Gameplay.Vehicle.unboard
    dsimp only
    split_ifs <;> rfl

/-- On a fusion vehicle each call keeps: while an occupant remains, the multipliers
are those of `VEH_TYPES.fusion`. -/
theorem Gameplay.Call.run_fusion_inv (s : Gameplay.State) (c : Gameplay.Call)
    (hdef : s.vehicle.typeDef = Gameplay.vehDef "fusion")
    (h : s.vehicle.occupants ≠ [] →
      s.speedMul = some (11 / 10) ∧ s.armorMul = some (14 / 10)) :
    (Gameplay.Call.run s c).vehicle.occupants ≠ [] →
      (Gameplay.Call.run s c).speedMul = some (11 / 10) ∧
        (Gameplay.Call.run s c).armorMul = some (14 / 10) := by
  cases c with
  | board hero =>
    unfold Gameplay.Call.run Gameplay.Vehicle.board
    dsimp only
    split_ifs with h1 h2
    · exact h
    · intro _
      rw [hdef]
      exact ⟨rfl, rfl⟩
    · rw [hdef] at h2
      exact absurd rfl h2
  | unboard hero roll =>
    unfold Gameplay.Call.run Gameplay.Vehicle.unboard
    dsimp only
    split_ifs with h1 h2
    · intro hne
      exact absurd (List.length_eq_zero.mp h2.2) hne
    · intro _
      exact h (fun hnil => by rw [hnil] at h1; exact absurd h1 (List.not_mem_nil _))
    · exact h

/-- On a vehicle without the `fusion` flag no call writes a multiplier. -/
theorem Gameplay.Call.run_plain (s : Gameplay.State) (c : Gameplay.Call)
    (hdef : s.vehicle.typeDef.fusion = false) :
    (Gameplay.Call.run s c).speedMul = s.speedMul ∧
      (Gameplay.Call.run s c).armorMul = s.armorMul := by
  cases c with
  | board hero =>
    unfold Gameplay.Call.run Gameplay.Vehicle.board
    dsimp only
    rw [hdef]
    split_ifs with h1 h2
    · exact ⟨rfl, rfl⟩
    · cases h2
    · exact ⟨rfl, rfl⟩
  | unboard hero roll =>
    unfold Gameplay.Call.run Gameplay.Vehicle.unboard
    dsimp only
    rw [hdef]
    split_ifs with h1 h2
    · exact absurd h2.1 (by simp)
    · exact ⟨rfl, rfl⟩
    · exact ⟨rfl, rfl⟩

/-- A sequence of calls on a fusion vehicle keeps the multipliers of
`VEH_TYPES.fusion` while an occupant remains. -/
theorem Gameplay.Call.runs_fusion_inv : ∀ (calls : List Gameplay.Call) (s : Gameplay.State),
    s.vehicle.typeDef = Gameplay.vehDef "fusion" →
    (s.vehicle.occupants ≠ [] →
      s.speedMul = some (11 / 10) ∧ s.armorMul = some (14 / 10)) →
    (calls.foldl Gameplay.Call.run s).vehicle.occupants ≠ [] →
      (calls.foldl Gameplay.Call.run s).speedMul = some (11 / 10) ∧
        (calls.foldl Gameplay.Call.run s).armorMul = some (14 / 10)
  | [], _, _, h => h
  | c :: calls, s, hdef, h => by
    rw [List.foldl_cons]
    exact Gameplay.Call.runs_fusion_inv calls (Gameplay.Call.run s c)
      ((Gameplay.Call.run_typeDef s c).trans hdef) (Gameplay.Call.run_fusion_inv s c hdef h)

/-- A sequence of calls on a vehicle without the `fusion` flag leaves both multipliers
as they were. -/
theorem Gameplay.Call.runs_plain : ∀ (calls : List Gameplay.Call) (s : Gameplay.State),
    s.vehicle.typeDef.fusion = false →
    (calls.foldl Gameplay.Call.run s).speedMul = s.speedMul ∧
      (calls.foldl Gameplay.Call.run s).armorMul = s.armorMul
  | [], _, _ => ⟨rfl, rfl⟩
  | c :: calls, s, hdef => by
    rw [List.foldl_cons]
    have hstep := Gameplay.Call.run_plain s c hdef
    have hrest := Gameplay.Call.runs_plain calls (Gameplay.Call.run s c)
      ((congrArg Gameplay.VehDef.fusion (Gameplay.Call.run_typeDef s c)).trans hdef)
    exact ⟨hrest.1.trans hstep.1, hrest.2.trans hstep.2⟩

/-- On the new fusion vehicle `board(1)` succeeds and sets the multipliers 1.1 and 1.4;
the `unboard(1)` that follows empties the vehicle and sets both to 1. -/
theorem Gameplay.State.fusionEmpty_round_trip (roll : ℚ) :
    (Gameplay.Vehicle.board Gameplay.State.fusionEmpty 1).1 = true ∧
      (Gameplay.Vehicle.board Gameplay.State.fusionEmpty 1).2.speedMul = some (11 / 10) ∧
      (Gameplay.Vehicle.board Gameplay.State.fusionEmpty 1).2.armorMul = some (14 / 10) ∧
      (Gameplay.Vehicle.unboard
        (Gameplay.Vehicle.board Gameplay.State.fusionEmpty 1).2 1 roll).1 = true ∧
      (Gameplay.Vehicle.unboard
        (Gameplay.Vehicle.board Gameplay.State.fusionEmpty 1).2 1 roll).2.vehicle.occupants
          = [] ∧
      (Gameplay.Vehicle.unboard
        (Gameplay.Vehicle.board Gameplay.State.fusionEmpty 1).2 1 roll).2.speedMul = some 1 ∧
      (Gameplay.Vehicle.unboard
        (Gameplay.Vehicle.board Gameplay.State.fusionEmpty 1).2 1 roll).2.armorMul = some 1 := by
  have hc : ¬ (Gameplay.State.fusionEmpty.vehicle.active = false ∨
      Gameplay.State.fusionEmpty.vehicle.seatsFree ≤ 0) := by
    simp [Gameplay.State.fusionEmpty, Gameplay.Vehicle.new, Gameplay.Vehicle.seatsFree,
      Gameplay.vehDef, Gameplay.VEH_TYPES]
  have hboard : Gameplay.Vehicle.board Gameplay.State.fusionEmpty 1 =
      (true, { Gameplay.State.fusionEmpty with
        vehicle := { Gameplay.State.fusionEmpty.vehicle with occupants := [1] }
        heroObj := Function.update Gameplay.State.fusionEmpty.heroObj 1
          { hidden := true, vehicleX := some 0, vehicleY := some 540 }
        speedMul := some (11 / 10)
        armorMul := some (14 / 10) }) := by
    unfold Gameplay.Vehicle.board
    rw [if_neg hc]
    rfl
  rw [hboard]
  refine ⟨rfl, rfl, rfl, ?_⟩
  unfold Gameplay.Vehicle.unboard
  simp [Gameplay.State.fusionEmpty, Gameplay.Vehicle.new, Gameplay.vehDef,
    Gameplay.VEH_TYPES]

/-- Claim C25: on a vehicle of type fusion a successful `board` sets `G.speedMul = 1.1`
and `G.armorMul = 1.4`, a failing `board` or `unboard` changes nothing, an `unboard`
that leaves an occupant leaves both multipliers as they were, and the `unboard` that
empties the vehicle sets both to 1; along every sequence of `board` and `unboard`
calls on a new fusion vehicle the multipliers are 1.1 and 1.4 whenever an occupant
remains. On a vehicle of any other type no sequence of calls modifies `G.speedMul` or
`G.armorMul`. The last part shows the cases to occur: on a new fusion vehicle
`board(1)` succeeds and the `unboard(1)` that follows empties the vehicle. -/
theorem Gameplay.Vehicle.fusion_multipliers :
    (∀ (s : Gameplay.State) (hero : ℕ),
        s.vehicle.typeDef = Gameplay.vehDef "fusion" →
        (Gameplay.Vehicle.board s hero).1 = true →
        (Gameplay.Vehicle.board s hero).2.speedMul = some (11 / 10) ∧
          (Gameplay.Vehicle.board s hero).2.armorMul = some (14 / 10)) ∧
      (∀ (s : Gameplay.State) (hero : ℕ) (roll : ℚ),
        ((Gameplay.Vehicle.board s hero).1 = false → (Gameplay.Vehicle.board s hero).2 = s) ∧
          ((Gameplay.Vehicle.unboard s hero roll).1 = false →
            (Gameplay.Vehicle.unboard s hero roll).2 = s)) ∧
      (∀ (s : Gameplay.State) (hero : ℕ) (roll : ℚ),
        (Gameplay.Vehicle.unboard s hero roll).2.vehicle.occupants ≠ [] →
        (Gameplay.Vehicle.unboard s hero roll).2.speedMul = s.speedMul ∧
          (Gameplay.Vehicle.unboard s hero roll).2.armorMul = s.armorMul) ∧
      (∀ (s : Gameplay.State) (hero : ℕ) (roll : ℚ),
        s.vehicle.typeDef = Gameplay.vehDef "fusion" →
        (Gameplay.Vehicle.unboard s hero roll).1 = true →
        (Gameplay.Vehicle.unboard s hero roll).2.vehicle.occupants = [] →
        (Gameplay.Vehicle.unboard s hero roll).2.speedMul = some 1 ∧
          (Gameplay.Vehicle.unboard s hero roll).2.armorMul = some 1) ∧
      (∀ (calls : List Gameplay.Call) (s : Gameplay.State) (x groundY : ℚ),
        s.vehicle = Gameplay.Vehicle.new "fusion" x groundY →
        (calls.foldl Gameplay.Call.run s).vehicle.occupants ≠ [] →
        (calls.foldl Gameplay.Call.run s).speedMul = some (11 / 10) ∧
          (calls.foldl Gameplay.Call.run s).armorMul = some (14 / 10)) ∧
      (∀ (calls : List Gameplay.Call) (s : Gameplay.State) (type : String) (x groundY : ℚ),
        type ≠ "fusion" → s.vehicle = Gameplay.Vehicle.new type x groundY →
        (calls.foldl Gameplay.Call.run s).speedMul = s.speedMul ∧
          (calls.foldl Gameplay.Call.run s).armorMul = s.armorMul) ∧
      (∀ (s : Gameplay.State) (c : Gameplay.Call), s.vehicle.typeDef.fusion = false →
        (Gameplay.Call.run s c).speedMul = s.speedMul ∧
          (Gameplay.Call.run s c).armorMul = s.armorMul) ∧
      (∀ roll : ℚ,
        (Gameplay.Vehicle.board Gameplay.State.fusionEmpty 1).1 = true ∧
          (Gameplay.Vehicle.unboard
            (Gameplay.Vehicle.board Gameplay.State.fusionEmpty 1).2 1 roll).1 = true ∧
          (Gameplay.Vehicle.unboard
            (Gameplay.Vehicle.board Gameplay.State.fusionEmpty 1).2 1
              roll).2.vehicle.occupants = []) := by
  refine ⟨?_, ?_, ?_, ?_, ?_, ?_, Gameplay.Call.run_plain, fun roll =>
    ⟨(Gameplay.State.fusionEmpty_round_trip roll).1,
      (Gameplay.State.fusionEmpty_round_trip roll).2.2.2.1,
      (Gameplay.State.fusionEmpty_round_trip roll).2.2.2.2.1⟩⟩
  · intro s hero hdef
    unfold Gameplay.Vehicle.board
    dsimp only
    split_ifs with h1 h2
    · intro h
      cases h
    · intro _
      rw [hdef]
      exact ⟨rfl, rfl⟩
    · rw [hdef] at h2
      exact absurd rfl h2
  · intro s hero roll
    constructor
    · unfold Gameplay.Vehicle.board
      dsimp only
      split_ifs
      · intro _
        rfl
      · intro h
        cases h
      · intro h
        cases h
    · unfold Gameplay.Vehicle.unboard
      dsimp only
      split_ifs
      · intro h
        cases h
      · intro h
        cases h
      · intro _
        rfl
  · intro s hero roll
    unfold Gameplay.Vehicle.unboard
    dsimp only
    split_ifs with h1 h2
    · intro hne
      exact absurd (List.length_eq_zero.mp h2.2) hne
    · intro _
      exact ⟨rfl, rfl⟩
    · intro _
      exact ⟨rfl, rfl⟩
  · intro s hero roll hdef
    unfold Gameplay.Vehicle.unboard
    dsimp only
    split_ifs with h1 h2
    · intro _ _
      exact ⟨rfl, rfl⟩
    · intro _ hnil
      dsimp only at hnil
      rw [hdef] at h2
      exact absurd ⟨rfl, by rw [hnil]; rfl⟩ h2
    · intro h
      cases h
  · intro calls s x groundY hs
    apply Gameplay.Call.runs_fusion_inv calls s
    · rw [hs]
      rfl
    · intro hne
      rw [hs] at hne
      exact absurd rfl hne
  · intro calls s type x groundY htype hs
    apply Gameplay.Call.runs_plain calls s
    rw [hs]
    exact Gameplay.vehDef_not_fusion type htype

end A1K
